import Mathlib

/-!
# FEBio: the update stage of the solid solver

A shallow embedding of `FEBio/update.cpp` (`FESolidSolver::Update`,
`UpdatePoro`, `UpdateRigidBodies`, `UpdateStresses`, `FEM::UpdateContact`).

Conventions of the embedding:

* `double` is an arbitrary linearly ordered field `R` (exact arithmetic);
  the definitions run on `ℚ` and the theorems hold in particular on `ℝ`.
* Randomly accessed arrays (`mesh.Node(i)`, `m_RB[i]`, `m_RJ[i]`, the equation
  vectors `m_Ut`, `m_Ui`, `ui`) are total maps from the index, with the element
  count kept next to them; containers that are only traversed (`m_DC`,
  `m_LinC`, the slave list of a constraint) are lists.
* An `int` whose sign the code tests (`m_ID`, `m_rid`, `m_LM`, `lc`, `bc`) is an
  `Int`; it is turned into an index with `Int.toNat` only after the test.
* The collaborators (contact interfaces, domains, plot file) keep their own
  state; what the solver does to them is recorded as a list of calls.
-/

namespace FEBio

/-! ## Vectors and quaternions -/

/-- A 3D vector of doubles (`vec3d`). -/
structure vec3d (R : Type) where
  x : R
  y : R
  z : R

/-- A quaternion (`quatd`), vector part `x y z` and scalar part `w`. -/
structure quatd (R : Type) where
  x : R
  y : R
  z : R
  w : R

/-- The functions the translation unit takes from outside the repository sources
at hand: the C library (`sqrt`, `sin`, `cos`) and the two ways `quatd.h` applies
a quaternion to a vector (`operator*(vec3d)` and `RotateVector`). -/
structure Ext (R : Type) where
  sqrt : R → R
  sin : R → R
  cos : R → R
  rotate : quatd R → vec3d R → vec3d R
  RotateVector : quatd R → vec3d R → vec3d R

section VecDefs

variable {R : Type} [LinearOrderedField R]

namespace vec3d

/-- Componentwise sum, `operator+`. -/
def add (a b : vec3d R) : vec3d R := ⟨a.x + b.x, a.y + b.y, a.z + b.z⟩

/-- Componentwise difference, `operator-`. -/
def sub (a b : vec3d R) : vec3d R := ⟨a.x - b.x, a.y - b.y, a.z - b.z⟩

/-- Product with a scalar on the right, `operator*(double)`. -/
def smul (a : vec3d R) (g : R) : vec3d R := ⟨a.x * g, a.y * g, a.z * g⟩

/-- Quotient by a scalar, `operator/(double)`. -/
def sdiv (a : vec3d R) (g : R) : vec3d R := ⟨a.x / g, a.y / g, a.z / g⟩

/-- Opposite vector. -/
def neg (a : vec3d R) : vec3d R := ⟨-a.x, -a.y, -a.z⟩

/-- The zero vector. -/
def zero : vec3d R := ⟨0, 0, 0⟩

/-- Modelled from the spec: `vec3d::unit()` of `vec3d.h` (not among the sources),
which "normalizes" the vector: every component is divided by the Euclidean
length. -/
def unit (E : Ext R) (a : vec3d R) : vec3d R :=
  sdiv a (E.sqrt (a.x * a.x + a.y * a.y + a.z * a.z))

/-- Component `k` of a vector: `x`, `y`, `z` for `k = 0, 1, 2`. -/
def comp (a : vec3d R) (k : Nat) : R :=
  match k with
  | 0 => a.x
  | 1 => a.y
  | _ => a.z

end vec3d

namespace quatd

/-- Squared length of a quaternion. -/
def normSq (q : quatd R) : R := q.x * q.x + q.y * q.y + q.z * q.z + q.w * q.w

/-- Length of a quaternion, `quatd::Norm`. -/
def Norm (E : Ext R) (q : quatd R) : R := E.sqrt (normSq q)

/-- Modelled from the spec: the constructor `quatd(angle, axis)` of `quatd.h` (not
among the sources). The rotation vector "is converted to an incremental unit
quaternion": scalar part `cos(angle/2)`, vector part `sin(angle/2)` times the
normalised axis. -/
def ofAngleAxis (E : Ext R) (angle : R) (v : vec3d R) : quatd R :=
  let u := vec3d.unit E v
  let sina := E.sin (angle / 2)
  ⟨u.x * sina, u.y * sina, u.z * sina, E.cos (angle / 2)⟩

/-- Modelled from the spec: `quatd::operator*(quatd)` of `quatd.h` (not among the
sources), the quaternion product that composes rotations, `p` applied after
`q`. -/
def mul (p q : quatd R) : quatd R :=
  ⟨p.w * q.x + p.x * q.w + p.y * q.z - p.z * q.y,
   p.w * q.y + p.y * q.w + p.z * q.x - p.x * q.z,
   p.w * q.z + p.z * q.w + p.x * q.y - p.y * q.x,
   p.w * q.w - p.x * q.x - p.y * q.y - p.z * q.z⟩

/-- Modelled from the spec: `quatd::MakeUnit()` of `quatd.h` (not among the
sources): the quaternion is "renormalized to unit length", every component
divided by the length. -/
def MakeUnit (E : Ext R) (q : quatd R) : quatd R :=
  let N := Norm E q
  ⟨q.x / N, q.y / N, q.z / N, q.w / N⟩

end quatd

end VecDefs

/-! ## The data model -/

/-- A mesh node: reference, current and previous-step position, velocities and
accelerations, rotational dofs, fluid pressure, the equation ids `m_ID` (an
equation number when `≥ 0`, `-1` when fixed) and the rigid body id `m_rid`. -/
structure FENode (R : Type) where
  m_r0 : vec3d R
  m_rt : vec3d R
  m_rp : vec3d R
  m_vt : vec3d R
  m_vp : vec3d R
  m_at : vec3d R
  m_ap : vec3d R
  m_D0 : vec3d R
  m_Dt : vec3d R
  m_pt : R
  m_ID : Nat → Int
  m_rid : Int

/-- A prescribed displacement of a rigid body: load curve id and scale factor. -/
structure FERigidBodyDisplacement (R : Type) where
  lc : Int
  sf : R

/-- A rigid body. The arrays `m_LM`, `m_du`, `m_Up`, `m_Ut`, `m_pDC` have six
entries (three translations, three rotations); a null `m_pDC[j]` is `none`. -/
structure FERigidBody (R : Type) where
  m_bActive : Bool
  m_LM : Fin 6 → Int
  m_du : Fin 6 → R
  m_Up : Fin 6 → R
  m_Ut : Fin 6 → R
  m_pDC : Fin 6 → Option (FERigidBodyDisplacement R)
  m_r0 : vec3d R
  m_rt : vec3d R
  m_rp : vec3d R
  m_qt : quatd R
  m_qp : quatd R

/-- A rigid joint between the bodies `m_nRBa` and `m_nRBb`. -/
structure FERigidJoint (R : Type) where
  m_nRBa : Nat
  m_nRBb : Nat
  m_qa0 : vec3d R
  m_qb0 : vec3d R
  m_F : vec3d R
  m_L : vec3d R
  m_eps : R

/-- A prescribed nodal displacement (an entry of `m_DC`); `IsActive` is what
`IsActive()` returns. -/
structure FENodalDisplacement (R : Type) where
  IsActive : Bool
  node : Nat
  lc : Int
  bc : Int
  s : R

/-- The master dof of a linear constraint. -/
structure MasterDOF where
  node : Nat
  bc : Int

/-- A slave dof of a linear constraint, with its weight `val`. -/
structure SlaveDOF (R : Type) where
  node : Nat
  bc : Int
  val : R

/-- A linear constraint: one master dof and its list of slave dofs. -/
structure FELinearConstraint (R : Type) where
  master : MasterDOF
  slave : List (SlaveDOF R)

/-- The current analysis step (`m_pStep`). -/
structure FEAnalysisStep (R : Type) where
  m_nanalysis : Int
  m_nModule : Int
  m_nplot : Int
  m_dt : R

/-- The enumeration constants the code compares the step's settings with; their
values are declared in headers that are not among the sources. -/
structure FEConstants where
  FE_DYNAMIC : Int
  FE_POROELASTIC : Int
  FE_PLOT_MINOR_ITRS : Int

/-- A call the solver makes to a collaborator. -/
inductive Call where
  | ContactUpdate (i : Nat)
  | DomainUpdateStresses (i : Nat)
  | PlotWrite
  deriving DecidableEq, Repr

/-- The mesh: `Nodes()` nodes and `Domains()` domains. -/
structure FEMesh (R : Type) where
  Nodes : Nat
  Node : Nat → FENode R
  Domains : Nat

/-- The model (`FEM`). `LoadCurve lc` is `GetLoadCurve(lc)->Value()`, the value
of curve `lc` at the current time; `m_calls` records the collaborator calls. -/
structure FEM (R : Type) where
  m_mesh : FEMesh R
  m_nrb : Nat
  m_RB : Nat → FERigidBody R
  m_nrj : Nat
  m_RJ : Nat → FERigidJoint R
  m_DC : List (FENodalDisplacement R)
  m_LinC : List (FELinearConstraint R)
  m_pStep : FEAnalysisStep R
  m_bcontact : Bool
  ContactInterfaces : Nat
  LoadCurve : Int → R
  m_calls : List Call

/-- The solver: the model, the total displacement at the previous converged
step `m_Ut` and the total increment of this step so far `m_Ui`. -/
structure FESolidSolver (R : Type) where
  m_fem : FEM R
  m_Ut : Nat → R
  m_Ui : Nat → R

section Defs

variable {R : Type} [LinearOrderedField R]

namespace FENode

/-- Current value of nodal component `k`: `m_rt.x/y/z` for `k = 0, 1, 2` and
`m_Dt.x/y/z` for `k = 3, 4, 5`. -/
def cur (nd : FENode R) (k : Nat) : R :=
  if k < 3 then nd.m_rt.comp k else nd.m_Dt.comp (k - 3)

/-- Reference value of nodal component `k`: `m_r0.x/y/z` for `k = 0, 1, 2` and
`m_D0.x/y/z` for `k = 3, 4, 5`. -/
def ref (nd : FENode R) (k : Nat) : R :=
  if k < 3 then nd.m_r0.comp k else nd.m_D0.comp (k - 3)

end FENode

/-- Replace the nodes of the solver's mesh. -/
def FESolidSolver.withNodes (S : FESolidSolver R) (Node : Nat → FENode R) : FESolidSolver R :=
  { S with m_fem := { S.m_fem with m_mesh := { S.m_fem.m_mesh with Node := Node } } }

/-- Run a loop body on the array entries `0 .. n-1`, where the body for entry `i`
only writes entry `i`. -/
def forEach {α : Type} (n : Nat) (f : α → α) (a : Nat → α) : Nat → α :=
  fun i => if i < n then f (a i) else a i

/-! ## `FESolidSolver::UpdateRigidBodies` -/

/-- Body of the loop `for (j=0; j<3; ++j)` over the translational components. -/
def duDisplacement (LoadCurve : Int → R) (m_Ui ui : Nat → R) (s : R)
    (RB : FERigidBody R) (j : Fin 6) : R :=
  match RB.m_pDC j with
  | some pdc => if pdc.lc < 0 then 0 else pdc.sf * LoadCurve (pdc.lc - 1) - RB.m_Up j
  | none => if 0 ≤ RB.m_LM j then m_Ui (RB.m_LM j).toNat + s * ui (RB.m_LM j).toNat else 0

/-- Body of the loop `for (j=3; j<6; ++j)` over the rotational components. -/
def duRotation (LoadCurve : Int → R) (m_Ui ui : Nat → R) (s : R)
    (RB : FERigidBody R) (j : Fin 6) : R :=
  match RB.m_pDC j with
  | some pdc => if pdc.lc < 0 then 0 else LoadCurve (pdc.lc - 1) - RB.m_Up j
  | none => if 0 ≤ RB.m_LM j then m_Ui (RB.m_LM j).toNat + s * ui (RB.m_LM j).toNat else 0

/-- The array `du` after the two loops. -/
def rigidDu (LoadCurve : Int → R) (m_Ui ui : Nat → R) (s : R)
    (RB : FERigidBody R) (j : Fin 6) : R :=
  if j.val < 3 then duDisplacement LoadCurve m_Ui ui s RB j
  else duRotation LoadCurve m_Ui ui s RB j

/-- Body of the loop over the rigid bodies: an active body gets its new
displacement `m_du`, position, orientation and total displacement. -/
def updateRigidBody (E : Ext R) (LoadCurve : Int → R) (m_Ui ui : Nat → R) (s : R)
    (RB : FERigidBody R) : FERigidBody R :=
  if RB.m_bActive then
    let du := rigidDu LoadCurve m_Ui ui s RB
    let r : vec3d R := ⟨du 3, du 4, du 5⟩
    let w := E.sqrt (r.x * r.x + r.y * r.y + r.z * r.z)
    let dq := quatd.ofAngleAxis E w r
    { RB with
      m_du := du
      m_rt := ⟨RB.m_rp.x + du 0, RB.m_rp.y + du 1, RB.m_rp.z + du 2⟩
      m_qt := quatd.MakeUnit E (quatd.mul dq RB.m_qp)
      m_Ut := fun j => RB.m_Up j + du j }
  else RB

/-- Body of the loop over the nodes: a node of a rigid body follows the body. -/
def updateRigidNode (E : Ext R) (m_RB : Nat → FERigidBody R) (node : FENode R) : FENode R :=
  if 0 ≤ node.m_rid then
    let RB := m_RB node.m_rid.toNat
    let a0 := vec3d.sub node.m_r0 RB.m_r0
    let at_ := E.rotate RB.m_qt a0
    { node with m_rt := vec3d.add RB.m_rt at_ }
  else node

/-- Body of the loop over the rigid joints: the joint force. -/
def updateRigidJoint (E : Ext R) (m_RB : Nat → FERigidBody R) (rj : FERigidJoint R) :
    FERigidJoint R :=
  let RBa := m_RB rj.m_nRBa
  let RBb := m_RB rj.m_nRBb
  let ra := RBa.m_rt
  let rb := RBb.m_rt
  let qa := E.RotateVector RBa.m_qt rj.m_qa0
  let qb := E.RotateVector RBb.m_qt rj.m_qb0
  let c := vec3d.sub (vec3d.sub (vec3d.add ra qa) rb) qb
  { rj with m_F := vec3d.add rj.m_L (vec3d.smul c rj.m_eps) }

/-- `FESolidSolver::UpdateRigidBodies(ui, s)`: the rigid bodies, then the nodes
attached to them, then the rigid joints (the guard `if (m_nrj)` is the loop's
own bound). -/
def UpdateRigidBodies (E : Ext R) (S : FESolidSolver R) (ui : Nat → R) (s : R) :
    FESolidSolver R :=
  let fem := S.m_fem
  let RB := forEach fem.m_nrb (updateRigidBody E fem.LoadCurve S.m_Ui ui s) fem.m_RB
  let Node := forEach fem.m_mesh.Nodes (updateRigidNode E RB) fem.m_mesh.Node
  let RJ := forEach fem.m_nrj (updateRigidJoint E RB) fem.m_RJ
  { S with m_fem := { fem with
      m_RB := RB
      m_mesh := { fem.m_mesh with Node := Node }
      m_RJ := RJ } }

/-! ## `FESolidSolver::Update`, pass by pass -/

/-- Body of the loop "update flexible nodes": each of the six dofs with an
equation number `n ≥ 0` is set to reference + `m_Ut[n] + m_Ui[n] + s*ui[n]`. -/
def updateFlexibleNode (m_Ut m_Ui ui : Nat → R) (s : R) (node : FENode R) : FENode R :=
  { node with
    m_rt :=
      ⟨if 0 ≤ node.m_ID 0 then
          node.m_r0.x + m_Ut (node.m_ID 0).toNat + m_Ui (node.m_ID 0).toNat
            + s * ui (node.m_ID 0).toNat
        else node.m_rt.x,
       if 0 ≤ node.m_ID 1 then
          node.m_r0.y + m_Ut (node.m_ID 1).toNat + m_Ui (node.m_ID 1).toNat
            + s * ui (node.m_ID 1).toNat
        else node.m_rt.y,
       if 0 ≤ node.m_ID 2 then
          node.m_r0.z + m_Ut (node.m_ID 2).toNat + m_Ui (node.m_ID 2).toNat
            + s * ui (node.m_ID 2).toNat
        else node.m_rt.z⟩
    m_Dt :=
      ⟨if 0 ≤ node.m_ID 3 then
          node.m_D0.x + m_Ut (node.m_ID 3).toNat + m_Ui (node.m_ID 3).toNat
            + s * ui (node.m_ID 3).toNat
        else node.m_Dt.x,
       if 0 ≤ node.m_ID 4 then
          node.m_D0.y + m_Ut (node.m_ID 4).toNat + m_Ui (node.m_ID 4).toNat
            + s * ui (node.m_ID 4).toNat
        else node.m_Dt.y,
       if 0 ≤ node.m_ID 5 then
          node.m_D0.z + m_Ut (node.m_ID 5).toNat + m_Ui (node.m_ID 5).toNat
            + s * ui (node.m_ID 5).toNat
        else node.m_Dt.z⟩ }

/-- The loop "update flexible nodes" (lines 26-40). -/
def updateFlexibleNodes (S : FESolidSolver R) (ui : Nat → R) (s : R) : FESolidSolver R :=
  S.withNodes (forEach S.m_fem.m_mesh.Nodes (updateFlexibleNode S.m_Ut S.m_Ui ui s)
    S.m_fem.m_mesh.Node)

/-- What a prescribed displacement with component code `bc` and value `g` writes
to its node (the `switch (bc)` of lines 57-77). -/
def prescribeNode (E : Ext R) (bc : Int) (g : R) (node : FENode R) : FENode R :=
  if bc = 0 then { node with m_rt := { node.m_rt with x := node.m_r0.x + g } }
  else if bc = 1 then { node with m_rt := { node.m_rt with y := node.m_r0.y + g } }
  else if bc = 2 then { node with m_rt := { node.m_rt with z := node.m_r0.z + g } }
  else if bc = 20 then
    let dr := vec3d.smul (vec3d.unit E { node.m_r0 with x := 0 }) g
    { node with m_rt := { node.m_rt with y := node.m_r0.y + dr.y, z := node.m_r0.z + dr.z } }
  else node

/-- Body of the loop over `m_DC` in `Update`. -/
def prescribedDisplacementStep (E : Ext R) (LoadCurve : Int → R) (Node : Nat → FENode R)
    (dc : FENodalDisplacement R) : Nat → FENode R :=
  if dc.IsActive then
    let g := dc.s * LoadCurve dc.lc
    Function.update Node dc.node (prescribeNode E dc.bc g (Node dc.node))
  else Node

/-- The loop "make sure the prescribed displacements are fullfilled" (lines 42-79). -/
def applyPrescribedDisplacements (E : Ext R) (S : FESolidSolver R) : FESolidSolver R :=
  S.withNodes (S.m_fem.m_DC.foldl (prescribedDisplacementStep E S.m_fem.LoadCurve)
    S.m_fem.m_mesh.Node)

/-- Body of the loop over the slave dofs of a constraint: the contribution of
one slave is added to `d`. -/
def slaveStep (Node : Nat → FENode R) (d : R) (si : SlaveDOF R) : R :=
  let node := Node si.node
  if si.bc = 0 then d + si.val * (node.m_rt.x - node.m_r0.x)
  else if si.bc = 1 then d + si.val * (node.m_rt.y - node.m_r0.y)
  else if si.bc = 2 then d + si.val * (node.m_rt.z - node.m_r0.z)
  else d

/-- What a constraint writes to its master node (the `switch (lc.master.bc)`). -/
def writeMaster (bc : Int) (d : R) (node : FENode R) : FENode R :=
  if bc = 0 then { node with m_rt := { node.m_rt with x := node.m_r0.x + d } }
  else if bc = 1 then { node with m_rt := { node.m_rt with y := node.m_r0.y + d } }
  else if bc = 2 then { node with m_rt := { node.m_rt with z := node.m_r0.z + d } }
  else node

/-- Body of the loop over `m_LinC`: the slaves are read from the mesh as it is
when the constraint is reached. -/
def linearConstraintStep (Node : Nat → FENode R) (lc : FELinearConstraint R) :
    Nat → FENode R :=
  let d := lc.slave.foldl (slaveStep Node) 0
  Function.update Node lc.master.node (writeMaster lc.master.bc d (Node lc.master.node))

/-- The block "enforce the linear constraints" (lines 84-115); the guard
`m_LinC.size() > 0` is the loop's own bound. -/
def enforceLinearConstraints (S : FESolidSolver R) : FESolidSolver R :=
  S.withNodes (S.m_fem.m_LinC.foldl linearConstraintStep S.m_fem.m_mesh.Node)

/-- Body of the loop of the dynamic update (lines 126-131). -/
def updateDynamicsNode (dt : R) (n : FENode R) : FENode R :=
  let a := 4 / dt
  let b := a / dt
  let m_at := vec3d.sub (vec3d.sub (vec3d.smul (vec3d.sub n.m_rt n.m_rp) b)
    (vec3d.smul n.m_vp a)) n.m_ap
  { n with
    m_at := m_at
    m_vt := vec3d.add n.m_vp (vec3d.smul (vec3d.smul (vec3d.add n.m_ap m_at) dt) (1 / 2)) }

/-- The block "update velocity and accelerations for dynamic simulations"
(lines 120-132). -/
def updateDynamics (K : FEConstants) (S : FESolidSolver R) : FESolidSolver R :=
  if S.m_fem.m_pStep.m_nanalysis = K.FE_DYNAMIC then
    S.withNodes (forEach S.m_fem.m_mesh.Nodes (updateDynamicsNode S.m_fem.m_pStep.m_dt)
      S.m_fem.m_mesh.Node)
  else S

/-- First loop of `UpdatePoro`: the nodal pressure. -/
def updatePressureNode (m_Ut m_Ui ui : Nat → R) (s : R) (node : FENode R) : FENode R :=
  if 0 ≤ node.m_ID 6 then
    { node with m_pt := 0 + m_Ut (node.m_ID 6).toNat + m_Ui (node.m_ID 6).toNat
        + s * ui (node.m_ID 6).toNat }
  else node

/-- Second loop of `UpdatePoro`: the nodal velocity. -/
def updatePoroVelocityNode (dt : R) (node : FENode R) : FENode R :=
  { node with m_vt := vec3d.sdiv (vec3d.sub node.m_rt node.m_rp) dt }

/-- Body of the loop over `m_DC` in `UpdatePoro`. -/
def prescribedPressureStep (LoadCurve : Int → R) (Node : Nat → FENode R)
    (dc : FENodalDisplacement R) : Nat → FENode R :=
  if dc.IsActive then
    if dc.bc = 6 then
      Function.update Node dc.node { Node dc.node with m_pt := dc.s * LoadCurve dc.lc }
    else Node
  else Node

/-- `FESolidSolver::UpdatePoro(ui, s)`. -/
def UpdatePoro (S : FESolidSolver R) (ui : Nat → R) (s : R) : FESolidSolver R :=
  let N := S.m_fem.m_mesh.Nodes
  let Node1 := forEach N (updatePressureNode S.m_Ut S.m_Ui ui s) S.m_fem.m_mesh.Node
  let Node2 := forEach N (updatePoroVelocityNode S.m_fem.m_pStep.m_dt) Node1
  S.withNodes (S.m_fem.m_DC.foldl (prescribedPressureStep S.m_fem.LoadCurve) Node2)

/-- Record calls to collaborators, in the order they are made. -/
def FESolidSolver.call (S : FESolidSolver R) (cs : List Call) : FESolidSolver R :=
  { S with m_fem := { S.m_fem with m_calls := S.m_fem.m_calls ++ cs } }

/-- `FEM::UpdateContact()`: every contact interface is updated, in index order. -/
def UpdateContact (S : FESolidSolver R) : FESolidSolver R :=
  S.call ((List.range S.m_fem.ContactInterfaces).map Call.ContactUpdate)

/-- `FESolidSolver::UpdateStresses()`: every domain updates its stresses, in
index order. -/
def UpdateStresses (S : FESolidSolver R) : FESolidSolver R :=
  S.call ((List.range S.m_fem.m_mesh.Domains).map Call.DomainUpdateStresses)

/-- The state of `FESolidSolver::Update(ui, s)` after the linear constraints
(line 115): rigid bodies, flexible nodes, prescribed displacements, linear
constraints. -/
def updatePositions (E : Ext R) (S : FESolidSolver R) (ui : Nat → R) (s : R) :
    FESolidSolver R :=
  enforceLinearConstraints
    (applyPrescribedDisplacements E
      (updateFlexibleNodes (UpdateRigidBodies E S ui s) ui s))

/-- `FESolidSolver::Update(ui, s)`. -/
def Update (E : Ext R) (K : FEConstants) (S : FESolidSolver R) (ui : Nat → R) (s : R) :
    FESolidSolver R :=
  let S4 := updatePositions E S ui s
  let S5 := updateDynamics K S4
  let S6 := if S5.m_fem.m_pStep.m_nModule = K.FE_POROELASTIC then UpdatePoro S5 ui s else S5
  let S7 := if S6.m_fem.m_bcontact then UpdateContact S6 else S6
  let S8 := UpdateStresses S7
  if S8.m_fem.m_pStep.m_nplot = K.FE_PLOT_MINOR_ITRS then S8.call [Call.PlotWrite] else S8

/-! ## Concrete inputs

The inputs at which the theorems below are instantiated or refuted. -/

/-- The outside functions on `ℚ`, for inputs in which every rigid body keeps the
identity orientation and does not rotate: there `sqrt` is only applied to `0` and
`1`, `sin` and `cos` only to `0`, and a vector is only rotated by the identity
quaternion, and on these arguments the functions below are the exact ones. -/
def restExt : Ext ℚ :=
  { sqrt := fun x => x
    sin := fun _ => 0
    cos := fun _ => 1
    rotate := fun _ v => v
    RotateVector := fun _ v => v }

/-- Values for the enumeration constants (any three values would do). -/
def exConstants : FEConstants :=
  { FE_DYNAMIC := 1, FE_POROELASTIC := 2, FE_PLOT_MINOR_ITRS := 3 }

/-- A node at rest at `r0`: all dofs fixed, no rigid body, no velocity. -/
def restNode (r0 : vec3d R) : FENode R :=
  { m_r0 := r0, m_rt := r0, m_rp := r0
    m_vt := vec3d.zero, m_vp := vec3d.zero, m_at := vec3d.zero, m_ap := vec3d.zero
    m_D0 := vec3d.zero, m_Dt := vec3d.zero
    m_pt := 0
    m_ID := fun _ => -1
    m_rid := -1 }

/-- An inactive rigid body at the origin, identity orientation, no equations and
no prescribed displacement. -/
def restBody : FERigidBody R :=
  { m_bActive := false
    m_LM := fun _ => -1
    m_du := fun _ => 0, m_Up := fun _ => 0, m_Ut := fun _ => 0
    m_pDC := fun _ => none
    m_r0 := vec3d.zero, m_rt := vec3d.zero, m_rp := vec3d.zero
    m_qt := ⟨0, 0, 0, 1⟩, m_qp := ⟨0, 0, 0, 1⟩ }

/-- A rigid joint at the origin between bodies 0 and 1, without force. -/
def restJoint : FERigidJoint R :=
  { m_nRBa := 0, m_nRBb := 1
    m_qa0 := vec3d.zero, m_qb0 := vec3d.zero
    m_F := vec3d.zero, m_L := vec3d.zero, m_eps := 0 }

/-- A model without nodes, rigid bodies, joints, conditions or constraints, in a
step of size 1 whose analysis, module and plot codes are none of the constants
of `exConstants`; every load curve has value 0. -/
def emptyModel : FEM R :=
  { m_mesh := { Nodes := 0, Node := fun _ => restNode vec3d.zero, Domains := 0 }
    m_nrb := 0, m_RB := fun _ => restBody
    m_nrj := 0, m_RJ := fun _ => restJoint
    m_DC := [], m_LinC := []
    m_pStep := { m_nanalysis := 0, m_nModule := 0, m_nplot := 0, m_dt := 1 }
    m_bcontact := false
    ContactInterfaces := 0
    LoadCurve := fun _ => 0
    m_calls := [] }

/-- The two-node scenario of the spec: node 0 ("A") is fixed at the origin, node 1
("B") at `(1, 0, 0)` is free with equation ids `[0, 1, 2]`. -/
def twoNodeSolver : FESolidSolver ℚ :=
  { m_fem := { (emptyModel : FEM ℚ) with
      m_mesh :=
        { Nodes := 2
          Node := fun i =>
            if i = 1 then
              { restNode (⟨1, 0, 0⟩ : vec3d ℚ) with m_ID := fun k => if k < 3 then (k : Int) else -1 }
            else restNode ⟨0, 0, 0⟩
          Domains := 1 } }
    m_Ut := fun _ => 0
    m_Ui := fun _ => 0 }

/-- The trial increment `ui = [0.1, 0, 0]` of the two-node scenario. -/
def twoNodeTrial : Nat → ℚ := fun n => if n = 0 then 1 / 10 else 0

/-- One node at `(1, 0, 0)` with all dofs fixed, attached to the active rigid body
0, whose x-translation is the free equation 0. -/
def rigidNodeSolver : FESolidSolver ℚ :=
  { m_fem := { (emptyModel : FEM ℚ) with
      m_mesh :=
        { Nodes := 1
          Node := fun _ => { restNode (⟨1, 0, 0⟩ : vec3d ℚ) with m_rid := 0 }
          Domains := 1 }
      m_nrb := 1
      m_RB := fun _ =>
        { (restBody : FERigidBody ℚ) with
          m_bActive := true
          m_LM := fun j => if j = 0 then 0 else -1 } }
    m_Ut := fun _ => 0
    m_Ui := fun _ => 0 }

/-- One node with all dofs fixed, displaced to `(1, 0, 0)` from its previous-step
position at the origin, in a step that is dynamic and poroelastic
(for `exConstants`). -/
def dynamicPoroSolver : FESolidSolver ℚ :=
  { m_fem := { (emptyModel : FEM ℚ) with
      m_mesh :=
        { Nodes := 1
          Node := fun _ => { restNode (⟨0, 0, 0⟩ : vec3d ℚ) with m_rt := ⟨1, 0, 0⟩ }
          Domains := 1 }
      m_pStep := { m_nanalysis := 1, m_nModule := 2, m_nplot := 0, m_dt := 1 } }
    m_Ut := fun _ => 0
    m_Ui := fun _ => 0 }

/-- One free node (equation ids `[0, 1, 2]`) at rest at the origin with previous
acceleration `(1, 0, 0)`, in a dynamic step (for `exConstants`) of size 1. -/
def dynamicFreeNodeSolver : FESolidSolver ℚ :=
  { m_fem := { (emptyModel : FEM ℚ) with
      m_mesh :=
        { Nodes := 1
          Node := fun _ =>
            { restNode (⟨0, 0, 0⟩ : vec3d ℚ) with
              m_ID := fun k => if k < 3 then (k : Int) else -1
              m_ap := ⟨1, 0, 0⟩ }
          Domains := 1 }
      m_pStep := { m_nanalysis := 1, m_nModule := 0, m_nplot := 0, m_dt := 1 } }
    m_Ut := fun _ => 0
    m_Ui := fun _ => 0 }

/-- One active rigid body whose x-translation has a prescribed displacement with
curve id 1 and scale factor 1; every load curve has value 2 and the x-displacement
already committed is 0.5 (the rigid-body scenario of the spec). -/
def prescribedBodySolver : FESolidSolver ℚ :=
  { m_fem := { (emptyModel : FEM ℚ) with
      m_nrb := 1
      m_RB := fun _ =>
        { (restBody : FERigidBody ℚ) with
          m_bActive := true
          m_pDC := fun j => if j = 0 then some { lc := 1, sf := 1 } else none
          m_Up := fun j => if j = 0 then 1 / 2 else 0 }
      LoadCurve := fun _ => 2 }
    m_Ut := fun _ => 0
    m_Ui := fun _ => 0 }

/-- One active rigid body whose rotation about x (component 3) has a prescribed
displacement with curve id 1 and scale factor 2; every load curve has value 1 and
nothing is committed yet. -/
def rotationDriverSolver : FESolidSolver ℚ :=
  { m_fem := { (emptyModel : FEM ℚ) with
      m_nrb := 1
      m_RB := fun _ =>
        { (restBody : FERigidBody ℚ) with
          m_bActive := true
          m_pDC := fun j => if j = 3 then some { lc := 1, sf := 2 } else none }
      LoadCurve := fun _ => 1 }
    m_Ut := fun _ => 0
    m_Ui := fun _ => 0 }

/-- One active rigid body with identity orientation whose rotation about x
(component 3) is the free equation 0. -/
def freeRotationSolver : FESolidSolver R :=
  { m_fem := { (emptyModel : FEM R) with
      m_nrb := 1
      m_RB := fun _ =>
        { (restBody : FERigidBody R) with
          m_bActive := true
          m_LM := fun j => if j = 3 then 0 else -1 } }
    m_Ut := fun _ => 0
    m_Ui := fun _ => 0 }

/-! ## Notions used to state the properties -/

/-- Component of a vector addressed by a dof code: `x`, `y`, `z` for the codes
`0`, `1`, `2` of the translational dofs, and `0` for any other code. -/
def vec3d.compAt (a : vec3d R) (bc : Int) : R :=
  if bc = 0 then a.x else if bc = 1 then a.y else if bc = 2 then a.z else 0

/-- Displacement of a node on the dof `bc`: current minus reference position on
that component (`0` for a code that is not translational, as in the slave loop
of the linear constraints). -/
def dofDisp (node : FENode R) (bc : Int) : R :=
  node.m_rt.compAt bc - node.m_r0.compAt bc

/-- The weighted sum of a constraint's slave displacements on a mesh:
`Σ val * (m_rt - m_r0)` over the slave dofs. -/
def constraintSum (Node : Nat → FENode R) (slaves : List (SlaveDOF R)) : R :=
  (slaves.map (fun si => si.val * dofDisp (Node si.node) si.bc)).sum

/-- The dof `(node, bc)` is the master dof of the constraint. -/
def FELinearConstraint.isMaster (c : FELinearConstraint R) (node : Nat) (bc : Int) : Bool :=
  c.master.node == node && c.master.bc == bc

/-- No slave dof of a constraint of the list is the master dof of that constraint
or of a later one: when a constraint is reached, its slaves have their final
value. -/
def slavesFinal : List (FELinearConstraint R) → Bool
  | [] => true
  | c :: rest =>
    c.slave.all (fun si => (c :: rest).all (fun c' => !c'.isMaster si.node si.bc))
      && slavesFinal rest

/-- The solver `T` differs from `S` at most in the nodes of the mesh and in the
recorded calls. -/
def SameFrame (S T : FESolidSolver R) : Prop :=
  T.m_Ut = S.m_Ut ∧ T.m_Ui = S.m_Ui ∧ T.m_fem.m_pStep = S.m_fem.m_pStep ∧
  T.m_fem.m_mesh.Nodes = S.m_fem.m_mesh.Nodes ∧
  T.m_fem.m_mesh.Domains = S.m_fem.m_mesh.Domains ∧
  T.m_fem.m_DC = S.m_fem.m_DC ∧ T.m_fem.m_LinC = S.m_fem.m_LinC ∧
  T.m_fem.LoadCurve = S.m_fem.LoadCurve ∧
  T.m_fem.m_nrb = S.m_fem.m_nrb ∧ T.m_fem.m_RB = S.m_fem.m_RB ∧
  T.m_fem.m_nrj = S.m_fem.m_nrj ∧ T.m_fem.m_RJ = S.m_fem.m_RJ ∧
  T.m_fem.m_bcontact = S.m_fem.m_bcontact ∧
  T.m_fem.ContactInterfaces = S.m_fem.ContactInterfaces

/-- The nodes `b`, `b'` come from the nodes `a`, `a'` by passes that, on every
translational dof, either write the same value to both or leave both alone. -/
def Tracks (a a' b b' : FENode R) : Prop :=
  b.m_r0 = b'.m_r0 ∧
  ∀ bc : Int, b.m_rt.compAt bc = b'.m_rt.compAt bc ∨
    (b.m_rt.compAt bc = a.m_rt.compAt bc ∧ b'.m_rt.compAt bc = a'.m_rt.compAt bc)

/-- Three nodes A, B, C (0, 1, 2) at rest at the origin and two linear constraints
stored in the order `A.x = B.x`, `B.x = C.x`; A and B are fixed (`m_ID = -1`), the
x-dof of C is the free equation 0. -/
def chainSolver : FESolidSolver ℚ :=
  { m_fem := { (emptyModel : FEM ℚ) with
      m_mesh :=
        { Nodes := 3
          Node := fun i =>
            if i = 2 then
              { restNode (⟨0, 0, 0⟩ : vec3d ℚ) with m_ID := fun k => if k = 0 then 0 else -1 }
            else restNode ⟨0, 0, 0⟩
          Domains := 1 }
      m_LinC :=
        [ { master := { node := 0, bc := 0 }, slave := [{ node := 1, bc := 0, val := 1 }] },
          { master := { node := 1, bc := 0 }, slave := [{ node := 2, bc := 0, val := 1 }] } ] }
    m_Ut := fun _ => 0
    m_Ui := fun _ => 0 }

/-- The model of `chainSolver` with the two constraints stored in the order
`B.x = C.x`, `A.x = B.x`. -/
def orderedChainSolver : FESolidSolver ℚ :=
  { chainSolver with
    m_fem := { chainSolver.m_fem with
      m_LinC :=
        [ { master := { node := 1, bc := 0 }, slave := [{ node := 2, bc := 0, val := 1 }] },
          { master := { node := 0, bc := 0 }, slave := [{ node := 1, bc := 0, val := 1 }] } ] } }

/-- Two inactive rigid bodies at rest at the origin joined by one rigid joint with
multiplier `m_L = (1, 2, 3)`, penalty `m_eps = 5` and both anchors at the
origin. -/
def jointSolver : FESolidSolver ℚ :=
  { m_fem := { (emptyModel : FEM ℚ) with
      m_nrb := 2
      m_nrj := 1
      m_RJ := fun _ => { (restJoint : FERigidJoint ℚ) with m_L := ⟨1, 2, 3⟩, m_eps := 5 } }
    m_Ut := fun _ => 0
    m_Ui := fun _ => 0 }

/-- The two-node scenario with two active prescribed displacements on the x-dof
of node 1, of values `2 * 3` and then `1 * 3`, and an inactive one in between;
every load curve has value 3. -/
def prescribedNodeSolver : FESolidSolver ℚ :=
  { twoNodeSolver with
    m_fem := { twoNodeSolver.m_fem with
      m_DC :=
        [ { IsActive := true, node := 1, lc := 0, bc := 0, s := 2 },
          { IsActive := false, node := 1, lc := 0, bc := 0, s := 7 },
          { IsActive := true, node := 1, lc := 0, bc := 0, s := 1 } ]
      LoadCurve := fun _ => 3 } }

/-- The two-node scenario in a poroelastic step: node 1 has the pressure equation
3, node 0 has a prescribed pressure (code 6) of value `2 * 3`; every load curve
has value 3. -/
def pressureSolver : FESolidSolver ℚ :=
  { m_fem := { (emptyModel : FEM ℚ) with
      m_mesh :=
        { Nodes := 2
          Node := fun i =>
            if i = 1 then
              { restNode (⟨1, 0, 0⟩ : vec3d ℚ) with m_ID := fun k => if k = 6 then 3 else -1 }
            else restNode ⟨0, 0, 0⟩
          Domains := 1 }
      m_DC := [ { IsActive := true, node := 0, lc := 0, bc := 6, s := 2 } ]
      m_pStep := { m_nanalysis := 0, m_nModule := 2, m_nplot := 0, m_dt := 1 }
      LoadCurve := fun _ => 3 }
    m_Ut := fun n => if n = 3 then 10 else 0
    m_Ui := fun n => if n = 3 then 1 else 0 }

/-- One fixed node with reference position `(1, 3, 4)` and one active radial
prescribed displacement (code 20) of value `2 * 5`; every load curve has value
5. -/
def radialSolver : FESolidSolver R :=
  { m_fem := { (emptyModel : FEM R) with
      m_mesh :=
        { Nodes := 1
          Node := fun _ => restNode ⟨1, 3, 4⟩
          Domains := 1 }
      m_DC := [ { IsActive := true, node := 0, lc := 0, bc := 20, s := 2 } ]
      LoadCurve := fun _ => 5 }
    m_Ut := fun _ => 0
    m_Ui := fun _ => 0 }

/-! ## `FESoluteBackflowStabilization` (FEBioFluid)

The surface load of `FEBioFluid/FESoluteBackflowStabilization.cpp`. Its nodes are
those of a later version of the mesh classes than `update.cpp`: a node carries
the arrays of its dof values (`get`, `set`, `get_prev`, `get_vec3d`), of its
boundary condition flags (`set_bc`) and of its equation ids `m_ID`. -/

/-- Dot product, `vec3d::operator*(vec3d)`. -/
def vec3d.dot (a b : vec3d R) : R := a.x * b.x + a.y * b.y + a.z * b.z

/-- Cross product, `vec3d::operator^`. -/
def vec3d.cross (a b : vec3d R) : vec3d R :=
  ⟨a.y * b.z - a.z * b.y, a.z * b.x - a.x * b.z, a.x * b.y - a.y * b.x⟩

namespace FEBioFluid

/-- A mesh node: current and previous position, equation ids `m_ID`, boundary
condition flags `m_BC` (written by `set_bc`), dof values `m_val` (read by `get`
and `get_vec3d`, written by `set`) and previous dof values `m_val_prev`
(`get_prev`, `get_vec3d_prev`). -/
structure FENode (R : Type) where
  m_rt : vec3d R
  m_rp : vec3d R
  m_ID : Nat → Int
  m_BC : Nat → Int
  m_val : Nat → R
  m_val_prev : Nat → R

/-- A surface element: `Nodes()` nodes with global numbers `m_node[i]`,
`GaussPoints()` integration points with weights `GaussWeights()[n]`, shape
functions `H(n)[i]` and their derivatives `Gr(n)[i]`, `Gs(n)[i]`. -/
structure FESurfaceElement (R : Type) where
  Nodes : Nat
  m_node : Nat → Nat
  GaussPoints : Nat
  GaussWeights : Nat → R
  H : Nat → Nat → R
  Gr : Nat → Nat → R
  Gs : Nat → Nat → R

/-- A surface: `Nodes()` nodes, `Node(i)` being the mesh node `node[i]`, and its
list of elements. -/
structure FESurface (R : Type) where
  Nodes : Nat
  node : Nat → Nat
  Element : List (FESurfaceElement R)

/-- The values of `DOF_OPEN` and `DOF_PRESCRIBED`, declared in a header that is
not among the sources. -/
structure BCConstants where
  DOF_OPEN : Int
  DOF_PRESCRIBED : Int

/-- The surface load: solute number `m_sol`, first concentration dof `m_dofC`,
the three velocity dofs `m_dofW`, the time integration parameters, the
surface, and the dof list `m_dof` of the base class (empty until `Init`). -/
structure FESoluteBackflowStabilization (R : Type) where
  m_sol : Int
  m_dofC : Int
  m_dofW : Fin 3 → Nat
  m_alpha : R
  m_alphaf : R
  m_backflow : List Bool
  m_psurf : FESurface R
  m_dof : List Nat := []

namespace FENode

/-- `get_vec3d(i, j, k)`. -/
def get_vec3d (node : FENode R) (i j k : Nat) : vec3d R :=
  ⟨node.m_val i, node.m_val j, node.m_val k⟩

/-- `get_vec3d_prev(i, j, k)`. -/
def get_vec3d_prev (node : FENode R) (i j k : Nat) : vec3d R :=
  ⟨node.m_val_prev i, node.m_val_prev j, node.m_val_prev k⟩

/-- The two statements `set_bc(dofc, bc); m_ID[dofc] = -m_ID[dofc] - 2;`. -/
def flip (node : FENode R) (dofc : Nat) (bc : Int) : FENode R :=
  { node with
    m_BC := Function.update node.m_BC dofc bc
    m_ID := Function.update node.m_ID dofc (-node.m_ID dofc - 2) }

end FENode

namespace FESoluteBackflowStabilization

/-- The concentration dof of the load, `dofc = m_dofC + m_sol - 1`. -/
def dofc (L : FESoluteBackflowStabilization R) : Nat := (L.m_dofC + L.m_sol - 1).toNat

/-- First loop of `MarkBackFlow` (lines 114-122): the nodes of the surface whose
concentration dof is prescribed (`m_ID < -1`) are opened. -/
def openNodes (B : BCConstants) (L : FESoluteBackflowStabilization R)
    (Node : Nat → FENode R) : Nat → FENode R :=
  (List.range L.m_psurf.Nodes).foldl
    (fun N i =>
      if (N (L.m_psurf.node i)).m_ID L.dofc < -1 then
        Function.update N (L.m_psurf.node i) ((N (L.m_psurf.node i)).flip L.dofc B.DOF_OPEN)
      else N)
    Node

/-- The value `vn` of an element (lines 140-172): the weighted sum over the
integration points of (unit normal) . (velocity). -/
def normalFlow (E : Ext R) (L : FESoluteBackflowStabilization R) (Node : Nat → FENode R)
    (el : FESurfaceElement R) : R :=
  let rt : Nat → vec3d R := fun i =>
    vec3d.add (vec3d.smul (Node (el.m_node i)).m_rt L.m_alpha)
      (vec3d.smul (Node (el.m_node i)).m_rp (1 - L.m_alpha))
  let vt : Nat → vec3d R := fun i =>
    vec3d.add
      (vec3d.smul ((Node (el.m_node i)).get_vec3d (L.m_dofW 0) (L.m_dofW 1) (L.m_dofW 2))
        L.m_alphaf)
      (vec3d.smul ((Node (el.m_node i)).get_vec3d_prev (L.m_dofW 0) (L.m_dofW 1) (L.m_dofW 2))
        (1 - L.m_alphaf))
  (List.range el.GaussPoints).foldl
    (fun vn n =>
      let v := (List.range el.Nodes).foldl
        (fun v i => vec3d.add v (vec3d.smul (vt i) (el.H n i))) vec3d.zero
      let dxr := (List.range el.Nodes).foldl
        (fun d i => vec3d.add d (vec3d.smul (rt i) (el.Gr n i))) vec3d.zero
      let dxs := (List.range el.Nodes).foldl
        (fun d i => vec3d.add d (vec3d.smul (rt i) (el.Gs n i))) vec3d.zero
      let normal := vec3d.unit E (vec3d.cross dxr dxs)
      vn + vec3d.dot normal v * el.GaussWeights n)
    0

/-- The loop of lines 175-181: the nodes of a backflow element whose
concentration dof has an equation (`m_ID > -1`) are prescribed. -/
def prescribeElementNodes (B : BCConstants) (L : FESoluteBackflowStabilization R)
    (el : FESurfaceElement R) (Node : Nat → FENode R) : Nat → FENode R :=
  (List.range el.Nodes).foldl
    (fun N i =>
      if (N (el.m_node i)).m_ID L.dofc > -1 then
        Function.update N (el.m_node i) ((N (el.m_node i)).flip L.dofc B.DOF_PRESCRIBED)
      else N)
    Node

/-- `FESoluteBackflowStabilization::MarkBackFlow()`. -/
def MarkBackFlow (E : Ext R) (B : BCConstants) (L : FESoluteBackflowStabilization R)
    (Node : Nat → FENode R) : Nat → FENode R :=
  L.m_psurf.Element.foldl
    (fun N el => if normalFlow E L N el < 0 then prescribeElementNodes B L el N else N)
    (openNodes B L Node)

/-- `FESoluteBackflowStabilization::Update()`: the backflow is marked, then the
prescribed concentrations are set to their previous value. -/
def Update (E : Ext R) (B : BCConstants) (L : FESoluteBackflowStabilization R)
    (Node : Nat → FENode R) : Nat → FENode R :=
  (List.range L.m_psurf.Nodes).foldl
    (fun N i =>
      if (N (L.m_psurf.node i)).m_ID L.dofc < -1 then
        Function.update N (L.m_psurf.node i)
          { N (L.m_psurf.node i) with
            m_val := Function.update (N (L.m_psurf.node i)).m_val L.dofc
              ((N (L.m_psurf.node i)).m_val_prev L.dofc) }
      else N)
    (MarkBackFlow E B L Node)

end FESoluteBackflowStabilization

/-- Values for `DOF_OPEN` and `DOF_PRESCRIBED` (any two values would do). -/
def exBC : BCConstants := { DOF_OPEN := 0, DOF_PRESCRIBED := 2 }

/-- A triangle with nodes 0, 1, 2 at `(0,0,0)`, `(1,0,0)`, `(0,1,0)`, unit normal
`(0, 0, 1)`, one integration point of weight 1; the fluid velocity (dofs 0, 1, 2)
is `(0, 0, -1)` at the three nodes, so the flow goes against the normal; the
concentration dof 3 of every node has the equation number 5. -/
def backflowTriangle : FESoluteBackflowStabilization ℚ :=
  { m_sol := 1
    m_dofC := 3
    m_dofW := fun j => j.val
    m_alpha := 1
    m_alphaf := 1
    m_backflow := [false, false, false]
    m_psurf :=
      { Nodes := 3
        node := fun i => i
        Element :=
          [ { Nodes := 3
              m_node := fun i => i
              GaussPoints := 1
              GaussWeights := fun _ => 1
              H := fun _ _ => 1 / 3
              Gr := fun _ i => if i = 0 then -1 else if i = 1 then 1 else 0
              Gs := fun _ i => if i = 0 then -1 else if i = 2 then 1 else 0 } ] } }

/-- The mesh of `backflowTriangle`. -/
def backflowNodes : Nat → FENode ℚ := fun i =>
  { m_rt := if i = 1 then ⟨1, 0, 0⟩ else if i = 2 then ⟨0, 1, 0⟩ else ⟨0, 0, 0⟩
    m_rp := if i = 1 then ⟨1, 0, 0⟩ else if i = 2 then ⟨0, 1, 0⟩ else ⟨0, 0, 0⟩
    m_ID := fun k => if k = 3 then 5 else -1
    m_BC := fun _ => 0
    m_val := fun k => if k = 2 then -1 else 0
    m_val_prev := fun k => if k = 2 then -1 else 0 }

end FEBioFluid

/-- The equation ids of node `b` are those of node `a`, except that the id `n` of
the dof `dofc` may have been replaced by `-n - 2`. -/
def FEBioFluid.FENode.Flipped (dofc : Nat) (a b : FEBioFluid.FENode R) : Prop :=
  (∀ k, k ≠ dofc → b.m_ID k = a.m_ID k) ∧
  (b.m_ID dofc = a.m_ID dofc ∨ b.m_ID dofc = -a.m_ID dofc - 2)

/-! ## `FERVEModel` (FEBioMech)

The functions of `FEBioMech/FERVEModel.cpp` that set up a representative volume
element. The mesh classes are those of FECore, of which the functions only use
the reference and current position of a node, the named node sets and, for the
volume, the integration points of the elements. -/

/-- A symmetric 3x3 matrix (`mat3ds`), here a stress. -/
structure mat3ds (R : Type) where
  xx : R
  yy : R
  zz : R
  xy : R
  yz : R
  xz : R

namespace FEBioMech

/-- A mesh node: reference and current position. -/
structure FENode (R : Type) where
  m_r0 : vec3d R
  m_rt : vec3d R

/-- An axis-aligned box given by its two corners (`FEBoundingBox`): `r0` holds
the smallest and `r1` the largest coordinates. -/
structure FEBoundingBox (R : Type) where
  r0 : vec3d R
  r1 : vec3d R

/-- An integration point of a solid element: its weight `GaussWeights()[n]`, the
Jacobian `dom.detJt(el, n)` and the stress `m_s` stored in its material point. -/
structure FEIntegrationPoint (R : Type) where
  w : R
  detJt : R
  m_s : mat3ds R

/-- The mesh: nodes, named node sets (`FindNodeSet` gives the nodes of a set, or
null) and domains, each a list of elements, each a list of integration
points. -/
structure FEMesh (R : Type) where
  Nodes : Nat
  Node : Nat → FENode R
  FindNodeSet : String → Option (List Nat)
  Domain : List (List (List (FEIntegrationPoint R)))

/-- The values of the enumeration `DISPLACEMENT`, `PERIODIC_AL`, `PERIODIC_LC` of
`FERVEModel.h`, which is not among the sources. -/
structure RVEConstants where
  DISPLACEMENT : Int
  PERIODIC_AL : Int
  PERIODIC_LC : Int

/-- What `InitRVE` and the functions it calls do to the base class and to other
classes, and the two last steps of `InitRVE`. -/
inductive RVECall where
  | SetPlotLevelNever
  | AddLoadCurve
  | ClearBCs
  | AddPrescribedBC (nodes : List Nat)
  | GenerateConstraints
  | FEModelInit
  | EvalInitialVolume
  deriving DecidableEq, Repr

/-- The RVE model: mesh, boundary condition type, initial volume, bounding box,
boundary node flags, for every surface pair constraint whether it is an
`FEPeriodicBoundary1O`, and the record of the calls made. -/
structure FERVEModel (R : Type) where
  m_mesh : FEMesh R
  m_bctype : Int
  m_V0 : R
  m_bb : FEBoundingBox R
  m_BN : List Int
  SurfacePairConstraint : List Bool
  m_calls : List RVECall

/-- What the code outside the sources returns on a model: `FEModel::Init()`, the
flags `FindBoundaryNodes` computes from the element connectivity, and
`FECube::Build` with the boundary and corner nodes of the cube (null when it
fails). -/
structure RVEExt (R : Type) where
  FEModelInit : FERVEModel R → Bool
  FindBoundaryNodes : FERVEModel R → List Int
  CubeBuild : FERVEModel R → Option (List Nat × List Nat)

namespace FEBoundingBox

/-- Modelled from the spec: `FEBoundingBox::add` of FECore (not among the
sources): the box is extended to the smallest axis-aligned box that also holds
the point `r`. -/
def add (b : FEBoundingBox R) (r : vec3d R) : FEBoundingBox R :=
  { r0 := ⟨min b.r0.x r.x, min b.r0.y r.y, min b.r0.z r.z⟩
    r1 := ⟨max b.r1.x r.x, max b.r1.y r.y, max b.r1.z r.z⟩ }

/-- Modelled from the spec: `FEBoundingBox::center` of FECore (not among the
sources): the midpoint of the two corners. -/
def center (b : FEBoundingBox R) : vec3d R := vec3d.smul (vec3d.add b.r0 b.r1) (1 / 2)

/-- Modelled from the spec: `FEBoundingBox::translate` of FECore (not among the
sources): both corners are moved by `t`. -/
def translate (b : FEBoundingBox R) (t : vec3d R) : FEBoundingBox R :=
  { r0 := vec3d.add b.r0 t, r1 := vec3d.add b.r1 t }

end FEBoundingBox

namespace FERVEModel

/-- The local `box` of `CenterRVE` (lines 184-191): the box of the reference
position of node 0, extended by the reference positions of the nodes
`1 .. NN-1`. -/
def meshBox (mesh : FEMesh R) : FEBoundingBox R :=
  (List.range' 1 (mesh.Nodes - 1)).foldl (fun box i => box.add (mesh.Node i).m_r0)
    { r0 := (mesh.Node 0).m_r0, r1 := (mesh.Node 0).m_r0 }

/-- `FERVEModel::CenterRVE()`: the nodes are moved so that the centre of `box` is
at the origin, and the member `m_bb` is translated. -/
def CenterRVE (M : FERVEModel R) : FERVEModel R :=
  let c := (meshBox M.m_mesh).center
  { M with
    m_mesh := { M.m_mesh with
      Node := forEach M.m_mesh.Nodes
        (fun node => { node with m_r0 := vec3d.sub node.m_r0 c, m_rt := vec3d.sub node.m_r0 c })
        M.m_mesh.Node }
    m_bb := M.m_bb.translate (vec3d.neg c) }

/-- Record calls, in the order they are made. -/
def call (M : FERVEModel R) (cs : List RVECall) : FERVEModel R :=
  { M with m_calls := M.m_calls ++ cs }

/-- The flags `m_BN.assign(NN, 0)` followed by `m_BN[n] = 1` for the nodes `n` of
the set. -/
def tagNodes (NN : Nat) (ns : List Nat) : List Int :=
  (List.range NN).map (fun i => if i ∈ ns then 1 else 0)

/-- `FERVEModel::PrepDisplacementBC(ns)`: a load curve is added, the boundary
conditions are cleared and a prescribed deformation on the nodes of `ns` is
added; it returns `true`. -/
def PrepDisplacementBC (M : FERVEModel R) (ns : List Nat) : Bool × FERVEModel R :=
  (true, M.call [RVECall.AddLoadCurve, RVECall.ClearBCs, RVECall.AddPrescribedBC ns])

/-- `FERVEModel::PrepPeriodicBC(szbc)`; a null `szbc` is `none`. -/
def PrepPeriodicBC (M : FERVEModel R) (szbc : Option String) : Bool × FERVEModel R :=
  match szbc with
  | none => (false, M)
  | some name =>
    if name = "" then (false, M)
    else
      match M.m_mesh.FindNodeSet name with
      | none => (false, M)
      | some ns =>
        if M.SurfacePairConstraint.length ≠ 3 then (false, M)
        else if (M.SurfacePairConstraint.take 3).all id = false then (false, M)
        else
          (true,
            { M.call [RVECall.AddLoadCurve, RVECall.ClearBCs, RVECall.AddPrescribedBC ns] with
              m_BN := tagNodes M.m_mesh.Nodes ns })

/-- `FERVEModel::PrepPeriodicLC()`. -/
def PrepPeriodicLC (X : RVEExt R) (M : FERVEModel R) : Bool × FERVEModel R :=
  let M1 := M.call [RVECall.ClearBCs]
  match X.CubeBuild M1 with
  | none => (false, M1)
  | some (bs, corners) =>
    let BN := (List.range M1.m_mesh.Nodes).map
      (fun i => if i ∈ bs then 1 else (M1.m_BN.getD i 0))
    PrepDisplacementBC ({ M1 with m_BN := BN }.call [RVECall.GenerateConstraints]) corners

/-- `FERVEModel::EvalInitialVolume()`: `m_V0` is the sum over the domains, elements
and integration points of `detJt * w`. -/
def EvalInitialVolume (M : FERVEModel R) : FERVEModel R :=
  { M.call [RVECall.EvalInitialVolume] with
    m_V0 := M.m_mesh.Domain.foldl
      (fun V dom => dom.foldl
        (fun V el => V + el.foldl (fun ve pt => ve + pt.detJt * pt.w) 0) V) 0 }

/-- The end of `InitRVE`: the base class is initialised and, when that succeeds,
the initial volume is evaluated. -/
def finishInit (X : RVEExt R) (M : FERVEModel R) : Bool × FERVEModel R :=
  if X.FEModelInit M = false then (false, M.call [RVECall.FEModelInit])
  else (true, EvalInitialVolume (M.call [RVECall.FEModelInit]))

/-- `FERVEModel::InitRVE(rveType, szbc)`; a null `szbc` is `none`. -/
def InitRVE (X : RVEExt R) (K : RVEConstants) (M : FERVEModel R) (rveType : Int)
    (szbc : Option String) : Bool × FERVEModel R :=
  let M1 := CenterRVE (M.call [RVECall.SetPlotLevelNever])
  let M2 := { M1 with m_bctype := rveType }
  if rveType = K.DISPLACEMENT then
    if szbc.isSome ∧ szbc ≠ some "" then
      match M2.m_mesh.FindNodeSet (szbc.getD "") with
      | none => (false, M2)
      | some ns =>
        let r := PrepDisplacementBC M2 ns
        if r.1 = false then (false, r.2)
        else finishInit X { r.2 with m_BN := tagNodes r.2.m_mesh.Nodes ns }
    else
      let BN := X.FindBoundaryNodes M2
      let M3 := { M2 with m_BN := BN }
      let set := (List.range M3.m_mesh.Nodes).filter (fun i => BN.getD i 0 = 1)
      let r := PrepDisplacementBC M3 set
      if r.1 = false then (false, r.2) else finishInit X r.2
  else if rveType = K.PERIODIC_AL then
    let r := PrepPeriodicBC M2 szbc
    if r.1 = false then (false, r.2) else finishInit X r.2
  else if rveType = K.PERIODIC_LC then
    finishInit X (PrepPeriodicLC X M2).2
  else (false, M2)

end FERVEModel

end FEBioMech

/-- Values for the enumeration of the RVE types (any three distinct values would
do). -/
def FEBioMech.exRVEConstants : FEBioMech.RVEConstants :=
  { DISPLACEMENT := 0, PERIODIC_AL := 1, PERIODIC_LC := 2 }

/-- Code outside the sources for the examples: the base class initialises, no
node is flagged as boundary node, and the mesh is not a cube. -/
def FEBioMech.exRVEExt : FEBioMech.RVEExt ℚ :=
  { FEModelInit := fun _ => true
    FindBoundaryNodes := fun _ => []
    CubeBuild := fun _ => none }

/-- An RVE with two nodes at `(0, 0, 0)` and `(2, 0, 0)`, one node set `"corners"`,
no domain and no surface pair constraint; the member `m_bb` is the box a default
constructed `FEBoundingBox` holds, both corners at the origin. -/
def FEBioMech.twoNodeRVE : FEBioMech.FERVEModel ℚ :=
  { m_mesh :=
      { Nodes := 2
        Node := fun i =>
          if i = 1 then { m_r0 := ⟨2, 0, 0⟩, m_rt := ⟨2, 0, 0⟩ }
          else { m_r0 := ⟨0, 0, 0⟩, m_rt := ⟨0, 0, 0⟩ }
        FindNodeSet := fun name => if name = "corners" then some [0, 1] else none
        Domain := [] }
    m_bctype := 0
    m_V0 := 0
    m_bb := { r0 := ⟨0, 0, 0⟩, r1 := ⟨0, 0, 0⟩ }
    m_BN := []
    SurfacePairConstraint := []
    m_calls := [] }

/-- The box `b` is the axis-aligned bounding box of the reference positions of
the nodes of the mesh: on each axis `b.r0` is the minimum and `b.r1` the maximum
of the coordinate over the nodes `0 .. Nodes-1`. -/
def FEBioMech.FEMesh.IsBoundingBox (mesh : FEBioMech.FEMesh R)
    (b : FEBioMech.FEBoundingBox R) : Prop :=
  (∀ i, i < mesh.Nodes →
    b.r0.x ≤ (mesh.Node i).m_r0.x ∧ (mesh.Node i).m_r0.x ≤ b.r1.x ∧
    b.r0.y ≤ (mesh.Node i).m_r0.y ∧ (mesh.Node i).m_r0.y ≤ b.r1.y ∧
    b.r0.z ≤ (mesh.Node i).m_r0.z ∧ (mesh.Node i).m_r0.z ≤ b.r1.z) ∧
  (∃ i, i < mesh.Nodes ∧ (mesh.Node i).m_r0.x = b.r0.x) ∧
  (∃ i, i < mesh.Nodes ∧ (mesh.Node i).m_r0.x = b.r1.x) ∧
  (∃ i, i < mesh.Nodes ∧ (mesh.Node i).m_r0.y = b.r0.y) ∧
  (∃ i, i < mesh.Nodes ∧ (mesh.Node i).m_r0.y = b.r1.y) ∧
  (∃ i, i < mesh.Nodes ∧ (mesh.Node i).m_r0.z = b.r0.z) ∧
  (∃ i, i < mesh.Nodes ∧ (mesh.Node i).m_r0.z = b.r1.z)

/-! ## `FESoluteBackflowStabilization::Init` -/

/-- What `Init` takes from outside the sources: the result of the base class
`FESurfaceLoad::Init()`, the dofs of the variables "relative fluid velocity" and
"fluid concentration" in the model's `DOFS`, and the value `MAX_CDOFS` that
`GetVariableSize` returns for the concentration. -/
structure FEBioFluid.InitExt where
  FESurfaceLoadInit : Bool
  RelativeFluidVelocity : Fin 3 → Nat
  FluidConcentration : List Nat
  MAX_CDOFS : Int

/-- `FESoluteBackflowStabilization::Init()`: the returned flag and the load as
`Init` leaves it. The velocity dofs are added to `m_dofW` (empty after
construction) before the solute number is checked. -/
def FEBioFluid.FESoluteBackflowStabilization.Init (X : FEBioFluid.InitExt)
    (L : FEBioFluid.FESoluteBackflowStabilization R) :
    Bool × FEBioFluid.FESoluteBackflowStabilization R :=
  if X.FESurfaceLoadInit = false then (false, L)
  else
    let L1 := { L with m_dofW := X.RelativeFluidVelocity }
    if L1.m_sol < 1 ∨ L1.m_sol > X.MAX_CDOFS then (false, L1)
    else
      (true,
        { L1 with
          m_dof := L1.m_dof ++ (List.finRange 3).map L1.m_dofW ++ X.FluidConcentration
          m_backflow := List.replicate L1.m_psurf.Nodes false
          m_alpha := 1 })

/-- A model with two concentration dofs (3 and 4) and the velocity dofs 0, 1, 2,
whose base class initialises. -/
def FEBioFluid.exInitExt : FEBioFluid.InitExt :=
  { FESurfaceLoadInit := true
    RelativeFluidVelocity := fun j => j.val
    FluidConcentration := [3, 4]
    MAX_CDOFS := 2 }

/-- The equation number behind an equation id: `n` for an open dof (`n ≥ 0`),
`-n - 2` for a prescribed one (`n < -1`); a fixed dof (`-1`) has none and is left
as it is. -/
def FEBioFluid.decode (n : Int) : Int :=
  if 0 ≤ n then n else if n < -1 then -n - 2 else n

/-- The node `b` has the positions and dof values of the node `a`: what the
normal flow of an element is computed from. -/
def FEBioFluid.FENode.SameFlow (a b : FEBioFluid.FENode R) : Prop :=
  b.m_rt = a.m_rt ∧ b.m_rp = a.m_rp ∧ b.m_val = a.m_val ∧ b.m_val_prev = a.m_val_prev

/-- The mesh of `backflowTriangle` with the fluid velocity `(0, 0, 1)`, along the
normal, and the concentration dof 3 of every node prescribed (id `-7`, standing
for equation 5). -/
def FEBioFluid.outflowNodes : Nat → FEBioFluid.FENode ℚ := fun i =>
  { m_rt := if i = 1 then ⟨1, 0, 0⟩ else if i = 2 then ⟨0, 1, 0⟩ else ⟨0, 0, 0⟩
    m_rp := if i = 1 then ⟨1, 0, 0⟩ else if i = 2 then ⟨0, 1, 0⟩ else ⟨0, 0, 0⟩
    m_ID := fun k => if k = 3 then -7 else -1
    m_BC := fun _ => 2
    m_val := fun k => if k = 2 then 1 else 0
    m_val_prev := fun k => if k = 2 then 1 else 0 }

/-! ## `FERVEModel::CurrentVolume` and `FERVEModel::StressAverage` -/

/-- The zero matrix, `mat3ds::zero()`. -/
def mat3ds.zero : mat3ds R := ⟨0, 0, 0, 0, 0, 0⟩

/-- Componentwise sum, `mat3ds::operator+=`. -/
def mat3ds.add (a b : mat3ds R) : mat3ds R :=
  ⟨a.xx + b.xx, a.yy + b.yy, a.zz + b.zz, a.xy + b.xy, a.yz + b.yz, a.xz + b.xz⟩

/-- Product with a scalar, `mat3ds::operator*(double)`. -/
def mat3ds.smul (a : mat3ds R) (g : R) : mat3ds R :=
  ⟨a.xx * g, a.yy * g, a.zz * g, a.xy * g, a.yz * g, a.xz * g⟩

/-- Quotient by a scalar, `mat3ds::operator/(double)`. -/
def mat3ds.sdiv (a : mat3ds R) (g : R) : mat3ds R :=
  ⟨a.xx / g, a.yy / g, a.zz / g, a.xy / g, a.yz / g, a.xz / g⟩

/-- The material point passed to `StressAverage`: its elastic data, the volume
ratio `m_J` and the stress `m_s`. -/
structure FEBioMech.FEElasticMaterialPoint (R : Type) where
  m_J : R
  m_s : mat3ds R

/-- `FERVEModel::CurrentVolume()`: the sum over the domains, elements and
integration points of `w[n] * Jn`. -/
def FEBioMech.FERVEModel.CurrentVolume (M : FEBioMech.FERVEModel R) : R :=
  M.m_mesh.Domain.foldl
    (fun V dom => dom.foldl (fun V el => el.foldl (fun V pt => V + pt.w * pt.detJt) V) V) 0

set_option linter.unusedVariables false

/-- `FERVEModel::StressAverage(mp)`: the stresses of the integration points are
added up with the weights `w[n] * Jn`, and the sum is divided by
`CurrentVolume()`. The code does not read its argument `mp`. -/
def FEBioMech.FERVEModel.StressAverage (M : FEBioMech.FERVEModel R)
    (mp : FEBioMech.FEElasticMaterialPoint R) : mat3ds R :=
  let T := M.m_mesh.Domain.foldl
    (fun T dom => dom.foldl
      (fun T el => el.foldl (fun T pt => mat3ds.add T (mat3ds.smul pt.m_s (pt.w * pt.detJt))) T)
      T) mat3ds.zero
  mat3ds.sdiv T M.CurrentVolume

/-- All integration points of the mesh, domain by domain and element by
element. -/
def FEBioMech.FEMesh.integrationPoints (mesh : FEBioMech.FEMesh R) :
    List (FEBioMech.FEIntegrationPoint R) :=
  (mesh.Domain.map (fun dom => dom.foldr (fun el l => el ++ l) [])).foldr
    (fun ps l => ps ++ l) []

/-- The RVE of `twoNodeRVE` with one domain of two elements, with integration
points of volume `1 * 2` and `3 * 1` in the first and `1 * 1` in the second; the
stresses stored have `xx` components 6, 0 and 12. -/
def FEBioMech.stressedRVE : FEBioMech.FERVEModel ℚ :=
  { FEBioMech.twoNodeRVE with
    m_mesh := { FEBioMech.twoNodeRVE.m_mesh with
      Domain :=
        [[[{ w := 1, detJt := 2, m_s := ⟨6, 0, 0, 0, 0, 0⟩ },
           { w := 3, detJt := 1, m_s := ⟨0, 0, 0, 0, 0, 0⟩ }],
          [{ w := 1, detJt := 1, m_s := ⟨12, 0, 0, 0, 0, 0⟩ }]]] } }

/-- The RVE of `stressedRVE` with the stress `(1, 2, 3, 4, 5, 6)` stored in every
integration point. -/
def FEBioMech.uniformRVE : FEBioMech.FERVEModel ℚ :=
  { FEBioMech.twoNodeRVE with
    m_mesh := { FEBioMech.twoNodeRVE.m_mesh with
      Domain :=
        [[[{ w := 1, detJt := 2, m_s := ⟨1, 2, 3, 4, 5, 6⟩ },
           { w := 3, detJt := 1, m_s := ⟨1, 2, 3, 4, 5, 6⟩ }],
          [{ w := 1, detJt := 1, m_s := ⟨1, 2, 3, 4, 5, 6⟩ }]]] } }

/-- The mesh during the linear-constraint pass of `Update(ui, s)` (lines 84-115),
at the moment the constraints `done`, the first ones of `m_LinC`, have been
processed: the loop body has run once for each of them, in this order, on the
mesh left by the prescribed displacements. -/
def meshAfterConstraints (E : Ext R) (S : FESolidSolver R) (ui : Nat → R) (s : R)
    (done : List (FELinearConstraint R)) : Nat → FENode R :=
  done.foldl linearConstraintStep
    (applyPrescribedDisplacements E
      (updateFlexibleNodes (UpdateRigidBodies E S ui s) ui s)).m_fem.m_mesh.Node

/-- The load curve indices with which the loops over the components of one rigid
body call `GetLoadCurve` (lines 227 and 244), in the order of the calls: for an
active body, `lc - 1` for every component `j = 0 .. 5` that has a driver `m_pDC[j]`
whose `lc` passes the test `lc < 0 ? 0 : ...`. -/
def rigidLoadCurveCalls (RB : FERigidBody R) : List Int :=
  if RB.m_bActive then
    (List.finRange 6).filterMap (fun j =>
      match RB.m_pDC j with
      | some pdc => if pdc.lc < 0 then none else some (pdc.lc - 1)
      | none => none)
  else []

/-- The load curve indices with which `UpdateRigidBodies` calls `GetLoadCurve`,
body by body. -/
def UpdateRigidBodiesLoadCurveCalls (S : FESolidSolver R) : List Int :=
  ((List.range S.m_fem.m_nrb).map (fun i => rigidLoadCurveCalls (S.m_fem.m_RB i))).foldr
    (fun l acc => l ++ acc) []

/-- One active rigid body whose x-translation has a prescribed displacement with
curve id `lc = 0` and scale factor 1; the x-displacement already committed is 0.5
and load curve `i` has the value 7 for `i = -1` and 2 otherwise. -/
def zeroCurveBodySolver : FESolidSolver ℚ :=
  { m_fem := { (emptyModel : FEM ℚ) with
      m_nrb := 1
      m_RB := fun _ =>
        { (restBody : FERigidBody ℚ) with
          m_bActive := true
          m_pDC := fun j => if j = 0 then some { lc := 0, sf := 1 } else none
          m_Up := fun j => if j = 0 then 1 / 2 else 0 }
      LoadCurve := fun i => if i = -1 then 7 else 2 }
    m_Ut := fun _ => 0
    m_Ui := fun _ => 0 }

end Defs

/-! ## Frame lemmas -/

section Lemmas

set_option linter.unusedSectionVars false

variable {R : Type} [LinearOrderedField R]

theorem forEach_apply {α : Type} (n : Nat) (f : α → α) (a : Nat → α) (i : Nat) :
    forEach n f a i = if i < n then f (a i) else a i := rfl

/-- The prescribed pressures only write `m_pt`. -/
theorem prescribedPressure_fold (LC : Int → R) (dcs : List (FENodalDisplacement R))
    (N : Nat → FENode R) (i : Nat) :
    ∃ p, (dcs.foldl (prescribedPressureStep LC) N) i = { N i with m_pt := p } := by
  induction dcs generalizing N with
  | nil => exact ⟨(N i).m_pt, rfl⟩
  | cons dc rest ih =>
    obtain ⟨p, hp⟩ := ih (prescribedPressureStep LC N dc)
    rw [List.foldl_cons, hp]
    unfold prescribedPressureStep
    split_ifs with h1 h2
    · by_cases hi : i = dc.node
      · subst hi; exact ⟨p, by simp⟩
      · exact ⟨p, by simp [Function.update_noteq hi]⟩
    · exact ⟨p, rfl⟩
    · exact ⟨p, rfl⟩

theorem prescribedDisplacement_fold (E : Ext R) (LC : Int → R) (dcs : List (FENodalDisplacement R))
    (N : Nat → FENode R) (i : Nat) :
    ∃ v, (dcs.foldl (prescribedDisplacementStep E LC) N) i = { N i with m_rt := v } := by
  induction dcs generalizing N with
  | nil => exact ⟨(N i).m_rt, rfl⟩
  | cons dc rest ih =>
    obtain ⟨p, hp⟩ := ih (prescribedDisplacementStep E LC N dc)
    rw [List.foldl_cons, hp]
    unfold prescribedDisplacementStep
    split_ifs with h1
    · by_cases hi : i = dc.node
      · subst hi
        refine ⟨p, ?_⟩
        simp only [Function.update_same]
        unfold prescribeNode
        split_ifs <;> rfl
      · exact ⟨p, by simp [Function.update_noteq hi]⟩
    · exact ⟨p, rfl⟩

theorem linearConstraint_fold (cs : List (FELinearConstraint R))
    (N : Nat → FENode R) (i : Nat) :
    ∃ v, (cs.foldl linearConstraintStep N) i = { N i with m_rt := v } := by
  induction cs generalizing N with
  | nil => exact ⟨(N i).m_rt, rfl⟩
  | cons c rest ih =>
    obtain ⟨p, hp⟩ := ih (linearConstraintStep N c)
    rw [List.foldl_cons, hp]
    unfold linearConstraintStep
    by_cases hi : i = c.master.node
    · subst hi
      refine ⟨p, ?_⟩
      simp only [Function.update_same]
      unfold writeMaster
      split_ifs <;> rfl
    · exact ⟨p, by simp [Function.update_noteq hi]⟩

/-- The nodes after the position passes of `Update`, pass by pass. -/
theorem updatePositions_Node (E : Ext R) (S : FESolidSolver R) (ui : Nat → R) (s : R) :
    (updatePositions E S ui s).m_fem.m_mesh.Node =
      S.m_fem.m_LinC.foldl linearConstraintStep
        (S.m_fem.m_DC.foldl (prescribedDisplacementStep E S.m_fem.LoadCurve)
          (forEach S.m_fem.m_mesh.Nodes (updateFlexibleNode S.m_Ut S.m_Ui ui s)
            (forEach S.m_fem.m_mesh.Nodes
              (updateRigidNode E (UpdateRigidBodies E S ui s).m_fem.m_RB)
              S.m_fem.m_mesh.Node))) := rfl

/-- A rigid node pass only writes `m_rt`. -/
theorem updateRigidNode_eq (E : Ext R) (RB : Nat → FERigidBody R) (node : FENode R) :
    ∃ v, updateRigidNode E RB node = { node with m_rt := v } := by
  unfold updateRigidNode
  split_ifs
  · exact ⟨_, rfl⟩
  · exact ⟨node.m_rt, rfl⟩

/-- The position passes only write `m_rt` and `m_Dt` of a node. -/
theorem updatePositions_node_eq (E : Ext R) (S : FESolidSolver R) (ui : Nat → R) (s : R)
    (i : Nat) :
    ∃ v d, (updatePositions E S ui s).m_fem.m_mesh.Node i =
      { S.m_fem.m_mesh.Node i with m_rt := v, m_Dt := d } := by
  rw [updatePositions_Node]
  obtain ⟨v1, h1⟩ := linearConstraint_fold S.m_fem.m_LinC
    (S.m_fem.m_DC.foldl (prescribedDisplacementStep E S.m_fem.LoadCurve)
          (forEach S.m_fem.m_mesh.Nodes (updateFlexibleNode S.m_Ut S.m_Ui ui s)
            (forEach S.m_fem.m_mesh.Nodes
              (updateRigidNode E (UpdateRigidBodies E S ui s).m_fem.m_RB)
              S.m_fem.m_mesh.Node))) i
  obtain ⟨v2, h2⟩ := prescribedDisplacement_fold E S.m_fem.LoadCurve S.m_fem.m_DC
          (forEach S.m_fem.m_mesh.Nodes (updateFlexibleNode S.m_Ut S.m_Ui ui s)
            (forEach S.m_fem.m_mesh.Nodes
              (updateRigidNode E (UpdateRigidBodies E S ui s).m_fem.m_RB)
              S.m_fem.m_mesh.Node)) i
  rw [h1, h2]
  simp only [forEach_apply]
  obtain ⟨v3, h3⟩ := updateRigidNode_eq E (UpdateRigidBodies E S ui s).m_fem.m_RB
    (S.m_fem.m_mesh.Node i)
  split_ifs with hi
  · rw [h3]; exact ⟨v1, _, rfl⟩
  · exact ⟨v1, _, rfl⟩

/-- The fields of the solver that the position passes leave alone. -/
theorem updatePositions_frame (E : Ext R) (S : FESolidSolver R) (ui : Nat → R) (s : R) :
    (updatePositions E S ui s).m_Ut = S.m_Ut ∧ (updatePositions E S ui s).m_Ui = S.m_Ui ∧
    (updatePositions E S ui s).m_fem.m_pStep = S.m_fem.m_pStep ∧
    (updatePositions E S ui s).m_fem.m_mesh.Nodes = S.m_fem.m_mesh.Nodes ∧
    (updatePositions E S ui s).m_fem.m_DC = S.m_fem.m_DC ∧
    (updatePositions E S ui s).m_fem.m_LinC = S.m_fem.m_LinC ∧
    (updatePositions E S ui s).m_fem.LoadCurve = S.m_fem.LoadCurve ∧
    (updatePositions E S ui s).m_fem.m_RB = (UpdateRigidBodies E S ui s).m_fem.m_RB ∧
    (updatePositions E S ui s).m_fem.m_RJ = (UpdateRigidBodies E S ui s).m_fem.m_RJ ∧
    (updatePositions E S ui s).m_fem.m_nrb = S.m_fem.m_nrb ∧
    (updatePositions E S ui s).m_fem.m_nrj = S.m_fem.m_nrj :=
  ⟨rfl, rfl, rfl, rfl, rfl, rfl, rfl, rfl, rfl, rfl, rfl⟩

/-- The nodes after the dynamic update. -/
theorem updateDynamics_node (K : FEConstants) (S : FESolidSolver R) (i : Nat) :
    (updateDynamics K S).m_fem.m_mesh.Node i =
      if S.m_fem.m_pStep.m_nanalysis = K.FE_DYNAMIC ∧ i < S.m_fem.m_mesh.Nodes then
        updateDynamicsNode S.m_fem.m_pStep.m_dt (S.m_fem.m_mesh.Node i)
      else S.m_fem.m_mesh.Node i := by
  unfold updateDynamics
  by_cases h : S.m_fem.m_pStep.m_nanalysis = K.FE_DYNAMIC
  · by_cases hi : i < S.m_fem.m_mesh.Nodes <;>
      simp [h, hi, FESolidSolver.withNodes, forEach_apply]
  · simp [h]

/-- The dynamic update leaves the rest of the solver alone. -/
theorem updateDynamics_frame (K : FEConstants) (S : FESolidSolver R) :
    (updateDynamics K S).m_Ut = S.m_Ut ∧ (updateDynamics K S).m_Ui = S.m_Ui ∧
    (updateDynamics K S).m_fem.m_pStep = S.m_fem.m_pStep ∧
    (updateDynamics K S).m_fem.m_mesh.Nodes = S.m_fem.m_mesh.Nodes ∧
    (updateDynamics K S).m_fem.m_DC = S.m_fem.m_DC ∧
    (updateDynamics K S).m_fem.LoadCurve = S.m_fem.LoadCurve := by
  unfold updateDynamics
  split_ifs <;> exact ⟨rfl, rfl, rfl, rfl, rfl, rfl⟩

/-- The nodes after `UpdatePoro`: a new velocity and a new pressure. -/
theorem UpdatePoro_node (S : FESolidSolver R) (ui : Nat → R) (s : R) (i : Nat) :
    ∃ p, (UpdatePoro S ui s).m_fem.m_mesh.Node i =
      { S.m_fem.m_mesh.Node i with
        m_vt := if i < S.m_fem.m_mesh.Nodes then
            vec3d.sdiv (vec3d.sub (S.m_fem.m_mesh.Node i).m_rt (S.m_fem.m_mesh.Node i).m_rp)
              S.m_fem.m_pStep.m_dt
          else (S.m_fem.m_mesh.Node i).m_vt
        m_pt := p } := by
  unfold UpdatePoro
  simp only [FESolidSolver.withNodes]
  obtain ⟨p, hp⟩ := prescribedPressure_fold S.m_fem.LoadCurve S.m_fem.m_DC
    (forEach S.m_fem.m_mesh.Nodes (updatePoroVelocityNode S.m_fem.m_pStep.m_dt)
      (forEach S.m_fem.m_mesh.Nodes (updatePressureNode S.m_Ut S.m_Ui ui s)
        S.m_fem.m_mesh.Node)) i
  rw [hp]
  simp only [forEach_apply]
  unfold updatePoroVelocityNode updatePressureNode
  by_cases hi : i < S.m_fem.m_mesh.Nodes
  · simp only [hi, if_true]
    split_ifs <;> exact ⟨p, rfl⟩
  · simp only [hi, if_false]
    exact ⟨p, rfl⟩

/-- The nodes after `Update`, in terms of the nodes after the position passes. -/
theorem Update_node (E : Ext R) (K : FEConstants) (S : FESolidSolver R) (ui : Nat → R)
    (s : R) (i : Nat) :
    ∃ p, (Update E K S ui s).m_fem.m_mesh.Node i =
      if S.m_fem.m_pStep.m_nModule = K.FE_POROELASTIC then
        { (updateDynamics K (updatePositions E S ui s)).m_fem.m_mesh.Node i with
          m_vt := if i < S.m_fem.m_mesh.Nodes then
              vec3d.sdiv (vec3d.sub
                ((updateDynamics K (updatePositions E S ui s)).m_fem.m_mesh.Node i).m_rt
                ((updateDynamics K (updatePositions E S ui s)).m_fem.m_mesh.Node i).m_rp)
                S.m_fem.m_pStep.m_dt
            else ((updateDynamics K (updatePositions E S ui s)).m_fem.m_mesh.Node i).m_vt
          m_pt := p }
      else (updateDynamics K (updatePositions E S ui s)).m_fem.m_mesh.Node i := by
  obtain ⟨h1, h2, h3, h4, h5, h6⟩ := updateDynamics_frame K (updatePositions E S ui s)
  obtain ⟨g1, g2, g3, g4, g5, g6, g7, -⟩ := updatePositions_frame E S ui s
  obtain ⟨p, hp⟩ := UpdatePoro_node (updateDynamics K (updatePositions E S ui s)) ui s i
  rw [h3, g3, h4, g4] at hp
  have hm : (updateDynamics K (updatePositions E S ui s)).m_fem.m_pStep.m_nModule
      = S.m_fem.m_pStep.m_nModule := by rw [h3, g3]
  refine ⟨p, ?_⟩
  unfold Update
  simp only [hm]
  by_cases hporo : S.m_fem.m_pStep.m_nModule = K.FE_POROELASTIC
  · simp only [hporo, if_true]
    rw [← hp]
    simp only [UpdateContact, UpdateStresses, FESolidSolver.call]
    split_ifs <;> rfl
  · simp only [hporo, if_false]
    simp only [UpdateContact, UpdateStresses, FESolidSolver.call]
    split_ifs <;> rfl

/-- Nothing after the position passes writes `m_rt`, `m_Dt` or the data of a
node that `Update` only reads. -/
theorem Update_node_eq (E : Ext R) (K : FEConstants) (S : FESolidSolver R) (ui : Nat → R)
    (s : R) (i : Nat) :
    ∃ vt a p, (Update E K S ui s).m_fem.m_mesh.Node i =
      { (updatePositions E S ui s).m_fem.m_mesh.Node i with m_vt := vt, m_at := a, m_pt := p } := by
  obtain ⟨p, hp⟩ := Update_node E K S ui s i
  rw [hp, updateDynamics_node]
  unfold updateDynamicsNode
  split_ifs <;> exact ⟨_, _, _, rfl⟩

/-- The position of a node after `Update` is its position after the linear
constraints. -/
theorem Update_node_rt (E : Ext R) (K : FEConstants) (S : FESolidSolver R) (ui : Nat → R)
    (s : R) (i : Nat) :
    ((Update E K S ui s).m_fem.m_mesh.Node i).m_rt =
      ((updatePositions E S ui s).m_fem.m_mesh.Node i).m_rt := by
  obtain ⟨vt, a, p, h⟩ := Update_node_eq E K S ui s i
  rw [h]

/-- C1. The flexible-node pass of `Update(ui, s)` sets every nodal component `k < 6`
whose equation id `n = m_ID[k]` is `≥ 0` to reference + `m_Ut[n] + m_Ui[n] + s*ui[n]`;
and for a node with `m_ID[0] = 0`, `ui[0] = 0.1`, `s = 1` and no prescribed
displacements or linear constraints, the x-position after `Update` is
`r0.x + Ut[0] + Ui[0] + 0.1`. -/
theorem flexible_node_position (E : Ext R) (K : FEConstants) (S : FESolidSolver R)
    (ui : Nat → R) (s : R) (i : Nat) (hi : i < S.m_fem.m_mesh.Nodes) :
    (∀ k, k < 6 → 0 ≤ (S.m_fem.m_mesh.Node i).m_ID k →
      ((updateFlexibleNodes (UpdateRigidBodies E S ui s) ui s).m_fem.m_mesh.Node i).cur k
        = (S.m_fem.m_mesh.Node i).ref k + S.m_Ut ((S.m_fem.m_mesh.Node i).m_ID k).toNat
          + S.m_Ui ((S.m_fem.m_mesh.Node i).m_ID k).toNat
          + s * ui ((S.m_fem.m_mesh.Node i).m_ID k).toNat) ∧
    (S.m_fem.m_DC = [] → S.m_fem.m_LinC = [] → (S.m_fem.m_mesh.Node i).m_ID 0 = 0 →
      ui 0 = 1 / 10 → s = 1 →
      ((Update E K S ui s).m_fem.m_mesh.Node i).m_rt.x
        = (S.m_fem.m_mesh.Node i).m_r0.x + S.m_Ut 0 + S.m_Ui 0 + 1 / 10) := by
  constructor
  · intro k hk hn
    simp only [updateFlexibleNodes, FESolidSolver.withNodes, forEach_apply, UpdateRigidBodies,
      hi, if_true]
    unfold updateRigidNode
    split_ifs with h <;>
    · interval_cases k <;> simp_all [FENode.cur, FENode.ref, vec3d.comp, updateFlexibleNode]
  · intro hdc hlc h0 hu hs
    rw [Update_node_rt, updatePositions_Node, hdc, hlc]
    simp only [List.foldl_nil, forEach_apply, hi, if_true]
    obtain ⟨v, hv⟩ := updateRigidNode_eq E (UpdateRigidBodies E S ui s).m_fem.m_RB
      (S.m_fem.m_mesh.Node i)
    rw [hv]
    simp [updateFlexibleNode, h0, hu, hs]

/-- Witness of C1: the two-node scenario of the spec, node B moves by 0.1 in x. -/
theorem flexible_node_position_witness :
    ((Update restExt exConstants twoNodeSolver twoNodeTrial 1).m_fem.m_mesh.Node 1).m_rt.x
      = 1 + 0 + 0 + 1 / 10 :=
  (flexible_node_position restExt exConstants twoNodeSolver twoNodeTrial 1 1
    (by decide)).2 rfl rfl rfl rfl rfl

/-- A prescribed displacement with a component code that does not address
component `k` leaves that component of the position alone. -/
theorem prescribeNode_comp (E : Ext R) (bc : Int) (g : R) (node : FENode R) (k : Nat)
    (hk : k < 3) (h : bc ≠ (k : Int) ∧ ¬ (bc = 20 ∧ 1 ≤ k)) :
    (prescribeNode E bc g node).m_rt.comp k = node.m_rt.comp k := by
  obtain ⟨h1, h2⟩ := h
  unfold prescribeNode
  interval_cases k <;> split_ifs <;> simp_all [vec3d.comp]

/-- The prescribed displacements leave alone every component no active
condition addresses. -/
theorem prescribedDisplacement_fold_comp (E : Ext R) (LC : Int → R)
    (dcs : List (FENodalDisplacement R)) (N : Nat → FENode R) (i k : Nat) (hk : k < 3)
    (h : ∀ dc ∈ dcs, dc.IsActive = true → dc.node = i →
      dc.bc ≠ (k : Int) ∧ ¬ (dc.bc = 20 ∧ 1 ≤ k)) :
    ((dcs.foldl (prescribedDisplacementStep E LC) N) i).m_rt.comp k = (N i).m_rt.comp k := by
  induction dcs generalizing N with
  | nil => rfl
  | cons dc rest ih =>
    rw [List.foldl_cons, ih _ (fun d hd => h d (List.mem_cons_of_mem _ hd))]
    unfold prescribedDisplacementStep
    split_ifs with h1
    · by_cases hi : i = dc.node
      · subst hi
        simp only [Function.update_same]
        exact prescribeNode_comp E _ _ _ k hk (h dc (List.mem_cons_self _ _) h1 rfl)
      · rw [Function.update_noteq hi]
    · rfl

/-- A constraint whose master component is not `k` leaves component `k` alone. -/
theorem writeMaster_comp (bc : Int) (d : R) (node : FENode R) (k : Nat)
    (hk : k < 3) (h : bc ≠ (k : Int)) :
    (writeMaster bc d node).m_rt.comp k = node.m_rt.comp k := by
  unfold writeMaster
  interval_cases k <;> split_ifs <;> simp_all [vec3d.comp]

/-- The linear constraints leave alone every dof that is not a master dof. -/
theorem linearConstraint_fold_comp (cs : List (FELinearConstraint R)) (N : Nat → FENode R)
    (i k : Nat) (hk : k < 3)
    (h : ∀ c ∈ cs, c.master.node = i → c.master.bc ≠ (k : Int)) :
    ((cs.foldl linearConstraintStep N) i).m_rt.comp k = (N i).m_rt.comp k := by
  induction cs generalizing N with
  | nil => rfl
  | cons c rest ih =>
    rw [List.foldl_cons, ih _ (fun d hd => h d (List.mem_cons_of_mem _ hd))]
    unfold linearConstraintStep
    by_cases hi : i = c.master.node
    · subst hi
      simp only [Function.update_same]
      exact writeMaster_comp _ _ _ k hk (h c (List.mem_cons_self _ _) rfl)
    · rw [Function.update_noteq hi]

/-- The flexible-node pass leaves alone a translational component without an
equation number. -/
theorem updateFlexibleNode_comp (m_Ut m_Ui ui : Nat → R) (s : R) (node : FENode R) (k : Nat)
    (hk : k < 3) (h : node.m_ID k < 0) :
    (updateFlexibleNode m_Ut m_Ui ui s node).m_rt.comp k = node.m_rt.comp k := by
  unfold updateFlexibleNode
  interval_cases k <;> simp [vec3d.comp, not_le.mpr h]

/-- C2 (as amended). `Update(ui, s)` leaves component `k` of the position `m_rt` of
a node unchanged when the component has no equation (`m_ID[k] < 0`, in
particular when it is fixed, `-1`), the node belongs to no rigid body, no active
prescribed displacement addresses the component (code `k`, or the radial code 20
for `y` and `z`) and the component is not the master dof of a linear constraint. -/
theorem fixed_component_unchanged (E : Ext R) (K : FEConstants) (S : FESolidSolver R)
    (ui : Nat → R) (s : R) (i k : Nat) (hk : k < 3)
    (hid : (S.m_fem.m_mesh.Node i).m_ID k < 0)
    (hrid : (S.m_fem.m_mesh.Node i).m_rid < 0)
    (hdc : ∀ dc ∈ S.m_fem.m_DC, dc.IsActive = true → dc.node = i →
      dc.bc ≠ (k : Int) ∧ ¬ (dc.bc = 20 ∧ 1 ≤ k))
    (hlc : ∀ c ∈ S.m_fem.m_LinC, c.master.node = i → c.master.bc ≠ (k : Int)) :
    ((Update E K S ui s).m_fem.m_mesh.Node i).m_rt.comp k
      = (S.m_fem.m_mesh.Node i).m_rt.comp k := by
  rw [Update_node_rt, updatePositions_Node,
    linearConstraint_fold_comp _ _ i k hk hlc,
    prescribedDisplacement_fold_comp E _ _ _ i k hk hdc]
  have hr : updateRigidNode E (UpdateRigidBodies E S ui s).m_fem.m_RB (S.m_fem.m_mesh.Node i)
      = S.m_fem.m_mesh.Node i := by
    unfold updateRigidNode
    rw [if_neg (not_le.mpr hrid)]
  simp only [forEach_apply]
  split_ifs with hi
  · rw [hr, updateFlexibleNode_comp _ _ _ _ _ k hk hid]
  · rfl

/-- Counterexample to C2 as stated: a node with `m_ID[0] = -1` that belongs to a
rigid body is moved in x by `Update` (from 1 to 2) when the body translates. -/
theorem fixed_component_moved_with_rigid_body :
    (rigidNodeSolver.m_fem.m_mesh.Node 0).m_ID 0 = -1 ∧
    (rigidNodeSolver.m_fem.m_mesh.Node 0).m_rt.x = 1 ∧
    ((Update restExt exConstants rigidNodeSolver (fun _ => 1) 1).m_fem.m_mesh.Node 0).m_rt.x
      = 2 := by
  refine ⟨rfl, rfl, ?_⟩
  rw [Update_node_rt, updatePositions_Node]
  norm_num [rigidNodeSolver, emptyModel, restBody, restNode, restExt, forEach_apply,
    updateFlexibleNode, updateRigidNode, UpdateRigidBodies, updateRigidBody, rigidDu,
    duDisplacement, duRotation, quatd.MakeUnit, quatd.mul, quatd.ofAngleAxis, quatd.Norm,
    quatd.normSq, vec3d.unit, vec3d.sdiv, vec3d.add, vec3d.sub, vec3d.zero]

/-- Witness of C2 as amended: the fixed node A of the two-node scenario stays
where it is. -/
theorem fixed_component_unchanged_witness :
    ((Update restExt exConstants twoNodeSolver twoNodeTrial 1).m_fem.m_mesh.Node 0).m_rt.comp 0
      = (twoNodeSolver.m_fem.m_mesh.Node 0).m_rt.comp 0 :=
  fixed_component_unchanged restExt exConstants twoNodeSolver twoNodeTrial 1 0 0
    (by decide) (by decide) (by decide) (by simp [twoNodeSolver, emptyModel])
    (by simp [twoNodeSolver, emptyModel])

/-- The nodes of the mesh after `Update` in a dynamic step. -/
theorem Update_node_dynamic (E : Ext R) (K : FEConstants) (S : FESolidSolver R)
    (ui : Nat → R) (s : R) (i : Nat) (hi : i < S.m_fem.m_mesh.Nodes)
    (hdyn : S.m_fem.m_pStep.m_nanalysis = K.FE_DYNAMIC) :
    ∃ p, (Update E K S ui s).m_fem.m_mesh.Node i =
      if S.m_fem.m_pStep.m_nModule = K.FE_POROELASTIC then
        { updateDynamicsNode S.m_fem.m_pStep.m_dt
            ((updatePositions E S ui s).m_fem.m_mesh.Node i) with
          m_vt := vec3d.sdiv (vec3d.sub
              ((updatePositions E S ui s).m_fem.m_mesh.Node i).m_rt
              ((updatePositions E S ui s).m_fem.m_mesh.Node i).m_rp) S.m_fem.m_pStep.m_dt
          m_pt := p }
      else updateDynamicsNode S.m_fem.m_pStep.m_dt
        ((updatePositions E S ui s).m_fem.m_mesh.Node i) := by
  obtain ⟨p, hp⟩ := Update_node E K S ui s i
  obtain ⟨-, -, g3, g4, -⟩ := updatePositions_frame E S ui s
  refine ⟨p, ?_⟩
  rw [hp, updateDynamics_node, g3, g4]
  simp only [hdyn, hi, and_self, if_true]
  rfl

/-- The nodes of the mesh after `Update` in a step that is not dynamic. -/
theorem Update_node_static (E : Ext R) (K : FEConstants) (S : FESolidSolver R)
    (ui : Nat → R) (s : R) (i : Nat)
    (hdyn : S.m_fem.m_pStep.m_nanalysis ≠ K.FE_DYNAMIC) :
    ∃ p, (Update E K S ui s).m_fem.m_mesh.Node i =
      if S.m_fem.m_pStep.m_nModule = K.FE_POROELASTIC then
        { (updatePositions E S ui s).m_fem.m_mesh.Node i with
          m_vt := if i < S.m_fem.m_mesh.Nodes then vec3d.sdiv (vec3d.sub
              ((updatePositions E S ui s).m_fem.m_mesh.Node i).m_rt
              ((updatePositions E S ui s).m_fem.m_mesh.Node i).m_rp) S.m_fem.m_pStep.m_dt
            else ((updatePositions E S ui s).m_fem.m_mesh.Node i).m_vt
          m_pt := p }
      else (updatePositions E S ui s).m_fem.m_mesh.Node i := by
  obtain ⟨p, hp⟩ := Update_node E K S ui s i
  obtain ⟨-, -, g3, g4, -⟩ := updatePositions_frame E S ui s
  refine ⟨p, ?_⟩
  rw [hp, updateDynamics_node, g3, g4]
  simp only [hdyn, false_and, if_false]

/-- C7 (as amended). In a dynamic step, after `Update` every node of the mesh has
`m_at = (m_rt - m_rp)*b - m_vp*a - m_ap` with `a = 4/dt`, `b = a/dt`, and, when the
module is not poroelastic, `m_vt = m_vp + (m_ap + m_at)*dt*0.5`. In a step that is
not dynamic the Newmark block changes nothing: `m_at` is what it was before the
call, and so is `m_vt` when the module is not poroelastic. -/
theorem newmark_update (E : Ext R) (K : FEConstants) (S : FESolidSolver R)
    (ui : Nat → R) (s : R) (i : Nat) (hi : i < S.m_fem.m_mesh.Nodes) :
    (S.m_fem.m_pStep.m_nanalysis = K.FE_DYNAMIC →
      ((Update E K S ui s).m_fem.m_mesh.Node i).m_at =
        vec3d.sub (vec3d.sub
          (vec3d.smul (vec3d.sub ((Update E K S ui s).m_fem.m_mesh.Node i).m_rt
              ((Update E K S ui s).m_fem.m_mesh.Node i).m_rp)
            (4 / S.m_fem.m_pStep.m_dt / S.m_fem.m_pStep.m_dt))
          (vec3d.smul ((Update E K S ui s).m_fem.m_mesh.Node i).m_vp
            (4 / S.m_fem.m_pStep.m_dt)))
          ((Update E K S ui s).m_fem.m_mesh.Node i).m_ap) ∧
    (S.m_fem.m_pStep.m_nanalysis = K.FE_DYNAMIC →
      S.m_fem.m_pStep.m_nModule ≠ K.FE_POROELASTIC →
      ((Update E K S ui s).m_fem.m_mesh.Node i).m_vt =
        vec3d.add ((Update E K S ui s).m_fem.m_mesh.Node i).m_vp
          (vec3d.smul (vec3d.smul
            (vec3d.add ((Update E K S ui s).m_fem.m_mesh.Node i).m_ap
              ((Update E K S ui s).m_fem.m_mesh.Node i).m_at)
            S.m_fem.m_pStep.m_dt) (1 / 2))) ∧
    (S.m_fem.m_pStep.m_nanalysis ≠ K.FE_DYNAMIC →
      updateDynamics K (updatePositions E S ui s) = updatePositions E S ui s ∧
      ((Update E K S ui s).m_fem.m_mesh.Node i).m_at = (S.m_fem.m_mesh.Node i).m_at ∧
      (S.m_fem.m_pStep.m_nModule ≠ K.FE_POROELASTIC →
        ((Update E K S ui s).m_fem.m_mesh.Node i).m_vt = (S.m_fem.m_mesh.Node i).m_vt)) := by
  refine ⟨fun hdyn => ?_, fun hdyn hporo => ?_, fun hdyn => ⟨?_, ?_, fun hporo => ?_⟩⟩
  · obtain ⟨p, hp⟩ := Update_node_dynamic E K S ui s i hi hdyn
    rw [hp]
    split_ifs <;> rfl
  · obtain ⟨p, hp⟩ := Update_node_dynamic E K S ui s i hi hdyn
    rw [hp, if_neg hporo]
    rfl
  · unfold updateDynamics
    rw [if_neg]
    rw [(updatePositions_frame E S ui s).2.2.1]
    exact hdyn
  · obtain ⟨p, hp⟩ := Update_node_static E K S ui s i hdyn
    obtain ⟨v, d, hv⟩ := updatePositions_node_eq E S ui s i
    rw [hp, hv]
    split_ifs <;> rfl
  · obtain ⟨p, hp⟩ := Update_node_static E K S ui s i hdyn
    obtain ⟨v, d, hv⟩ := updatePositions_node_eq E S ui s i
    rw [hp, hv, if_neg hporo]

/-- Counterexample to C7 as stated: in a step that is dynamic and poroelastic the
velocity after `Update` is not the Newmark velocity (here 1 instead of 2). -/
theorem newmark_velocity_replaced_in_poro_step :
    dynamicPoroSolver.m_fem.m_pStep.m_nanalysis = exConstants.FE_DYNAMIC ∧
    ((Update restExt exConstants dynamicPoroSolver (fun _ => 0) 1).m_fem.m_mesh.Node 0).m_vt.x
      = 1 ∧
    (vec3d.add ((Update restExt exConstants dynamicPoroSolver (fun _ => 0) 1).m_fem.m_mesh.Node 0).m_vp
      (vec3d.smul (vec3d.smul
        (vec3d.add ((Update restExt exConstants dynamicPoroSolver (fun _ => 0) 1).m_fem.m_mesh.Node 0).m_ap
          ((Update restExt exConstants dynamicPoroSolver (fun _ => 0) 1).m_fem.m_mesh.Node 0).m_at)
        dynamicPoroSolver.m_fem.m_pStep.m_dt) (1 / 2))).x = 2 := by
  obtain ⟨p, hp⟩ := Update_node_dynamic restExt exConstants dynamicPoroSolver (fun _ => 0) 1 0
    (by decide) rfl
  rw [hp, updatePositions_Node]
  refine ⟨rfl, ?_, ?_⟩ <;>
    norm_num [dynamicPoroSolver, exConstants, emptyModel, restNode, forEach_apply,
      updateFlexibleNode, updateRigidNode, updateDynamicsNode, vec3d.sdiv, vec3d.add,
      vec3d.sub, vec3d.smul, vec3d.zero]

/-- Witness of C7 as amended: the dynamic one-node step. -/
theorem newmark_update_witness :
    ((Update restExt exConstants dynamicFreeNodeSolver (fun _ => 0) 1).m_fem.m_mesh.Node 0).m_at =
        vec3d.sub (vec3d.sub
          (vec3d.smul (vec3d.sub
              ((Update restExt exConstants dynamicFreeNodeSolver (fun _ => 0) 1).m_fem.m_mesh.Node 0).m_rt
              ((Update restExt exConstants dynamicFreeNodeSolver (fun _ => 0) 1).m_fem.m_mesh.Node 0).m_rp)
            (4 / dynamicFreeNodeSolver.m_fem.m_pStep.m_dt / dynamicFreeNodeSolver.m_fem.m_pStep.m_dt))
          (vec3d.smul
            ((Update restExt exConstants dynamicFreeNodeSolver (fun _ => 0) 1).m_fem.m_mesh.Node 0).m_vp
            (4 / dynamicFreeNodeSolver.m_fem.m_pStep.m_dt)))
          ((Update restExt exConstants dynamicFreeNodeSolver (fun _ => 0) 1).m_fem.m_mesh.Node 0).m_ap :=
  (newmark_update restExt exConstants dynamicFreeNodeSolver (fun _ => 0) 1 0 (by decide)).1 rfl

/-- C6 (as amended). In a dynamic step, a node of the mesh with zero previous
velocity whose position after `Update` is its previous-step position gets
`m_vt = m_vp` and `m_at = -m_ap`, so that `m_at = m_ap` exactly when `m_ap = 0`. -/
theorem dynamic_update_at_rest (E : Ext R) (K : FEConstants) (S : FESolidSolver R)
    (ui : Nat → R) (s : R) (i : Nat) (hi : i < S.m_fem.m_mesh.Nodes)
    (hdyn : S.m_fem.m_pStep.m_nanalysis = K.FE_DYNAMIC)
    (hvp : ((Update E K S ui s).m_fem.m_mesh.Node i).m_vp = vec3d.zero)
    (hrt : ((Update E K S ui s).m_fem.m_mesh.Node i).m_rt
      = ((Update E K S ui s).m_fem.m_mesh.Node i).m_rp) :
    ((Update E K S ui s).m_fem.m_mesh.Node i).m_vt
      = ((Update E K S ui s).m_fem.m_mesh.Node i).m_vp ∧
    ((Update E K S ui s).m_fem.m_mesh.Node i).m_at
      = vec3d.neg ((Update E K S ui s).m_fem.m_mesh.Node i).m_ap ∧
    (((Update E K S ui s).m_fem.m_mesh.Node i).m_at
        = ((Update E K S ui s).m_fem.m_mesh.Node i).m_ap ↔
      ((Update E K S ui s).m_fem.m_mesh.Node i).m_ap = vec3d.zero) := by
  have key : ((Update E K S ui s).m_fem.m_mesh.Node i).m_vt
        = ((Update E K S ui s).m_fem.m_mesh.Node i).m_vp ∧
      ((Update E K S ui s).m_fem.m_mesh.Node i).m_at
        = vec3d.neg ((Update E K S ui s).m_fem.m_mesh.Node i).m_ap := by
    obtain ⟨p, hp⟩ := Update_node_dynamic E K S ui s i hi hdyn
    rw [hp] at hvp hrt ⊢
    by_cases hporo : S.m_fem.m_pStep.m_nModule = K.FE_POROELASTIC
    · simp only [hporo, if_true, updateDynamicsNode] at hvp hrt ⊢
      rw [hrt, hvp]
      simp [vec3d.sub, vec3d.sdiv, vec3d.smul, vec3d.zero, vec3d.neg]
    · simp only [hporo, if_false, updateDynamicsNode] at hvp hrt ⊢
      rw [hrt, hvp]
      simp [vec3d.sub, vec3d.add, vec3d.smul, vec3d.zero, vec3d.neg]
  refine ⟨key.1, key.2, ?_⟩
  rw [key.2]
  generalize ((Update E K S ui s).m_fem.m_mesh.Node i).m_ap = ap
  cases ap with
  | mk x y z =>
    simp only [vec3d.neg, vec3d.zero, vec3d.mk.injEq]
    constructor
    · rintro ⟨h1, h2, h3⟩
      exact ⟨by linarith, by linarith, by linarith⟩
    · rintro ⟨h1, h2, h3⟩
      subst h1 h2 h3
      simp

/-- Counterexample to C6 as stated: a single free node at rest with `ui = 0`, zero
previous velocity and previous acceleration `(1, 0, 0)` gets `m_at = (-1, 0, 0)`,
which is not `m_ap`. -/
theorem dynamic_update_flips_acceleration :
    dynamicFreeNodeSolver.m_fem.m_pStep.m_nanalysis = exConstants.FE_DYNAMIC ∧
    ((Update restExt exConstants dynamicFreeNodeSolver (fun _ => 0) 1).m_fem.m_mesh.Node 0).m_vp
      = vec3d.zero ∧
    ((Update restExt exConstants dynamicFreeNodeSolver (fun _ => 0) 1).m_fem.m_mesh.Node 0).m_rt
      = ((Update restExt exConstants dynamicFreeNodeSolver (fun _ => 0) 1).m_fem.m_mesh.Node 0).m_rp ∧
    ((Update restExt exConstants dynamicFreeNodeSolver (fun _ => 0) 1).m_fem.m_mesh.Node 0).m_at.x
      = -1 ∧
    ((Update restExt exConstants dynamicFreeNodeSolver (fun _ => 0) 1).m_fem.m_mesh.Node 0).m_ap.x
      = 1 := by
  obtain ⟨p, hp⟩ := Update_node_dynamic restExt exConstants dynamicFreeNodeSolver
    (fun _ => 0) 1 0 (by decide) rfl
  rw [hp, updatePositions_Node]
  refine ⟨rfl, ?_, ?_, ?_, ?_⟩ <;>
    norm_num [dynamicFreeNodeSolver, exConstants, emptyModel, restNode, forEach_apply,
      updateFlexibleNode, updateRigidNode, updateDynamicsNode, vec3d.sdiv, vec3d.add,
      vec3d.sub, vec3d.smul, vec3d.zero]

/-- The node of `dynamicFreeNodeSolver` after `Update` with `ui = 0`: zero previous
velocity, and the position is the previous-step position. -/
theorem dynamicFreeNode_at_rest :
    ((Update restExt exConstants dynamicFreeNodeSolver (fun _ => 0) 1).m_fem.m_mesh.Node 0).m_vp
      = vec3d.zero ∧
    ((Update restExt exConstants dynamicFreeNodeSolver (fun _ => 0) 1).m_fem.m_mesh.Node 0).m_rt
      = ((Update restExt exConstants dynamicFreeNodeSolver (fun _ => 0) 1).m_fem.m_mesh.Node 0).m_rp := by
  obtain ⟨p, hp⟩ := Update_node_dynamic restExt exConstants dynamicFreeNodeSolver
    (fun _ => 0) 1 0 (by decide) rfl
  rw [hp, updatePositions_Node]
  constructor <;>
    norm_num [dynamicFreeNodeSolver, exConstants, emptyModel, restNode, forEach_apply,
      updateFlexibleNode, updateRigidNode, updateDynamicsNode, vec3d.sdiv, vec3d.add,
      vec3d.sub, vec3d.smul, vec3d.zero]

/-- Witness of C6 as amended: the free node of `dynamicFreeNodeSolver`, `ui = 0`. -/
theorem dynamic_update_at_rest_witness :
    ((Update restExt exConstants dynamicFreeNodeSolver (fun _ => 0) 1).m_fem.m_mesh.Node 0).m_vt
      = ((Update restExt exConstants dynamicFreeNodeSolver (fun _ => 0) 1).m_fem.m_mesh.Node 0).m_vp ∧
    ((Update restExt exConstants dynamicFreeNodeSolver (fun _ => 0) 1).m_fem.m_mesh.Node 0).m_at
      = vec3d.neg
        ((Update restExt exConstants dynamicFreeNodeSolver (fun _ => 0) 1).m_fem.m_mesh.Node 0).m_ap :=
  ⟨(dynamic_update_at_rest restExt exConstants dynamicFreeNodeSolver (fun _ => 0) 1 0
      (by decide) rfl dynamicFreeNode_at_rest.1 dynamicFreeNode_at_rest.2).1,
    (dynamic_update_at_rest restExt exConstants dynamicFreeNodeSolver (fun _ => 0) 1 0
      (by decide) rfl dynamicFreeNode_at_rest.1 dynamicFreeNode_at_rest.2).2.1⟩

/-- The rigid bodies after `UpdateRigidBodies`. -/
theorem UpdateRigidBodies_RB (E : Ext R) (S : FESolidSolver R) (ui : Nat → R) (s : R)
    (i : Nat) (hi : i < S.m_fem.m_nrb) :
    (UpdateRigidBodies E S ui s).m_fem.m_RB i =
      updateRigidBody E S.m_fem.LoadCurve S.m_Ui ui s (S.m_fem.m_RB i) := by
  simp [UpdateRigidBodies, forEach_apply, hi]

/-- C8. For an active rigid body and a translational component `j < 3` with a
prescribed displacement of curve id `lc`: when `lc ≥ 1`,
`du[j] = sf * Value(curve lc-1) - m_Up[j]`; the new centre component is
`m_rp[j] + du[j]`; when `lc < 0`, `du[j] = 0`; and with curve value 2, `sf = 1` and
`m_Up[0] = 0.5` the x-displacement is 1.5 and the new x-position is
`m_rp.x + 1.5`. -/
theorem rigid_prescribed_translation (E : Ext R) (S : FESolidSolver R) (ui : Nat → R)
    (s : R) (i : Nat) (hi : i < S.m_fem.m_nrb) (hact : (S.m_fem.m_RB i).m_bActive = true)
    (j : Fin 6) (hj : j.val < 3) (pdc : FERigidBodyDisplacement R)
    (hp : (S.m_fem.m_RB i).m_pDC j = some pdc) :
    (1 ≤ pdc.lc → ((UpdateRigidBodies E S ui s).m_fem.m_RB i).m_du j
      = pdc.sf * S.m_fem.LoadCurve (pdc.lc - 1) - (S.m_fem.m_RB i).m_Up j) ∧
    (((UpdateRigidBodies E S ui s).m_fem.m_RB i).m_rt.comp j.val
      = (S.m_fem.m_RB i).m_rp.comp j.val + ((UpdateRigidBodies E S ui s).m_fem.m_RB i).m_du j) ∧
    (pdc.lc < 0 → ((UpdateRigidBodies E S ui s).m_fem.m_RB i).m_du j = 0) ∧
    (1 ≤ pdc.lc → j = 0 → S.m_fem.LoadCurve (pdc.lc - 1) = 2 → pdc.sf = 1 →
      (S.m_fem.m_RB i).m_Up 0 = 1 / 2 →
      ((UpdateRigidBodies E S ui s).m_fem.m_RB i).m_du 0 = 3 / 2 ∧
      ((UpdateRigidBodies E S ui s).m_fem.m_RB i).m_rt.x = (S.m_fem.m_RB i).m_rp.x + 3 / 2) := by
  have hdu (h : 0 ≤ pdc.lc) : ((UpdateRigidBodies E S ui s).m_fem.m_RB i).m_du j
      = pdc.sf * S.m_fem.LoadCurve (pdc.lc - 1) - (S.m_fem.m_RB i).m_Up j := by
    rw [UpdateRigidBodies_RB E S ui s i hi]
    simp [updateRigidBody, hact, rigidDu, hj, duDisplacement, hp, not_lt.mpr h]
  refine ⟨fun h => hdu (by omega), ?_, fun h => ?_, fun h hj0 hv hsf hup => ?_⟩
  · rw [UpdateRigidBodies_RB E S ui s i hi]
    simp only [updateRigidBody, hact, if_true]
    obtain ⟨j, hj6⟩ := j
    simp only at hj
    interval_cases j <;> rfl
  · rw [UpdateRigidBodies_RB E S ui s i hi]
    simp [updateRigidBody, hact, rigidDu, hj, duDisplacement, hp, h]
  · subst hj0
    have h0 := hdu (by omega)
    rw [hv, hsf, hup] at h0
    have hrt : ((UpdateRigidBodies E S ui s).m_fem.m_RB i).m_rt.x
        = (S.m_fem.m_RB i).m_rp.x + ((UpdateRigidBodies E S ui s).m_fem.m_RB i).m_du 0 := by
      rw [UpdateRigidBodies_RB E S ui s i hi]
      simp only [updateRigidBody, hact, if_true]
    rw [hrt, h0]
    norm_num

/-- Witness of C8: the rigid-body scenario of the spec, `du[0] = 2 - 0.5 = 1.5`. -/
theorem rigid_prescribed_translation_witness :
    ((UpdateRigidBodies restExt prescribedBodySolver (fun _ => 0) 1).m_fem.m_RB 0).m_du 0 = 3 / 2 ∧
    ((UpdateRigidBodies restExt prescribedBodySolver (fun _ => 0) 1).m_fem.m_RB 0).m_rt.x
      = (prescribedBodySolver.m_fem.m_RB 0).m_rp.x + 3 / 2 :=
  (rigid_prescribed_translation restExt prescribedBodySolver (fun _ => 0) 1 0 (by decide) rfl
    0 (by decide) { lc := 1, sf := 1 } rfl).2.2.2 (by decide) rfl rfl rfl rfl

/-- C9 (the code at the failing input). A prescribed rotation with curve id 1,
scale factor 2, curve value 1 and nothing committed: the code sets
`du[3] = 1`, the curve value minus `m_Up[3]`, where the rule of the translational
components, `sf * value - m_Up[3]`, gives 2. -/
theorem rigid_prescribed_rotation_ignores_sf (E : Ext ℚ) :
    (rotationDriverSolver.m_fem.m_RB 0).m_pDC 3 = some { lc := 1, sf := 2 } ∧
    ((UpdateRigidBodies E rotationDriverSolver (fun _ => 0) 1).m_fem.m_RB 0).m_du 3 = 1 ∧
    (2 : ℚ) * rotationDriverSolver.m_fem.LoadCurve (1 - 1)
      - (rotationDriverSolver.m_fem.m_RB 0).m_Up 3 = 2 := by
  refine ⟨rfl, ?_, ?_⟩
  · have h3 : ¬ ((3 : Fin 6).val < 3) := by decide
    rw [UpdateRigidBodies_RB E _ _ _ 0 (by decide)]
    simp [updateRigidBody, rotationDriverSolver, emptyModel, restBody, rigidDu, duRotation, h3]
  · norm_num [rotationDriverSolver, emptyModel, restBody]

/-- C10. For an active rigid body, every component `j` without a prescribed
displacement gets `du[j] = m_Ui[m_LM[j]] + s*ui[m_LM[j]]` when `m_LM[j] ≥ 0` and
`du[j] = 0` when `m_LM[j] < 0`; and for all six components `m_Ut[j]` becomes
`m_Up[j] + du[j]`. -/
theorem rigid_free_components (E : Ext R) (S : FESolidSolver R) (ui : Nat → R)
    (s : R) (i : Nat) (hi : i < S.m_fem.m_nrb) (hact : (S.m_fem.m_RB i).m_bActive = true) :
    (∀ j, (S.m_fem.m_RB i).m_pDC j = none →
      (0 ≤ (S.m_fem.m_RB i).m_LM j →
        ((UpdateRigidBodies E S ui s).m_fem.m_RB i).m_du j
          = S.m_Ui ((S.m_fem.m_RB i).m_LM j).toNat + s * ui ((S.m_fem.m_RB i).m_LM j).toNat) ∧
      ((S.m_fem.m_RB i).m_LM j < 0 →
        ((UpdateRigidBodies E S ui s).m_fem.m_RB i).m_du j = 0)) ∧
    (∀ j, ((UpdateRigidBodies E S ui s).m_fem.m_RB i).m_Ut j
      = (S.m_fem.m_RB i).m_Up j + ((UpdateRigidBodies E S ui s).m_fem.m_RB i).m_du j) := by
  rw [UpdateRigidBodies_RB E S ui s i hi]
  refine ⟨fun j hp => ⟨fun h => ?_, fun h => ?_⟩, fun j => ?_⟩
  · simp only [updateRigidBody, hact, if_true, rigidDu, duDisplacement, duRotation, hp]
    split_ifs <;> rfl
  · simp only [updateRigidBody, hact, if_true, rigidDu, duDisplacement, duRotation, hp,
      not_le.mpr h, if_false]
    split_ifs <;> rfl
  · simp only [updateRigidBody, hact, if_true]

/-- Witness of C10: the free x-translation of the body of `rigidNodeSolver`. -/
theorem rigid_free_components_witness :
    ((UpdateRigidBodies restExt rigidNodeSolver (fun _ => 1) 1).m_fem.m_RB 0).m_du 0
      = rigidNodeSolver.m_Ui 0 + 1 * 1 :=
  ((rigid_free_components restExt rigidNodeSolver (fun _ => 1) 1 0 (by decide) rfl).1 0 rfl).1
    (by decide)

/-- The squared length is multiplicative. -/
theorem quatd.normSq_mul (p q : quatd R) :
    quatd.normSq (quatd.mul p q) = quatd.normSq p * quatd.normSq q := by
  simp only [quatd.normSq, quatd.mul]
  ring

/-- The squared length is not negative. -/
theorem quatd.normSq_nonneg (q : quatd R) : 0 ≤ quatd.normSq q := by
  unfold quatd.normSq
  nlinarith [mul_self_nonneg q.x, mul_self_nonneg q.y, mul_self_nonneg q.z, mul_self_nonneg q.w]

/-- With an exact square root, `sqrt 1 = 1`. -/
theorem sqrt_one_of_exact (E : Ext R) (hsq : ∀ x, 0 ≤ x → E.sqrt x * E.sqrt x = x)
    (hnn : ∀ x, 0 ≤ E.sqrt x) : E.sqrt 1 = 1 := by
  have h1 := hsq 1 zero_le_one
  have h2 := hnn 1
  nlinarith

/-- With exact `sqrt`, `sin` and `cos`, the quaternion built from a rotation
vector `r` and the angle `|r|` has squared length 1. -/
theorem quatd.normSq_ofAngleAxis (E : Ext R) (hsq : ∀ x, 0 ≤ x → E.sqrt x * E.sqrt x = x)
    (hcs : ∀ t, E.cos t * E.cos t + E.sin t * E.sin t = 1) (hs0 : E.sin 0 = 0)
    (r : vec3d R) :
    quatd.normSq (quatd.ofAngleAxis E (E.sqrt (r.x * r.x + r.y * r.y + r.z * r.z)) r) = 1 := by
  have hn : 0 ≤ r.x * r.x + r.y * r.y + r.z * r.z := by
    nlinarith [mul_self_nonneg r.x, mul_self_nonneg r.y, mul_self_nonneg r.z]
  have hw := hsq _ hn
  simp only [quatd.normSq, quatd.ofAngleAxis, vec3d.unit, vec3d.sdiv]
  set w := E.sqrt (r.x * r.x + r.y * r.y + r.z * r.z) with hwdef
  by_cases h0 : w = 0
  · have hc := hcs 0
    rw [hs0] at hc
    simp only [h0, div_zero, zero_div, hs0, mul_zero, zero_mul, zero_add]
    linarith
  · have hc := hcs (w / 2)
    have key : r.x / w * E.sin (w / 2) * (r.x / w * E.sin (w / 2))
        + r.y / w * E.sin (w / 2) * (r.y / w * E.sin (w / 2))
        + r.z / w * E.sin (w / 2) * (r.z / w * E.sin (w / 2))
        = E.sin (w / 2) * E.sin (w / 2) * ((r.x * r.x + r.y * r.y + r.z * r.z) / (w * w)) := by
      field_simp
      ring
    rw [key, ← hw, div_self (mul_ne_zero h0 h0)]
    linarith

/-- C5. With exact `sqrt`, `sin` and `cos` (arithmetic over the reals), the
rigid-body update keeps the orientation of unit length: for every active rigid
body whose previous-step orientation `m_qp` has norm 1, and for every `ui`, `s`,
prescribed or free rotation components, `m_qt` after `UpdateRigidBodies(ui, s)`
has norm 1. -/
theorem rigid_orientation_unit (E : Ext R) (hsq : ∀ x, 0 ≤ x → E.sqrt x * E.sqrt x = x)
    (hnn : ∀ x, 0 ≤ E.sqrt x) (hcs : ∀ t, E.cos t * E.cos t + E.sin t * E.sin t = 1)
    (hs0 : E.sin 0 = 0) (S : FESolidSolver R) (ui : Nat → R) (s : R) (i : Nat)
    (hi : i < S.m_fem.m_nrb) (hact : (S.m_fem.m_RB i).m_bActive = true)
    (hq : quatd.Norm E (S.m_fem.m_RB i).m_qp = 1) :
    quatd.Norm E ((UpdateRigidBodies E S ui s).m_fem.m_RB i).m_qt = 1 := by
  have h1 := sqrt_one_of_exact E hsq hnn
  have hqp : quatd.normSq (S.m_fem.m_RB i).m_qp = 1 := by
    have h := hsq _ (quatd.normSq_nonneg (S.m_fem.m_RB i).m_qp)
    unfold quatd.Norm at hq
    rw [hq] at h
    linarith
  rw [UpdateRigidBodies_RB E S ui s i hi]
  simp only [updateRigidBody, hact, if_true]
  have hdq := quatd.normSq_ofAngleAxis E hsq hcs hs0
    ⟨rigidDu S.m_fem.LoadCurve S.m_Ui ui s (S.m_fem.m_RB i) 3,
     rigidDu S.m_fem.LoadCurve S.m_Ui ui s (S.m_fem.m_RB i) 4,
     rigidDu S.m_fem.LoadCurve S.m_Ui ui s (S.m_fem.m_RB i) 5⟩
  simp only at hdq
  generalize quatd.ofAngleAxis E _ _ = dq at hdq ⊢
  have hprod := quatd.normSq_mul dq (S.m_fem.m_RB i).m_qp
  rw [hdq, hqp, mul_one] at hprod
  unfold quatd.MakeUnit quatd.Norm
  simp only [hprod, h1, div_one]

/-- Witness of C5, over the reals with the real `sqrt`, `sin` and `cos`: a body
with identity previous orientation whose free rotation about x is incremented
by the rotation vector `(1, 0, 0)`. -/
theorem rigid_orientation_unit_witness :
    quatd.Norm (⟨Real.sqrt, Real.sin, Real.cos, fun _ v => v, fun _ v => v⟩ : Ext ℝ)
      ((UpdateRigidBodies (⟨Real.sqrt, Real.sin, Real.cos, fun _ v => v, fun _ v => v⟩ : Ext ℝ)
        (freeRotationSolver : FESolidSolver ℝ) (fun _ => 1) 1).m_fem.m_RB 0).m_qt = 1 :=
  rigid_orientation_unit (⟨Real.sqrt, Real.sin, Real.cos, fun _ v => v, fun _ v => v⟩ : Ext ℝ)
    (fun _ hx => Real.mul_self_sqrt hx) Real.sqrt_nonneg
    (fun t => by have h := Real.cos_sq_add_sin_sq t; nlinarith [h])
    Real.sin_zero (freeRotationSolver : FESolidSolver ℝ) (fun _ => 1) 1 0
    (by simp [freeRotationSolver, emptyModel]) rfl
    (by simp [quatd.Norm, quatd.normSq, freeRotationSolver, emptyModel, restBody])

/-! ## Two calls of `Update` in a row -/

theorem SameFrame.refl (S : FESolidSolver R) : SameFrame S S :=
  ⟨rfl, rfl, rfl, rfl, rfl, rfl, rfl, rfl, rfl, rfl, rfl, rfl, rfl, rfl⟩

theorem SameFrame.trans {S T U : FESolidSolver R} (h1 : SameFrame S T) (h2 : SameFrame T U) :
    SameFrame S U := by
  obtain ⟨a1, a2, a3, a4, a5, a6, a7, a8, a9, a10, a11, a12, a13, a14⟩ := h1
  obtain ⟨b1, b2, b3, b4, b5, b6, b7, b8, b9, b10, b11, b12, b13, b14⟩ := h2
  exact ⟨b1.trans a1, b2.trans a2, b3.trans a3, b4.trans a4, b5.trans a5, b6.trans a6,
    b7.trans a7, b8.trans a8, b9.trans a9, b10.trans a10, b11.trans a11, b12.trans a12,
    b13.trans a13, b14.trans a14⟩

theorem SameFrame.withNodes (S : FESolidSolver R) (N : Nat → FENode R) :
    SameFrame S (S.withNodes N) := SameFrame.refl S

theorem SameFrame.call (S : FESolidSolver R) (cs : List Call) : SameFrame S (S.call cs) :=
  SameFrame.refl S

theorem SameFrame.updateDynamics (K : FEConstants) (S : FESolidSolver R) :
    SameFrame S (updateDynamics K S) := by
  unfold FEBio.updateDynamics
  split_ifs
  · exact SameFrame.withNodes S _
  · exact SameFrame.refl S

theorem SameFrame.UpdatePoro (S : FESolidSolver R) (ui : Nat → R) (s : R) :
    SameFrame S (UpdatePoro S ui s) := SameFrame.withNodes S _

/-- Everything `Update` does after the position passes keeps the frame. -/
theorem SameFrame.Update (E : Ext R) (K : FEConstants) (S : FESolidSolver R) (ui : Nat → R)
    (s : R) : SameFrame (updatePositions E S ui s) (Update E K S ui s) := by
  unfold FEBio.Update
  have h5 := SameFrame.updateDynamics K (updatePositions E S ui s)
  have h6 : SameFrame (updatePositions E S ui s)
      (if (FEBio.updateDynamics K (updatePositions E S ui s)).m_fem.m_pStep.m_nModule
          = K.FE_POROELASTIC
        then FEBio.UpdatePoro (FEBio.updateDynamics K (updatePositions E S ui s)) ui s
        else FEBio.updateDynamics K (updatePositions E S ui s)) := by
    split_ifs
    · exact h5.trans (SameFrame.UpdatePoro _ ui s)
    · exact h5
  simp only
  generalize (if (FEBio.updateDynamics K (updatePositions E S ui s)).m_fem.m_pStep.m_nModule
          = K.FE_POROELASTIC
        then FEBio.UpdatePoro (FEBio.updateDynamics K (updatePositions E S ui s)) ui s
        else FEBio.updateDynamics K (updatePositions E S ui s)) = S6 at h6 ⊢
  have h7 : SameFrame (updatePositions E S ui s)
      (if S6.m_fem.m_bcontact = true then UpdateContact S6 else S6) := by
    split_ifs
    · exact h6.trans (SameFrame.call _ _)
    · exact h6
  generalize (if S6.m_fem.m_bcontact = true then UpdateContact S6 else S6) = S7 at h7 ⊢
  have h8 : SameFrame (updatePositions E S ui s) (UpdateStresses S7) :=
    h7.trans (SameFrame.call _ _)
  split_ifs
  · exact h8.trans (SameFrame.call _ _)
  · exact h8

/-- The rigid body displacement `du` only reads data the update does not write. -/
theorem rigidDu_congr (LC : Int → R) (m_Ui ui : Nat → R) (s : R) (A B : FERigidBody R)
    (h1 : A.m_pDC = B.m_pDC) (h2 : A.m_Up = B.m_Up) (h3 : A.m_LM = B.m_LM) :
    rigidDu LC m_Ui ui s A = rigidDu LC m_Ui ui s B := by
  funext j
  simp only [rigidDu, duDisplacement, duRotation, h1, h2, h3]

/-- Updating a rigid body twice is updating it once. -/
theorem updateRigidBody_idem (E : Ext R) (LC : Int → R) (m_Ui ui : Nat → R) (s : R)
    (RB : FERigidBody R) :
    updateRigidBody E LC m_Ui ui s (updateRigidBody E LC m_Ui ui s RB)
      = updateRigidBody E LC m_Ui ui s RB := by
  by_cases h : RB.m_bActive = true
  · have hd : rigidDu LC m_Ui ui s (updateRigidBody E LC m_Ui ui s RB)
        = rigidDu LC m_Ui ui s RB := by
      apply rigidDu_congr <;> simp [updateRigidBody, h]
    unfold updateRigidBody at hd ⊢
    simp only [h, if_true] at hd ⊢
    simp only [hd]
  · simp [updateRigidBody, h]

/-- The rigid bodies after a second `Update` are those after the first. -/
theorem UpdateRigidBodies_RB_idem (E : Ext R) (K : FEConstants) (S : FESolidSolver R)
    (ui : Nat → R) (s : R) :
    (UpdateRigidBodies E (Update E K S ui s) ui s).m_fem.m_RB
      = (UpdateRigidBodies E S ui s).m_fem.m_RB := by
  obtain ⟨a1, a2, a3, a4, a5, a6, a7, a8, a9, a10, a11, a12, a13, a14⟩ :=
    SameFrame.Update E K S ui s
  funext i
  have e1 : (UpdateRigidBodies E (Update E K S ui s) ui s).m_fem.m_RB i
      = forEach (Update E K S ui s).m_fem.m_nrb
          (updateRigidBody E (Update E K S ui s).m_fem.LoadCurve (Update E K S ui s).m_Ui ui s)
          (Update E K S ui s).m_fem.m_RB i := rfl
  have e2 : (UpdateRigidBodies E S ui s).m_fem.m_RB i
      = forEach S.m_fem.m_nrb (updateRigidBody E S.m_fem.LoadCurve S.m_Ui ui s)
          S.m_fem.m_RB i := rfl
  have e3 : (updatePositions E S ui s).m_fem.m_RB = (UpdateRigidBodies E S ui s).m_fem.m_RB := rfl
  rw [e1, a8, a2, a9, a10, e3]
  have f1 : (updatePositions E S ui s).m_fem.LoadCurve = S.m_fem.LoadCurve := rfl
  have f2 : (updatePositions E S ui s).m_Ui = S.m_Ui := rfl
  have f3 : (updatePositions E S ui s).m_fem.m_nrb = S.m_fem.m_nrb := rfl
  rw [f1, f2, f3, forEach_apply, e2, forEach_apply]
  split_ifs
  · exact updateRigidBody_idem E _ _ _ _ _
  · rfl

/-- What the update of a rigid node and then of its flexible dofs does to two
nodes with the same reference position, equation ids and rigid body. -/
theorem Tracks.flexible (E : Ext R) (RB : Nat → FERigidBody R) (m_Ut m_Ui ui : Nat → R)
    (s : R) (a a' : FENode R) (h0 : a.m_r0 = a'.m_r0) (hid : a.m_ID = a'.m_ID)
    (hrid : a.m_rid = a'.m_rid) :
    Tracks a a' (updateFlexibleNode m_Ut m_Ui ui s (updateRigidNode E RB a))
      (updateFlexibleNode m_Ut m_Ui ui s (updateRigidNode E RB a')) := by
  refine ⟨?_, fun bc => ?_⟩
  · unfold updateRigidNode
    rw [← hrid]
    split_ifs <;> exact h0
  · unfold updateRigidNode
    rw [← hrid, ← h0]
    by_cases hr : 0 ≤ a.m_rid
    · left
      simp only [hr, if_true, updateFlexibleNode, ← hid, ← h0]
    · simp only [hr, if_false, updateFlexibleNode, ← hid, ← h0, vec3d.compAt]
      by_cases h1 : bc = 0
      · simp only [h1, if_true]
        by_cases g : 0 ≤ a.m_ID 0
        · left; simp only [g, if_true]
        · right; simp only [g, if_false, and_self]
      · by_cases h2 : bc = 1
        · simp only [h2, if_true, one_ne_zero, if_false]
          by_cases g : 0 ≤ a.m_ID 1
          · left; simp only [g, if_true]
          · right; simp only [g, if_false, and_self]
        · by_cases h3 : bc = 2
          · subst h3
            simp only [if_true, if_false, h1, h2]
            by_cases g : 0 ≤ a.m_ID 2
            · left; simp only [g, if_true]
            · right; simp only [g, if_false, and_self]
          · left; simp only [h1, h2, h3, if_false]

/-- A prescribed displacement keeps two tracked nodes tracked. -/
theorem Tracks.prescribe (E : Ext R) (bc : Int) (g : R) (a a' b b' : FENode R)
    (h : Tracks a a' b b') :
    Tracks a a' (prescribeNode E bc g b) (prescribeNode E bc g b') := by
  obtain ⟨h0, hc⟩ := h
  refine ⟨?_, fun c => ?_⟩
  · unfold prescribeNode
    split_ifs <;> exact h0
  · have hx := hc 0
    have hy := hc 1
    have hz := hc 2
    simp only [vec3d.compAt, if_true, one_ne_zero, if_false] at hx hy hz
    norm_num at hz
    unfold prescribeNode
    rw [← h0]
    by_cases c0 : c = 0
    · subst c0
      split_ifs <;> simp_all [vec3d.compAt]
    · by_cases c1 : c = 1
      · subst c1
        split_ifs <;> simp_all [vec3d.compAt]
      · by_cases c2 : c = 2
        · subst c2
          split_ifs <;> simp_all [vec3d.compAt]
        · left
          simp only [vec3d.compAt, c0, c1, c2, if_false]

/-- The prescribed displacements keep two tracked meshes tracked. -/
theorem Tracks.prescribed_fold (E : Ext R) (LC : Int → R) (dcs : List (FENodalDisplacement R))
    (A A' N N' : Nat → FENode R) (h : ∀ i, Tracks (A i) (A' i) (N i) (N' i)) (i : Nat) :
    Tracks (A i) (A' i) ((dcs.foldl (prescribedDisplacementStep E LC) N) i)
      ((dcs.foldl (prescribedDisplacementStep E LC) N') i) := by
  induction dcs generalizing N N' with
  | nil => exact h i
  | cons dc rest ih =>
    rw [List.foldl_cons, List.foldl_cons]
    apply ih
    intro j
    unfold prescribedDisplacementStep
    split_ifs with hact
    · by_cases hj : j = dc.node
      · subst hj
        simp only [Function.update_same]
        exact Tracks.prescribe E _ _ _ _ _ _ (h dc.node)
      · rw [Function.update_noteq hj, Function.update_noteq hj]
        exact h j
    · exact h j

/-! ## The linear constraints -/

/-- A code that is not translational addresses no component. -/
theorem vec3d.compAt_other (a : vec3d R) (bc : Int) (h : ¬ (bc = 0 ∨ bc = 1 ∨ bc = 2)) :
    a.compAt bc = 0 := by
  simp only [not_or] at h
  simp only [vec3d.compAt, h.1, h.2.1, h.2.2, if_false]

/-- The contribution of one slave dof. -/
theorem slaveStep_eq (N : Nat → FENode R) (d : R) (si : SlaveDOF R) :
    slaveStep N d si = d + si.val * dofDisp (N si.node) si.bc := by
  unfold slaveStep dofDisp vec3d.compAt
  split_ifs <;> simp_all

/-- The value `d` of the slave loop is the weighted sum of the slave
displacements. -/
theorem slave_fold_eq (N : Nat → FENode R) (slaves : List (SlaveDOF R)) (d : R) :
    slaves.foldl (slaveStep N) d = d + constraintSum N slaves := by
  induction slaves generalizing d with
  | nil => simp [constraintSum]
  | cons si rest ih =>
    rw [List.foldl_cons, ih, slaveStep_eq]
    simp only [constraintSum, List.map_cons, List.sum_cons]
    ring

/-- The weighted sum only depends on the displacements of the slave dofs. -/
theorem constraintSum_congr (N N' : Nat → FENode R) (slaves : List (SlaveDOF R))
    (h : ∀ si ∈ slaves, dofDisp (N si.node) si.bc = dofDisp (N' si.node) si.bc) :
    constraintSum N slaves = constraintSum N' slaves := by
  unfold constraintSum
  congr 1
  apply List.map_congr_left
  intro si hsi
  rw [h si hsi]

/-- What a constraint writes to its master node, component by component. -/
theorem writeMaster_compAt (bc : Int) (d : R) (node : FENode R) (b : Int) :
    (writeMaster bc d node).m_rt.compAt b =
      if b = bc ∧ (b = 0 ∨ b = 1 ∨ b = 2) then node.m_r0.compAt b + d
      else node.m_rt.compAt b := by
  by_cases hb : b = 0 ∨ b = 1 ∨ b = 2
  · by_cases c0 : bc = 0
    · subst c0
      rcases hb with hb | hb | hb <;> subst hb <;> norm_num [writeMaster, vec3d.compAt]
    · by_cases c1 : bc = 1
      · subst c1
        rcases hb with hb | hb | hb <;> subst hb <;> norm_num [writeMaster, vec3d.compAt]
      · by_cases c2 : bc = 2
        · subst c2
          rcases hb with hb | hb | hb <;> subst hb <;> norm_num [writeMaster, vec3d.compAt]
        · rw [if_neg]
          · simp only [writeMaster, c0, c1, c2, if_false]
          · rintro ⟨h1, h2⟩
            subst h1
            rcases h2 with h | h | h
            · exact c0 h
            · exact c1 h
            · exact c2 h
  · have hr : (writeMaster bc d node).m_rt.compAt b = 0 := vec3d.compAt_other _ b hb
    rw [hr, if_neg (fun h => hb h.2), vec3d.compAt_other _ b hb]

theorem writeMaster_r0 (bc : Int) (d : R) (node : FENode R) :
    (writeMaster bc d node).m_r0 = node.m_r0 := by
  unfold writeMaster
  split_ifs <;> rfl

/-- One constraint, dof by dof: the master dof gets reference + weighted sum of
the slave displacements, every other dof is left alone. -/
theorem linearConstraintStep_compAt (N : Nat → FENode R) (c : FELinearConstraint R)
    (i : Nat) (b : Int) :
    ((linearConstraintStep N c) i).m_rt.compAt b =
      if i = c.master.node ∧ b = c.master.bc ∧ (b = 0 ∨ b = 1 ∨ b = 2) then
        (N i).m_r0.compAt b + constraintSum N c.slave
      else (N i).m_rt.compAt b := by
  unfold linearConstraintStep
  simp only [slave_fold_eq, zero_add]
  by_cases hi : i = c.master.node
  · subst hi
    simp only [Function.update_same, writeMaster_compAt, true_and]
  · rw [Function.update_noteq hi]
    simp only [hi, false_and, if_false]

theorem linearConstraintStep_r0 (N : Nat → FENode R) (c : FELinearConstraint R) (i : Nat) :
    ((linearConstraintStep N c) i).m_r0 = (N i).m_r0 := by
  unfold linearConstraintStep
  by_cases hi : i = c.master.node
  · subst hi
    simp only [Function.update_same, writeMaster_r0]
  · rw [Function.update_noteq hi]

theorem FELinearConstraint.isMaster_eq_false (c : FELinearConstraint R) (i : Nat) (b : Int) :
    c.isMaster i b = false ↔ ¬ (c.master.node = i ∧ c.master.bc = b) := by
  simp [FELinearConstraint.isMaster]

theorem slavesFinal_cons (c : FELinearConstraint R) (rest : List (FELinearConstraint R)) :
    slavesFinal (c :: rest) = true ↔
      (∀ si ∈ c.slave, ∀ c' ∈ c :: rest, c'.isMaster si.node si.bc = false) ∧
        slavesFinal rest = true := by
  simp [slavesFinal, List.all_eq_true]

/-- The linear constraints leave alone every dof that is not a master dof. -/
theorem linearConstraint_fold_nonmaster (cs : List (FELinearConstraint R))
    (N : Nat → FENode R) (i : Nat) (b : Int)
    (h : ∀ c ∈ cs, c.isMaster i b = false) :
    ((cs.foldl linearConstraintStep N) i).m_rt.compAt b = (N i).m_rt.compAt b := by
  induction cs generalizing N with
  | nil => rfl
  | cons c rest ih =>
    rw [List.foldl_cons, ih _ (fun d hd => h d (List.mem_cons_of_mem _ hd)),
      linearConstraintStep_compAt]
    have hc := (c.isMaster_eq_false i b).mp (h c (List.mem_cons_self _ _))
    rw [if_neg]
    rintro ⟨h1, h2, -⟩
    exact hc ⟨h1.symm, h2.symm⟩

theorem linearConstraint_fold_r0 (cs : List (FELinearConstraint R))
    (N : Nat → FENode R) (i : Nat) :
    ((cs.foldl linearConstraintStep N) i).m_r0 = (N i).m_r0 := by
  obtain ⟨v, hv⟩ := linearConstraint_fold cs N i
  rw [hv]

/-- When the slaves of every constraint are final, the mesh after the
constraints only depends on the reference positions and on the dofs that are
not master dofs. -/
theorem linearConstraint_fold_agree (cs : List (FELinearConstraint R))
    (N N' : Nat → FENode R) (h0 : ∀ i, (N i).m_r0 = (N' i).m_r0)
    (hfin : slavesFinal cs = true)
    (hag : ∀ i b, (∀ c ∈ cs, c.isMaster i b = false) →
      (N i).m_rt.compAt b = (N' i).m_rt.compAt b)
    (i : Nat) (b : Int) :
    ((cs.foldl linearConstraintStep N) i).m_rt.compAt b
      = ((cs.foldl linearConstraintStep N') i).m_rt.compAt b := by
  induction cs generalizing N N' with
  | nil => exact hag i b (fun c hc => absurd hc (List.not_mem_nil c))
  | cons c rest ih =>
    obtain ⟨hs, hrest⟩ := (slavesFinal_cons c rest).mp hfin
    rw [List.foldl_cons, List.foldl_cons]
    have hsum : constraintSum N c.slave = constraintSum N' c.slave := by
      apply constraintSum_congr
      intro si hsi
      unfold dofDisp
      rw [hag si.node si.bc (hs si hsi), h0]
    apply ih
    · intro j
      rw [linearConstraintStep_r0, linearConstraintStep_r0, h0]
    · exact hrest
    · intro j a hj
      rw [linearConstraintStep_compAt, linearConstraintStep_compAt, hsum, h0]
      by_cases hm : j = c.master.node ∧ a = c.master.bc ∧ (a = 0 ∨ a = 1 ∨ a = 2)
      · rw [if_pos hm, if_pos hm]
      · rw [if_neg hm, if_neg hm]
        by_cases ha : a = 0 ∨ a = 1 ∨ a = 2
        · apply hag
          intro c' hc'
          rcases List.mem_cons.mp hc' with hc' | hc'
          · subst hc'
            rw [FELinearConstraint.isMaster_eq_false]
            rintro ⟨h1, h2⟩
            exact hm ⟨h1.symm, h2.symm, ha⟩
          · exact hj c' hc'
        · rw [vec3d.compAt_other _ a ha, vec3d.compAt_other _ a ha]

/-- A vector is determined by its three addressed components. -/
theorem vec3d.ext_compAt (a a' : vec3d R) (h : ∀ b : Int, a.compAt b = a'.compAt b) :
    a = a' := by
  have hx := h 0
  have hy := h 1
  have hz := h 2
  simp only [vec3d.compAt, if_true, one_ne_zero, if_false] at hx hy hz
  norm_num at hz
  cases a
  cases a'
  simp_all

/-- The data of a node that `Update` only reads. -/
theorem Update_node_static_data (E : Ext R) (K : FEConstants) (S : FESolidSolver R)
    (ui : Nat → R) (s : R) (i : Nat) :
    ((Update E K S ui s).m_fem.m_mesh.Node i).m_r0 = (S.m_fem.m_mesh.Node i).m_r0 ∧
    ((Update E K S ui s).m_fem.m_mesh.Node i).m_ID = (S.m_fem.m_mesh.Node i).m_ID ∧
    ((Update E K S ui s).m_fem.m_mesh.Node i).m_rid = (S.m_fem.m_mesh.Node i).m_rid ∧
    ((Update E K S ui s).m_fem.m_mesh.Node i).m_rp = (S.m_fem.m_mesh.Node i).m_rp ∧
    ((Update E K S ui s).m_fem.m_mesh.Node i).m_vp = (S.m_fem.m_mesh.Node i).m_vp ∧
    ((Update E K S ui s).m_fem.m_mesh.Node i).m_ap = (S.m_fem.m_mesh.Node i).m_ap ∧
    ((Update E K S ui s).m_fem.m_mesh.Node i).m_D0 = (S.m_fem.m_mesh.Node i).m_D0 := by
  obtain ⟨vt, a, p, h⟩ := Update_node_eq E K S ui s i
  obtain ⟨v, d, hv⟩ := updatePositions_node_eq E S ui s i
  rw [h, hv]
  exact ⟨rfl, rfl, rfl, rfl, rfl, rfl, rfl⟩

/-- The mesh after the rigid, flexible and prescribed passes of a second `Update`
tracks the one of the first. -/
theorem Tracks.second_call (E : Ext R) (K : FEConstants) (S : FESolidSolver R)
    (ui : Nat → R) (s : R) (j : Nat) :
    Tracks (S.m_fem.m_mesh.Node j) ((Update E K S ui s).m_fem.m_mesh.Node j)
      ((S.m_fem.m_DC.foldl (prescribedDisplacementStep E S.m_fem.LoadCurve)
        (forEach S.m_fem.m_mesh.Nodes (updateFlexibleNode S.m_Ut S.m_Ui ui s)
          (forEach S.m_fem.m_mesh.Nodes
            (updateRigidNode E (UpdateRigidBodies E S ui s).m_fem.m_RB)
            S.m_fem.m_mesh.Node))) j)
      ((S.m_fem.m_DC.foldl (prescribedDisplacementStep E S.m_fem.LoadCurve)
        (forEach S.m_fem.m_mesh.Nodes (updateFlexibleNode S.m_Ut S.m_Ui ui s)
          (forEach S.m_fem.m_mesh.Nodes
            (updateRigidNode E (UpdateRigidBodies E S ui s).m_fem.m_RB)
            (Update E K S ui s).m_fem.m_mesh.Node))) j) := by
  apply Tracks.prescribed_fold
  intro i
  obtain ⟨h0, hid, hrid, -⟩ := Update_node_static_data E K S ui s i
  simp only [forEach_apply]
  split_ifs with hi
  · exact Tracks.flexible E _ _ _ _ _ _ _ h0.symm hid.symm hrid.symm
  · exact ⟨h0.symm, fun bc => Or.inr ⟨rfl, rfl⟩⟩

/-- The position passes of a second `Update`, written on the data of the first. -/
theorem updatePositions_second_call (E : Ext R) (K : FEConstants) (S : FESolidSolver R)
    (ui : Nat → R) (s : R) :
    (updatePositions E (Update E K S ui s) ui s).m_fem.m_mesh.Node =
      S.m_fem.m_LinC.foldl linearConstraintStep
        (S.m_fem.m_DC.foldl (prescribedDisplacementStep E S.m_fem.LoadCurve)
          (forEach S.m_fem.m_mesh.Nodes (updateFlexibleNode S.m_Ut S.m_Ui ui s)
            (forEach S.m_fem.m_mesh.Nodes
              (updateRigidNode E (UpdateRigidBodies E S ui s).m_fem.m_RB)
              (Update E K S ui s).m_fem.m_mesh.Node))) := by
  obtain ⟨a1, a2, a3, a4, a5, a6, a7, a8, a9, a10, a11, a12, a13, a14⟩ :=
    SameFrame.Update E K S ui s
  obtain ⟨g1, g2, g3, g4, g5, g6, g7, -⟩ := updatePositions_frame E S ui s
  rw [updatePositions_Node, UpdateRigidBodies_RB_idem, a7, g6, a6, g5, a8, g7, a4, g4, a1, g1,
    a2, g2]

/-- C3 (as amended). Calling `Update(ui, s)` twice in succession yields, after the
second call, the same position `m_rt` for every node as after the first call,
provided that in `m_LinC` no slave dof of a constraint is the master dof of that
constraint or of a later one. -/
theorem update_twice_same_positions (E : Ext R) (K : FEConstants) (S : FESolidSolver R)
    (ui : Nat → R) (s : R) (hfin : slavesFinal S.m_fem.m_LinC = true) (i : Nat) :
    ((Update E K (Update E K S ui s) ui s).m_fem.m_mesh.Node i).m_rt
      = ((Update E K S ui s).m_fem.m_mesh.Node i).m_rt := by
  rw [Update_node_rt E K (Update E K S ui s), Update_node_rt E K S,
    updatePositions_second_call, updatePositions_Node]
  apply vec3d.ext_compAt
  intro b
  apply linearConstraint_fold_agree _ _ _ _ hfin
  · intro j a hj
    rcases (Tracks.second_call E K S ui s j).2 a with h | ⟨h1, h2⟩
    · exact h.symm
    · rw [h2, Update_node_rt, updatePositions_Node, linearConstraint_fold_nonmaster _ _ j a hj]
  · intro j
    exact (Tracks.second_call E K S ui s j).1.symm

/-- The x-positions of the nodes of `chainSolver` after one `Update`. -/
theorem chain_first_call (j : Nat) :
    ((Update restExt exConstants chainSolver (fun _ => 1) 1).m_fem.m_mesh.Node j).m_rt.x
      = if j = 1 ∨ j = 2 then 1 else 0 := by
  rw [Update_node_rt, updatePositions_Node]
  by_cases h0 : j = 0
  · subst h0
    norm_num [chainSolver, emptyModel, linearConstraintStep, slaveStep, writeMaster,
      forEach_apply, updateFlexibleNode, updateRigidNode, restNode, Function.update]
  · by_cases h1 : j = 1
    · subst h1
      norm_num [chainSolver, emptyModel, linearConstraintStep, slaveStep, writeMaster,
        forEach_apply, updateFlexibleNode, updateRigidNode, restNode, Function.update]
    · by_cases h2 : j = 2
      · subst h2
        norm_num [chainSolver, emptyModel, linearConstraintStep, slaveStep, writeMaster,
          forEach_apply, updateFlexibleNode, updateRigidNode, restNode, Function.update]
      · have h3 : ¬ j < 3 := by omega
        simp [chainSolver, emptyModel, linearConstraintStep, slaveStep, writeMaster,
          forEach_apply, updateFlexibleNode, updateRigidNode, restNode, Function.update,
          h0, h1, h2, h3]

/-- Counterexample to C3 as stated: with the constraints `A.x = B.x`, `B.x = C.x`
stored in this order, node A is at `x = 0` after a first `Update` and at `x = 1`
after a second one with the same `(ui, s)`. -/
theorem update_twice_moves_chained_master :
    ((Update restExt exConstants chainSolver (fun _ => 1) 1).m_fem.m_mesh.Node 0).m_rt.x = 0 ∧
    ((Update restExt exConstants (Update restExt exConstants chainSolver (fun _ => 1) 1)
      (fun _ => 1) 1).m_fem.m_mesh.Node 0).m_rt.x = 1 := by
  refine ⟨by rw [chain_first_call]; simp, ?_⟩
  have f0 := Update_node_static_data restExt exConstants chainSolver (fun _ => 1) 1 0
  have f1 := Update_node_static_data restExt exConstants chainSolver (fun _ => 1) 1 1
  have hB := chain_first_call 1
  rw [Update_node_rt, updatePositions_second_call]
  generalize Update restExt exConstants chainSolver (fun _ => 1) 1 = Z at f0 f1 hB ⊢
  obtain ⟨a0, a1, a2, -⟩ := f0
  obtain ⟨b0, b1, b2, -⟩ := f1
  norm_num [chainSolver, emptyModel, restNode] at a0 a1 a2 b0 b1 b2 hB
  have e1 : chainSolver.m_fem.m_LinC =
      [ { master := { node := 0, bc := 0 }, slave := [{ node := 1, bc := 0, val := 1 }] },
        { master := { node := 1, bc := 0 }, slave := [{ node := 2, bc := 0, val := 1 }] } ] := rfl
  have e2 : chainSolver.m_fem.m_DC = [] := rfl
  have e3 : chainSolver.m_fem.m_mesh.Nodes = 3 := rfl
  rw [e1, e2, e3]
  simp only [List.foldl_cons, List.foldl_nil, linearConstraintStep, slaveStep, writeMaster,
    forEach_apply, updateFlexibleNode, updateRigidNode, Function.update, a0, a1, a2, b0, b1, b2]
  norm_num [hB]
  rw [a0, b0, b1]
  norm_num

/-- Witness of C3 as amended: the chain stored in the order `B.x = C.x`,
`A.x = B.x`. -/
theorem update_twice_same_positions_witness :
    slavesFinal orderedChainSolver.m_fem.m_LinC = true ∧
    ((Update restExt exConstants (Update restExt exConstants orderedChainSolver (fun _ => 1) 1)
      (fun _ => 1) 1).m_fem.m_mesh.Node 0).m_rt
      = ((Update restExt exConstants orderedChainSolver (fun _ => 1) 1).m_fem.m_mesh.Node 0).m_rt :=
  ⟨by decide,
    update_twice_same_positions restExt exConstants orderedChainSolver (fun _ => 1) 1
      (by decide) 0⟩

/-- The displacement of a node after `Update` is the one after the linear
constraints. -/
theorem dofDisp_Update (E : Ext R) (K : FEConstants) (S : FESolidSolver R) (ui : Nat → R)
    (s : R) (i : Nat) (b : Int) :
    dofDisp ((Update E K S ui s).m_fem.m_mesh.Node i) b
      = dofDisp ((updatePositions E S ui s).m_fem.m_mesh.Node i) b := by
  obtain ⟨vt, a, p, h⟩ := Update_node_eq E K S ui s i
  rw [h]
  rfl

/-- C4 (as amended). After `Update(ui, s)`, a linear constraint of `m_LinC` whose
master code is translational satisfies master displacement = weighted sum of the
slave displacements (`m_rt - m_r0` on the dof, slave codes that are not
translational contributing nothing), provided no later constraint of `m_LinC` has
the same master dof and none of its slave dofs is the master dof of the
constraint itself or of a later one. -/
theorem linear_constraint_satisfied (E : Ext R) (K : FEConstants) (S : FESolidSolver R)
    (ui : Nat → R) (s : R) (pre post : List (FELinearConstraint R))
    (c : FELinearConstraint R) (hsplit : S.m_fem.m_LinC = pre ++ c :: post)
    (hbc : c.master.bc = 0 ∨ c.master.bc = 1 ∨ c.master.bc = 2)
    (hmaster : ∀ c' ∈ post, c'.isMaster c.master.node c.master.bc = false)
    (hslave : ∀ si ∈ c.slave, ∀ c' ∈ c :: post, c'.isMaster si.node si.bc = false) :
    dofDisp ((Update E K S ui s).m_fem.m_mesh.Node c.master.node) c.master.bc
      = constraintSum (Update E K S ui s).m_fem.m_mesh.Node c.slave := by
  have hsum : constraintSum (Update E K S ui s).m_fem.m_mesh.Node c.slave
      = constraintSum (updatePositions E S ui s).m_fem.m_mesh.Node c.slave :=
    constraintSum_congr _ _ _ (fun si _ => dofDisp_Update E K S ui s si.node si.bc)
  rw [hsum, dofDisp_Update, updatePositions_Node, hsplit, List.foldl_append, List.foldl_cons]
  generalize List.foldl linearConstraintStep
    (S.m_fem.m_DC.foldl (prescribedDisplacementStep E S.m_fem.LoadCurve)
      (forEach S.m_fem.m_mesh.Nodes (updateFlexibleNode S.m_Ut S.m_Ui ui s)
        (forEach S.m_fem.m_mesh.Nodes
          (updateRigidNode E (UpdateRigidBodies E S ui s).m_fem.m_RB)
          S.m_fem.m_mesh.Node))) pre = M
  have hs : constraintSum (post.foldl linearConstraintStep (linearConstraintStep M c)) c.slave
      = constraintSum M c.slave := by
    apply constraintSum_congr
    intro si hsi
    unfold dofDisp
    rw [linearConstraint_fold_nonmaster _ _ _ _
        (fun c' hc' => hslave si hsi c' (List.mem_cons_of_mem _ hc')),
      linearConstraint_fold_r0, linearConstraintStep_compAt, linearConstraintStep_r0, if_neg]
    rintro ⟨h1, h2, -⟩
    exact (c.isMaster_eq_false si.node si.bc).mp (hslave si hsi c (List.mem_cons_self _ _))
      ⟨h1.symm, h2.symm⟩
  rw [hs]
  unfold dofDisp
  rw [linearConstraint_fold_nonmaster _ _ _ _ hmaster, linearConstraint_fold_r0,
    linearConstraintStep_compAt, linearConstraintStep_r0, if_pos ⟨rfl, rfl, hbc⟩]
  ring

/-- Counterexample to C4 as stated: with the constraints `A.x = B.x`, `B.x = C.x`
stored in this order, after `Update` the displacement of the master A of the
first constraint is 0 while its slave B has displacement 1. -/
theorem chained_constraint_violated :
    ({ master := { node := 0, bc := 0 }, slave := [{ node := 1, bc := 0, val := 1 }] }
      : FELinearConstraint ℚ) ∈ chainSolver.m_fem.m_LinC ∧
    dofDisp ((Update restExt exConstants chainSolver (fun _ => 1) 1).m_fem.m_mesh.Node 0) 0 = 0 ∧
    constraintSum (Update restExt exConstants chainSolver (fun _ => 1) 1).m_fem.m_mesh.Node
      [{ node := 1, bc := 0, val := 1 }] = 1 := by
  have f0 := (Update_node_static_data restExt exConstants chainSolver (fun _ => 1) 1 0).1
  have f1 := (Update_node_static_data restExt exConstants chainSolver (fun _ => 1) 1 1).1
  have hA := chain_first_call 0
  have hB := chain_first_call 1
  refine ⟨List.mem_cons_self _ _, ?_, ?_⟩
  · simp only [dofDisp, vec3d.compAt, if_true, hA, f0]
    norm_num [chainSolver, emptyModel, restNode]
  · simp only [constraintSum, List.map_cons, List.map_nil, List.sum_cons, List.sum_nil, dofDisp,
      vec3d.compAt, if_true, hB, f1]
    norm_num [chainSolver, emptyModel, restNode]

/-- Witness of C4 as amended: the constraint `B.x = C.x` of the chain stored in the
order `B.x = C.x`, `A.x = B.x`. -/
theorem linear_constraint_satisfied_witness :
    dofDisp ((Update restExt exConstants orderedChainSolver (fun _ => 1) 1).m_fem.m_mesh.Node 1) 0
      = constraintSum (Update restExt exConstants orderedChainSolver (fun _ => 1) 1).m_fem.m_mesh.Node
          [{ node := 2, bc := 0, val := 1 }] :=
  linear_constraint_satisfied restExt exConstants orderedChainSolver (fun _ => 1) 1 []
    [{ master := { node := 0, bc := 0 }, slave := [{ node := 1, bc := 0, val := 1 }] }]
    { master := { node := 1, bc := 0 }, slave := [{ node := 2, bc := 0, val := 1 }] }
    rfl (Or.inl rfl) (by decide) (by decide)

/-! ## Rigid bodies: orientation, attached nodes, joints -/

/-- C11. For an active rigid body the new orientation is
`normalize(dq * m_qp)`, where `dq` is the quaternion built from the rotation vector
`r = (du[3], du[4], du[5])` with angle `|r|` and axis `r`: the increment is on the
left of the previous-step orientation (the quaternion product depends on the
order, as `i*j ≠ j*i` shows); and with `sqrt 0 = 0`, `cos 0 = 1` a zero rotation
vector leaves the orientation equal to `normalize(m_qp)`. -/
theorem rigid_orientation_left_product (E : Ext R) (S : FESolidSolver R) (ui : Nat → R)
    (s : R) (i : Nat) (hi : i < S.m_fem.m_nrb) (hact : (S.m_fem.m_RB i).m_bActive = true) :
    ((UpdateRigidBodies E S ui s).m_fem.m_RB i).m_qt =
      quatd.MakeUnit E (quatd.mul
        (quatd.ofAngleAxis E
          (E.sqrt (((UpdateRigidBodies E S ui s).m_fem.m_RB i).m_du 3
              * ((UpdateRigidBodies E S ui s).m_fem.m_RB i).m_du 3
            + ((UpdateRigidBodies E S ui s).m_fem.m_RB i).m_du 4
              * ((UpdateRigidBodies E S ui s).m_fem.m_RB i).m_du 4
            + ((UpdateRigidBodies E S ui s).m_fem.m_RB i).m_du 5
              * ((UpdateRigidBodies E S ui s).m_fem.m_RB i).m_du 5))
          ⟨((UpdateRigidBodies E S ui s).m_fem.m_RB i).m_du 3,
           ((UpdateRigidBodies E S ui s).m_fem.m_RB i).m_du 4,
           ((UpdateRigidBodies E S ui s).m_fem.m_RB i).m_du 5⟩)
        (S.m_fem.m_RB i).m_qp) ∧
    (E.sqrt 0 = 0 → E.cos 0 = 1 →
      ((UpdateRigidBodies E S ui s).m_fem.m_RB i).m_du 3 = 0 →
      ((UpdateRigidBodies E S ui s).m_fem.m_RB i).m_du 4 = 0 →
      ((UpdateRigidBodies E S ui s).m_fem.m_RB i).m_du 5 = 0 →
      ((UpdateRigidBodies E S ui s).m_fem.m_RB i).m_qt
        = quatd.MakeUnit E (S.m_fem.m_RB i).m_qp) ∧
    quatd.mul (⟨1, 0, 0, 0⟩ : quatd R) ⟨0, 1, 0, 0⟩
      ≠ quatd.mul (⟨0, 1, 0, 0⟩ : quatd R) ⟨1, 0, 0, 0⟩ := by
  have hq : ((UpdateRigidBodies E S ui s).m_fem.m_RB i).m_qt =
      quatd.MakeUnit E (quatd.mul
        (quatd.ofAngleAxis E
          (E.sqrt (((UpdateRigidBodies E S ui s).m_fem.m_RB i).m_du 3
              * ((UpdateRigidBodies E S ui s).m_fem.m_RB i).m_du 3
            + ((UpdateRigidBodies E S ui s).m_fem.m_RB i).m_du 4
              * ((UpdateRigidBodies E S ui s).m_fem.m_RB i).m_du 4
            + ((UpdateRigidBodies E S ui s).m_fem.m_RB i).m_du 5
              * ((UpdateRigidBodies E S ui s).m_fem.m_RB i).m_du 5))
          ⟨((UpdateRigidBodies E S ui s).m_fem.m_RB i).m_du 3,
           ((UpdateRigidBodies E S ui s).m_fem.m_RB i).m_du 4,
           ((UpdateRigidBodies E S ui s).m_fem.m_RB i).m_du 5⟩)
        (S.m_fem.m_RB i).m_qp) := by
    rw [UpdateRigidBodies_RB E S ui s i hi]
    simp only [updateRigidBody, hact, if_true]
  refine ⟨hq, fun h0 hc h3 h4 h5 => ?_, ?_⟩
  · rw [hq, h3, h4, h5]
    congr 1
    simp [quatd.mul, quatd.ofAngleAxis, vec3d.unit, vec3d.sdiv, h0, hc]
  · intro h
    have hz := congrArg quatd.z h
    simp only [quatd.mul] at hz
    norm_num at hz

/-- Witness of C11: the body of `rigidNodeSolver`, which translates without
rotating, keeps `normalize(m_qp)`. -/
theorem rigid_orientation_left_product_witness :
    ((UpdateRigidBodies restExt rigidNodeSolver (fun _ => 1) 1).m_fem.m_RB 0).m_qt
      = quatd.MakeUnit restExt (rigidNodeSolver.m_fem.m_RB 0).m_qp :=
  (rigid_orientation_left_product restExt rigidNodeSolver (fun _ => 1) 1 0 (by decide) rfl).2.1
    rfl rfl rfl rfl rfl

/-- The nodes after `UpdateRigidBodies`. -/
theorem UpdateRigidBodies_Node (E : Ext R) (S : FESolidSolver R) (ui : Nat → R) (s : R)
    (i : Nat) (hi : i < S.m_fem.m_mesh.Nodes) :
    (UpdateRigidBodies E S ui s).m_fem.m_mesh.Node i =
      updateRigidNode E (UpdateRigidBodies E S ui s).m_fem.m_RB (S.m_fem.m_mesh.Node i) := by
  simp [UpdateRigidBodies, forEach_apply, hi]

/-- C12. After `UpdateRigidBodies`, every node of the mesh with rigid body id
`m_rid = n ≥ 0` has `m_rt = RB[n].m_rt + RB[n].m_qt` applied to
`(node.m_r0 - RB[n].m_r0)`, with the position and orientation of the body after
the same call, whether or not the body is active (an inactive body is the one
from before the call); a node with `m_rid < 0` is not changed by this pass. -/
theorem rigid_node_follows_body (E : Ext R) (S : FESolidSolver R) (ui : Nat → R) (s : R)
    (i : Nat) (hi : i < S.m_fem.m_mesh.Nodes) :
    (0 ≤ (S.m_fem.m_mesh.Node i).m_rid →
      ((UpdateRigidBodies E S ui s).m_fem.m_mesh.Node i).m_rt =
        vec3d.add
          ((UpdateRigidBodies E S ui s).m_fem.m_RB (S.m_fem.m_mesh.Node i).m_rid.toNat).m_rt
          (E.rotate
            ((UpdateRigidBodies E S ui s).m_fem.m_RB (S.m_fem.m_mesh.Node i).m_rid.toNat).m_qt
            (vec3d.sub (S.m_fem.m_mesh.Node i).m_r0
              ((UpdateRigidBodies E S ui s).m_fem.m_RB
                (S.m_fem.m_mesh.Node i).m_rid.toNat).m_r0))) ∧
    ((S.m_fem.m_mesh.Node i).m_rid < 0 →
      (UpdateRigidBodies E S ui s).m_fem.m_mesh.Node i = S.m_fem.m_mesh.Node i) ∧
    ((UpdateRigidBodies E S ui s).m_fem.m_mesh.Node i).m_r0 = (S.m_fem.m_mesh.Node i).m_r0 ∧
    ((UpdateRigidBodies E S ui s).m_fem.m_mesh.Node i).m_rid = (S.m_fem.m_mesh.Node i).m_rid ∧
    (∀ n, (S.m_fem.m_RB n).m_bActive = false →
      (UpdateRigidBodies E S ui s).m_fem.m_RB n = S.m_fem.m_RB n) := by
  rw [UpdateRigidBodies_Node E S ui s i hi]
  refine ⟨fun h => ?_, fun h => ?_, ?_, ?_, fun n h => ?_⟩
  · simp only [updateRigidNode, h, if_true]
  · simp only [updateRigidNode, not_le.mpr h, if_false]
  · obtain ⟨v, hv⟩ := updateRigidNode_eq E (UpdateRigidBodies E S ui s).m_fem.m_RB
      (S.m_fem.m_mesh.Node i)
    rw [hv]
  · obtain ⟨v, hv⟩ := updateRigidNode_eq E (UpdateRigidBodies E S ui s).m_fem.m_RB
      (S.m_fem.m_mesh.Node i)
    rw [hv]
  · show forEach _ _ _ n = _
    rw [forEach_apply]
    unfold updateRigidBody
    rw [h]
    simp

/-- Witness of C12: the node of `rigidNodeSolver` follows its translating body. -/
theorem rigid_node_follows_body_witness :
    ((UpdateRigidBodies restExt rigidNodeSolver (fun _ => 1) 1).m_fem.m_mesh.Node 0).m_rt =
      vec3d.add
        ((UpdateRigidBodies restExt rigidNodeSolver (fun _ => 1) 1).m_fem.m_RB
          (rigidNodeSolver.m_fem.m_mesh.Node 0).m_rid.toNat).m_rt
        (restExt.rotate
          ((UpdateRigidBodies restExt rigidNodeSolver (fun _ => 1) 1).m_fem.m_RB
            (rigidNodeSolver.m_fem.m_mesh.Node 0).m_rid.toNat).m_qt
          (vec3d.sub (rigidNodeSolver.m_fem.m_mesh.Node 0).m_r0
            ((UpdateRigidBodies restExt rigidNodeSolver (fun _ => 1) 1).m_fem.m_RB
              (rigidNodeSolver.m_fem.m_mesh.Node 0).m_rid.toNat).m_r0)) :=
  (rigid_node_follows_body restExt rigidNodeSolver (fun _ => 1) 1 0 (by decide)).1 (by decide)

/-- The rigid joints after `UpdateRigidBodies`. -/
theorem UpdateRigidBodies_RJ (E : Ext R) (S : FESolidSolver R) (ui : Nat → R) (s : R)
    (i : Nat) (hi : i < S.m_fem.m_nrj) :
    (UpdateRigidBodies E S ui s).m_fem.m_RJ i =
      updateRigidJoint E (UpdateRigidBodies E S ui s).m_fem.m_RB (S.m_fem.m_RJ i) := by
  simp [UpdateRigidBodies, forEach_apply, hi]

/-- C13. After `UpdateRigidBodies`, every rigid joint has `m_F = m_L + m_eps * c`
with `c = (RBa.m_rt + RBa.m_qt` applied to `m_qa0) - (RBb.m_rt + RBb.m_qt` applied
to `m_qb0)`, the bodies being those after the call; when `c = 0` the joint force
is `m_L`; and `m_L`, `m_eps`, `m_qa0`, `m_qb0` are not changed. -/
theorem rigid_joint_force (E : Ext R) (S : FESolidSolver R) (ui : Nat → R) (s : R)
    (i : Nat) (hi : i < S.m_fem.m_nrj) :
    ((UpdateRigidBodies E S ui s).m_fem.m_RJ i).m_F =
      vec3d.add (S.m_fem.m_RJ i).m_L
        (vec3d.smul
          (vec3d.sub
            (vec3d.add ((UpdateRigidBodies E S ui s).m_fem.m_RB (S.m_fem.m_RJ i).m_nRBa).m_rt
              (E.RotateVector
                ((UpdateRigidBodies E S ui s).m_fem.m_RB (S.m_fem.m_RJ i).m_nRBa).m_qt
                (S.m_fem.m_RJ i).m_qa0))
            (vec3d.add ((UpdateRigidBodies E S ui s).m_fem.m_RB (S.m_fem.m_RJ i).m_nRBb).m_rt
              (E.RotateVector
                ((UpdateRigidBodies E S ui s).m_fem.m_RB (S.m_fem.m_RJ i).m_nRBb).m_qt
                (S.m_fem.m_RJ i).m_qb0)))
          (S.m_fem.m_RJ i).m_eps) ∧
    (vec3d.sub
        (vec3d.add ((UpdateRigidBodies E S ui s).m_fem.m_RB (S.m_fem.m_RJ i).m_nRBa).m_rt
          (E.RotateVector
            ((UpdateRigidBodies E S ui s).m_fem.m_RB (S.m_fem.m_RJ i).m_nRBa).m_qt
            (S.m_fem.m_RJ i).m_qa0))
        (vec3d.add ((UpdateRigidBodies E S ui s).m_fem.m_RB (S.m_fem.m_RJ i).m_nRBb).m_rt
          (E.RotateVector
            ((UpdateRigidBodies E S ui s).m_fem.m_RB (S.m_fem.m_RJ i).m_nRBb).m_qt
            (S.m_fem.m_RJ i).m_qb0)) = vec3d.zero →
      ((UpdateRigidBodies E S ui s).m_fem.m_RJ i).m_F = (S.m_fem.m_RJ i).m_L) ∧
    ((UpdateRigidBodies E S ui s).m_fem.m_RJ i).m_L = (S.m_fem.m_RJ i).m_L ∧
    ((UpdateRigidBodies E S ui s).m_fem.m_RJ i).m_eps = (S.m_fem.m_RJ i).m_eps ∧
    ((UpdateRigidBodies E S ui s).m_fem.m_RJ i).m_qa0 = (S.m_fem.m_RJ i).m_qa0 ∧
    ((UpdateRigidBodies E S ui s).m_fem.m_RJ i).m_qb0 = (S.m_fem.m_RJ i).m_qb0 := by
  have hF : ((UpdateRigidBodies E S ui s).m_fem.m_RJ i).m_F =
      vec3d.add (S.m_fem.m_RJ i).m_L
        (vec3d.smul
          (vec3d.sub
            (vec3d.add ((UpdateRigidBodies E S ui s).m_fem.m_RB (S.m_fem.m_RJ i).m_nRBa).m_rt
              (E.RotateVector
                ((UpdateRigidBodies E S ui s).m_fem.m_RB (S.m_fem.m_RJ i).m_nRBa).m_qt
                (S.m_fem.m_RJ i).m_qa0))
            (vec3d.add ((UpdateRigidBodies E S ui s).m_fem.m_RB (S.m_fem.m_RJ i).m_nRBb).m_rt
              (E.RotateVector
                ((UpdateRigidBodies E S ui s).m_fem.m_RB (S.m_fem.m_RJ i).m_nRBb).m_qt
                (S.m_fem.m_RJ i).m_qb0)))
          (S.m_fem.m_RJ i).m_eps) := by
    rw [UpdateRigidBodies_RJ E S ui s i hi]
    simp only [updateRigidJoint, vec3d.add, vec3d.sub, vec3d.smul, vec3d.mk.injEq]
    refine ⟨?_, ?_, ?_⟩ <;> ring
  refine ⟨hF, fun hc => ?_, ?_, ?_, ?_, ?_⟩
  · rw [hF, hc]
    simp [vec3d.add, vec3d.smul, vec3d.zero]
  all_goals rw [UpdateRigidBodies_RJ E S ui s i hi]; rfl

/-- Witness of C13: the joint of `jointSolver`, whose anchors coincide, gets the
force `m_L`. -/
theorem rigid_joint_force_witness :
    ((UpdateRigidBodies restExt jointSolver (fun _ => 0) 1).m_fem.m_RJ 0).m_F
      = (jointSolver.m_fem.m_RJ 0).m_L :=
  (rigid_joint_force restExt jointSolver (fun _ => 0) 1 0 (by decide)).2.1
    (by simp [UpdateRigidBodies, forEach_apply, updateRigidBody, jointSolver, emptyModel,
      restBody, restJoint, restExt, vec3d.add, vec3d.sub, vec3d.zero])

/-! ## Prescribed displacements and pressures -/

/-- The rigid and flexible passes keep the reference position of a node. -/
theorem updateFlexibleNodes_r0 (E : Ext R) (S : FESolidSolver R) (ui : Nat → R) (s : R)
    (i : Nat) :
    ((updateFlexibleNodes (UpdateRigidBodies E S ui s) ui s).m_fem.m_mesh.Node i).m_r0
      = (S.m_fem.m_mesh.Node i).m_r0 := by
  show (forEach S.m_fem.m_mesh.Nodes (updateFlexibleNode S.m_Ut S.m_Ui ui s)
    (forEach S.m_fem.m_mesh.Nodes (updateRigidNode E (UpdateRigidBodies E S ui s).m_fem.m_RB)
      S.m_fem.m_mesh.Node) i).m_r0 = _
  simp only [forEach_apply]
  obtain ⟨v, hv⟩ := updateRigidNode_eq E (UpdateRigidBodies E S ui s).m_fem.m_RB
    (S.m_fem.m_mesh.Node i)
  split_ifs
  · rw [hv]; rfl
  · rfl

/-- A prescribed displacement with a translational code `k` writes reference +
value to component `k`. -/
theorem prescribeNode_written (E : Ext R) (bc : Int) (g : R) (node : FENode R) (k : Nat)
    (hk : k < 3) (hbc : bc = (k : Int)) :
    (prescribeNode E bc g node).m_rt.comp k = node.m_r0.comp k + g := by
  subst hbc
  unfold prescribeNode
  interval_cases k <;> simp [vec3d.comp]

/-- C14. For an active prescribed displacement of `m_DC` with component code
`bc = k` in `{0, 1, 2}` on node `n`, after which no active condition of `m_DC`
addresses the same component of the same node (the last one wins), the node has
after the prescribed pass of `Update` `m_rt = m_r0 + s_dc * Value(lc)` on that
component, whatever the flexible-node pass wrote; an inactive condition changes
nothing. -/
theorem prescribed_displacement_applied (E : Ext R) (S : FESolidSolver R) (ui : Nat → R)
    (s : R) (pre post : List (FENodalDisplacement R)) (dc : FENodalDisplacement R)
    (hsplit : S.m_fem.m_DC = pre ++ dc :: post) (hact : dc.IsActive = true)
    (k : Nat) (hk : k < 3) (hbc : dc.bc = (k : Int))
    (hlast : ∀ d ∈ post, d.IsActive = true → d.node = dc.node →
      d.bc ≠ (k : Int) ∧ ¬ (d.bc = 20 ∧ 1 ≤ k)) :
    ((applyPrescribedDisplacements E
        (updateFlexibleNodes (UpdateRigidBodies E S ui s) ui s)).m_fem.m_mesh.Node dc.node).m_rt.comp k
      = (S.m_fem.m_mesh.Node dc.node).m_r0.comp k + dc.s * S.m_fem.LoadCurve dc.lc ∧
    (∀ (N : Nat → FENode R) (d : FENodalDisplacement R), d.IsActive = false →
      prescribedDisplacementStep E S.m_fem.LoadCurve N d = N) := by
  constructor
  · have hr0 := updateFlexibleNodes_r0 E S ui s dc.node
    show ((S.m_fem.m_DC.foldl (prescribedDisplacementStep E S.m_fem.LoadCurve)
      (updateFlexibleNodes (UpdateRigidBodies E S ui s) ui s).m_fem.m_mesh.Node) dc.node).m_rt.comp
        k = _
    generalize (updateFlexibleNodes (UpdateRigidBodies E S ui s) ui s).m_fem.m_mesh.Node = N
      at hr0 ⊢
    rw [hsplit, List.foldl_append, List.foldl_cons,
      prescribedDisplacement_fold_comp E _ _ _ dc.node k hk hlast]
    obtain ⟨v, hv⟩ := prescribedDisplacement_fold E S.m_fem.LoadCurve pre N dc.node
    simp only [prescribedDisplacementStep, hact, if_true, Function.update_same]
    rw [prescribeNode_written E _ _ _ k hk hbc, hv, ← hr0]
  · intro N d hd
    simp [prescribedDisplacementStep, hd]

/-- Witness of C14: of the two active conditions on the x-dof of node 1 the last
one, of value `1 * 3`, wins. -/
theorem prescribed_displacement_applied_witness :
    ((applyPrescribedDisplacements restExt
        (updateFlexibleNodes (UpdateRigidBodies restExt prescribedNodeSolver twoNodeTrial 1)
          twoNodeTrial 1)).m_fem.m_mesh.Node 1).m_rt.comp 0
      = (prescribedNodeSolver.m_fem.m_mesh.Node 1).m_r0.comp 0
        + 1 * prescribedNodeSolver.m_fem.LoadCurve 0 :=
  (prescribed_displacement_applied restExt prescribedNodeSolver twoNodeTrial 1
    [{ IsActive := true, node := 1, lc := 0, bc := 0, s := 2 },
     { IsActive := false, node := 1, lc := 0, bc := 0, s := 7 }] []
    { IsActive := true, node := 1, lc := 0, bc := 0, s := 1 } rfl rfl 0 (by decide) rfl
    (by simp)).1

/-- The prescribed pressures leave alone the pressure of a node no active
condition of code 6 addresses. -/
theorem prescribedPressure_fold_pt (LC : Int → R) (dcs : List (FENodalDisplacement R))
    (N : Nat → FENode R) (i : Nat)
    (h : ∀ d ∈ dcs, d.IsActive = true → d.bc = 6 → d.node ≠ i) :
    ((dcs.foldl (prescribedPressureStep LC) N) i).m_pt = (N i).m_pt := by
  induction dcs generalizing N with
  | nil => rfl
  | cons dc rest ih =>
    rw [List.foldl_cons, ih _ (fun d hd => h d (List.mem_cons_of_mem _ hd))]
    unfold prescribedPressureStep
    split_ifs with h1 h2
    · rw [Function.update_noteq (Ne.symm (h dc (List.mem_cons_self _ _) h1 h2))]
    · rfl
    · rfl

/-- C16. After `UpdatePoro(ui, s)`: a node of the mesh with pressure equation
`n = m_ID[6] ≥ 0` that no active condition of code 6 addresses has
`m_pt = m_Ut[n] + m_Ui[n] + s*ui[n]`; a node addressed by an active condition of
code 6 has `m_pt = s_dc * Value(lc)` of the last such condition; a node with
`m_ID[6] < 0` and no such condition keeps its `m_pt`. -/
theorem poro_pressure_update (S : FESolidSolver R) (ui : Nat → R) (s : R) :
    (∀ i, i < S.m_fem.m_mesh.Nodes → 0 ≤ (S.m_fem.m_mesh.Node i).m_ID 6 →
      (∀ d ∈ S.m_fem.m_DC, d.IsActive = true → d.bc = 6 → d.node ≠ i) →
      ((UpdatePoro S ui s).m_fem.m_mesh.Node i).m_pt
        = S.m_Ut ((S.m_fem.m_mesh.Node i).m_ID 6).toNat
          + S.m_Ui ((S.m_fem.m_mesh.Node i).m_ID 6).toNat
          + s * ui ((S.m_fem.m_mesh.Node i).m_ID 6).toNat) ∧
    (∀ (pre post : List (FENodalDisplacement R)) (dc : FENodalDisplacement R),
      S.m_fem.m_DC = pre ++ dc :: post → dc.IsActive = true → dc.bc = 6 →
      (∀ d ∈ post, d.IsActive = true → d.bc = 6 → d.node ≠ dc.node) →
      ((UpdatePoro S ui s).m_fem.m_mesh.Node dc.node).m_pt = dc.s * S.m_fem.LoadCurve dc.lc) ∧
    (∀ i, (S.m_fem.m_mesh.Node i).m_ID 6 < 0 →
      (∀ d ∈ S.m_fem.m_DC, d.IsActive = true → d.bc = 6 → d.node ≠ i) →
      ((UpdatePoro S ui s).m_fem.m_mesh.Node i).m_pt = (S.m_fem.m_mesh.Node i).m_pt) := by
  have hN : (UpdatePoro S ui s).m_fem.m_mesh.Node =
      S.m_fem.m_DC.foldl (prescribedPressureStep S.m_fem.LoadCurve)
        (forEach S.m_fem.m_mesh.Nodes (updatePoroVelocityNode S.m_fem.m_pStep.m_dt)
          (forEach S.m_fem.m_mesh.Nodes (updatePressureNode S.m_Ut S.m_Ui ui s)
            S.m_fem.m_mesh.Node)) := rfl
  refine ⟨fun i hi hid hdc => ?_, fun pre post dc hsplit hact hbc hlast => ?_,
    fun i hid hdc => ?_⟩
  · rw [hN, prescribedPressure_fold_pt _ _ _ i hdc]
    simp [forEach_apply, hi, updatePoroVelocityNode, updatePressureNode, hid]
  · rw [hN, hsplit, List.foldl_append, List.foldl_cons,
      prescribedPressure_fold_pt _ _ _ dc.node hlast]
    simp [prescribedPressureStep, hact, hbc]
  · rw [hN, prescribedPressure_fold_pt _ _ _ i hdc]
    simp only [forEach_apply, updatePoroVelocityNode, updatePressureNode, not_le.mpr hid,
      if_false]
    split_ifs <;> rfl

/-- Witness of C16: in `pressureSolver` node 1 gets the pressure
`m_Ut[3] + m_Ui[3] + s*ui[3]` and node 0 the prescribed pressure `2 * 3`. -/
theorem poro_pressure_update_witness :
    ((UpdatePoro pressureSolver (fun _ => 1) 1).m_fem.m_mesh.Node 1).m_pt
        = pressureSolver.m_Ut 3 + pressureSolver.m_Ui 3 + 1 * 1 ∧
    ((UpdatePoro pressureSolver (fun _ => 1) 1).m_fem.m_mesh.Node 0).m_pt
        = 2 * pressureSolver.m_fem.LoadCurve 0 :=
  ⟨(poro_pressure_update pressureSolver (fun _ => 1) 1).1 1 (by decide) (by decide)
      (by simp [pressureSolver, emptyModel]),
    (poro_pressure_update pressureSolver (fun _ => 1) 1).2.1 []
      [] { IsActive := true, node := 0, lc := 0, bc := 6, s := 2 } rfl rfl rfl (by simp)⟩

/-- What a radial prescribed displacement writes. -/
theorem prescribeNode_radial (E : Ext R) (g : R) (node : FENode R) :
    (prescribeNode E 20 g node).m_rt.y
      = node.m_r0.y + g * (node.m_r0.y / E.sqrt (node.m_r0.y * node.m_r0.y
          + node.m_r0.z * node.m_r0.z)) ∧
    (prescribeNode E 20 g node).m_rt.z
      = node.m_r0.z + g * (node.m_r0.z / E.sqrt (node.m_r0.y * node.m_r0.y
          + node.m_r0.z * node.m_r0.z)) ∧
    (prescribeNode E 20 g node).m_rt.x = node.m_rt.x ∧
    (prescribeNode E 20 g node).m_r0 = node.m_r0 := by
  have hs : E.sqrt (0 * 0 + node.m_r0.y * node.m_r0.y + node.m_r0.z * node.m_r0.z)
      = E.sqrt (node.m_r0.y * node.m_r0.y + node.m_r0.z * node.m_r0.z) :=
    congrArg E.sqrt (by ring)
  refine ⟨?_, ?_, ?_, ?_⟩
  · norm_num [prescribeNode, vec3d.unit, vec3d.sdiv, vec3d.smul, hs]
    ring
  · norm_num [prescribeNode, vec3d.unit, vec3d.sdiv, vec3d.smul, hs]
    ring
  · norm_num [prescribeNode]
  · norm_num [prescribeNode]

/-- C15. For an active prescribed displacement of `m_DC` with the radial code
`bc = 20`, after which no active condition addresses the y or z component of the
same node, the prescribed pass sets
`(m_rt.y, m_rt.z) = (m_r0.y, m_r0.z) + g * (m_r0.y, m_r0.z)/sqrt(m_r0.y^2 + m_r0.z^2)`
with `g = s_dc * Value(lc)`; the condition does not write `m_rt.x`; and with an
exact square root and a non-zero in-plane reference vector the in-plane
displacement has magnitude `|g|` and is parallel to `(m_r0.y, m_r0.z)`. -/
theorem radial_prescribed_displacement (E : Ext R) (S : FESolidSolver R)
    (pre post : List (FENodalDisplacement R)) (dc : FENodalDisplacement R)
    (hsplit : S.m_fem.m_DC = pre ++ dc :: post) (hact : dc.IsActive = true)
    (hbc : dc.bc = 20)
    (hlast : ∀ d ∈ post, d.IsActive = true → d.node = dc.node →
      d.bc ≠ 1 ∧ d.bc ≠ 2 ∧ d.bc ≠ 20) :
    ((applyPrescribedDisplacements E S).m_fem.m_mesh.Node dc.node).m_rt.y
      = (S.m_fem.m_mesh.Node dc.node).m_r0.y + dc.s * S.m_fem.LoadCurve dc.lc
        * ((S.m_fem.m_mesh.Node dc.node).m_r0.y
          / E.sqrt ((S.m_fem.m_mesh.Node dc.node).m_r0.y * (S.m_fem.m_mesh.Node dc.node).m_r0.y
            + (S.m_fem.m_mesh.Node dc.node).m_r0.z * (S.m_fem.m_mesh.Node dc.node).m_r0.z)) ∧
    ((applyPrescribedDisplacements E S).m_fem.m_mesh.Node dc.node).m_rt.z
      = (S.m_fem.m_mesh.Node dc.node).m_r0.z + dc.s * S.m_fem.LoadCurve dc.lc
        * ((S.m_fem.m_mesh.Node dc.node).m_r0.z
          / E.sqrt ((S.m_fem.m_mesh.Node dc.node).m_r0.y * (S.m_fem.m_mesh.Node dc.node).m_r0.y
            + (S.m_fem.m_mesh.Node dc.node).m_r0.z * (S.m_fem.m_mesh.Node dc.node).m_r0.z)) ∧
    (∀ N : Nat → FENode R,
      ((prescribedDisplacementStep E S.m_fem.LoadCurve N dc) dc.node).m_rt.x
        = (N dc.node).m_rt.x) ∧
    ((∀ x, 0 ≤ x → E.sqrt x * E.sqrt x = x) → (∀ x, 0 ≤ E.sqrt x) →
      (S.m_fem.m_mesh.Node dc.node).m_r0.y * (S.m_fem.m_mesh.Node dc.node).m_r0.y
        + (S.m_fem.m_mesh.Node dc.node).m_r0.z * (S.m_fem.m_mesh.Node dc.node).m_r0.z ≠ 0 →
      E.sqrt
          ((((applyPrescribedDisplacements E S).m_fem.m_mesh.Node dc.node).m_rt.y
              - (S.m_fem.m_mesh.Node dc.node).m_r0.y)
            * (((applyPrescribedDisplacements E S).m_fem.m_mesh.Node dc.node).m_rt.y
              - (S.m_fem.m_mesh.Node dc.node).m_r0.y)
          + (((applyPrescribedDisplacements E S).m_fem.m_mesh.Node dc.node).m_rt.z
              - (S.m_fem.m_mesh.Node dc.node).m_r0.z)
            * (((applyPrescribedDisplacements E S).m_fem.m_mesh.Node dc.node).m_rt.z
              - (S.m_fem.m_mesh.Node dc.node).m_r0.z))
        = |dc.s * S.m_fem.LoadCurve dc.lc| ∧
      (((applyPrescribedDisplacements E S).m_fem.m_mesh.Node dc.node).m_rt.y
          - (S.m_fem.m_mesh.Node dc.node).m_r0.y) * (S.m_fem.m_mesh.Node dc.node).m_r0.z
        = (((applyPrescribedDisplacements E S).m_fem.m_mesh.Node dc.node).m_rt.z
          - (S.m_fem.m_mesh.Node dc.node).m_r0.z) * (S.m_fem.m_mesh.Node dc.node).m_r0.y) := by
  have hy : ∀ d ∈ post, d.IsActive = true → d.node = dc.node →
      d.bc ≠ ((1 : Nat) : Int) ∧ ¬ (d.bc = 20 ∧ 1 ≤ 1) := fun d hd ha hn =>
    ⟨by simpa using (hlast d hd ha hn).1, fun h => (hlast d hd ha hn).2.2 h.1⟩
  have hz : ∀ d ∈ post, d.IsActive = true → d.node = dc.node →
      d.bc ≠ ((2 : Nat) : Int) ∧ ¬ (d.bc = 20 ∧ 1 ≤ 2) := fun d hd ha hn =>
    ⟨by simpa using (hlast d hd ha hn).2.1, fun h => (hlast d hd ha hn).2.2 h.1⟩
  have hN : (applyPrescribedDisplacements E S).m_fem.m_mesh.Node
      = post.foldl (prescribedDisplacementStep E S.m_fem.LoadCurve)
        (prescribedDisplacementStep E S.m_fem.LoadCurve
          (pre.foldl (prescribedDisplacementStep E S.m_fem.LoadCurve) S.m_fem.m_mesh.Node) dc) := by
    show S.m_fem.m_DC.foldl (prescribedDisplacementStep E S.m_fem.LoadCurve)
      S.m_fem.m_mesh.Node = _
    rw [hsplit, List.foldl_append, List.foldl_cons]
  obtain ⟨v, hv⟩ := prescribedDisplacement_fold E S.m_fem.LoadCurve pre S.m_fem.m_mesh.Node
    dc.node
  obtain ⟨r1, r2, r3, r4⟩ := prescribeNode_radial E (dc.s * S.m_fem.LoadCurve dc.lc)
    (pre.foldl (prescribedDisplacementStep E S.m_fem.LoadCurve) S.m_fem.m_mesh.Node dc.node)
  have hr0 : (pre.foldl (prescribedDisplacementStep E S.m_fem.LoadCurve) S.m_fem.m_mesh.Node
      dc.node).m_r0 = (S.m_fem.m_mesh.Node dc.node).m_r0 := by rw [hv]
  rw [hr0] at r1 r2
  have e1 : ((applyPrescribedDisplacements E S).m_fem.m_mesh.Node dc.node).m_rt.y
      = (S.m_fem.m_mesh.Node dc.node).m_r0.y + dc.s * S.m_fem.LoadCurve dc.lc
        * ((S.m_fem.m_mesh.Node dc.node).m_r0.y
          / E.sqrt ((S.m_fem.m_mesh.Node dc.node).m_r0.y * (S.m_fem.m_mesh.Node dc.node).m_r0.y
            + (S.m_fem.m_mesh.Node dc.node).m_r0.z * (S.m_fem.m_mesh.Node dc.node).m_r0.z)) := by
    have h := prescribedDisplacement_fold_comp E S.m_fem.LoadCurve post
      (prescribedDisplacementStep E S.m_fem.LoadCurve
        (pre.foldl (prescribedDisplacementStep E S.m_fem.LoadCurve) S.m_fem.m_mesh.Node) dc)
      dc.node 1 (by decide) hy
    simp only [vec3d.comp] at h
    rw [hN, h]
    simp only [prescribedDisplacementStep, hact, if_true, Function.update_same, hbc]
    exact r1
  have e2 : ((applyPrescribedDisplacements E S).m_fem.m_mesh.Node dc.node).m_rt.z
      = (S.m_fem.m_mesh.Node dc.node).m_r0.z + dc.s * S.m_fem.LoadCurve dc.lc
        * ((S.m_fem.m_mesh.Node dc.node).m_r0.z
          / E.sqrt ((S.m_fem.m_mesh.Node dc.node).m_r0.y * (S.m_fem.m_mesh.Node dc.node).m_r0.y
            + (S.m_fem.m_mesh.Node dc.node).m_r0.z * (S.m_fem.m_mesh.Node dc.node).m_r0.z)) := by
    have h := prescribedDisplacement_fold_comp E S.m_fem.LoadCurve post
      (prescribedDisplacementStep E S.m_fem.LoadCurve
        (pre.foldl (prescribedDisplacementStep E S.m_fem.LoadCurve) S.m_fem.m_mesh.Node) dc)
      dc.node 2 (by decide) hz
    simp only [vec3d.comp] at h
    rw [hN, h]
    simp only [prescribedDisplacementStep, hact, if_true, Function.update_same, hbc]
    exact r2
  refine ⟨e1, e2, fun N => ?_, fun hsq hnn hne => ?_⟩
  · simp only [prescribedDisplacementStep, hact, if_true, Function.update_same, hbc]
    exact (prescribeNode_radial E _ _).2.2.1
  · rw [e1, e2]
    generalize dc.s * S.m_fem.LoadCurve dc.lc = g
    generalize (S.m_fem.m_mesh.Node dc.node).m_r0.y = y at hne ⊢
    generalize (S.m_fem.m_mesh.Node dc.node).m_r0.z = z at hne ⊢
    have hpos : 0 ≤ y * y + z * z := by nlinarith [mul_self_nonneg y, mul_self_nonneg z]
    have hd := hsq _ hpos
    have hd0 : E.sqrt (y * y + z * z) ≠ 0 := by
      intro h0
      rw [h0, mul_zero] at hd
      exact hne hd.symm
    generalize E.sqrt (y * y + z * z) = d at hd hd0
    constructor
    · have hsqr : (y + g * (y / d) - y) * (y + g * (y / d) - y)
          + (z + g * (z / d) - z) * (z + g * (z / d) - z) = |g| * |g| := by
        rw [abs_mul_abs_self]
        have e : (y + g * (y / d) - y) * (y + g * (y / d) - y)
            + (z + g * (z / d) - z) * (z + g * (z / d) - z)
            = g * g * ((y * y + z * z) / (d * d)) := by
          field_simp
          ring
        rw [e, ← hd, div_self (mul_ne_zero hd0 hd0), mul_one]
      rw [hsqr]
      exact (mul_self_inj (hnn _) (abs_nonneg g)).mp (hsq _ (mul_self_nonneg _))
    · ring

/-- Witness of C15, over the reals with the real square root: the node of
`radialSolver`, reference `(1, 3, 4)`, is displaced in the plane along `(3, 4)` by a
vector of length `|2 * 5|`. -/
theorem radial_prescribed_displacement_witness :
    Real.sqrt
        ((((applyPrescribedDisplacements
              (⟨Real.sqrt, Real.sin, Real.cos, fun _ v => v, fun _ v => v⟩ : Ext ℝ)
              (radialSolver : FESolidSolver ℝ)).m_fem.m_mesh.Node 0).m_rt.y
            - ((radialSolver : FESolidSolver ℝ).m_fem.m_mesh.Node 0).m_r0.y)
          * (((applyPrescribedDisplacements
              (⟨Real.sqrt, Real.sin, Real.cos, fun _ v => v, fun _ v => v⟩ : Ext ℝ)
              (radialSolver : FESolidSolver ℝ)).m_fem.m_mesh.Node 0).m_rt.y
            - ((radialSolver : FESolidSolver ℝ).m_fem.m_mesh.Node 0).m_r0.y)
        + (((applyPrescribedDisplacements
              (⟨Real.sqrt, Real.sin, Real.cos, fun _ v => v, fun _ v => v⟩ : Ext ℝ)
              (radialSolver : FESolidSolver ℝ)).m_fem.m_mesh.Node 0).m_rt.z
            - ((radialSolver : FESolidSolver ℝ).m_fem.m_mesh.Node 0).m_r0.z)
          * (((applyPrescribedDisplacements
              (⟨Real.sqrt, Real.sin, Real.cos, fun _ v => v, fun _ v => v⟩ : Ext ℝ)
              (radialSolver : FESolidSolver ℝ)).m_fem.m_mesh.Node 0).m_rt.z
            - ((radialSolver : FESolidSolver ℝ).m_fem.m_mesh.Node 0).m_r0.z))
      = |2 * (radialSolver : FESolidSolver ℝ).m_fem.LoadCurve 0| :=
  ((radial_prescribed_displacement
    (⟨Real.sqrt, Real.sin, Real.cos, fun _ v => v, fun _ v => v⟩ : Ext ℝ)
    (radialSolver : FESolidSolver ℝ) [] []
    { IsActive := true, node := 0, lc := 0, bc := 20, s := 2 } rfl rfl rfl (by simp)).2.2.2
    (fun _ hx => Real.mul_self_sqrt hx) Real.sqrt_nonneg
    (by norm_num [radialSolver, emptyModel, restNode])).1

/-! ## The equation ids during the updates -/

/-- A loop whose steps keep a relation to the initial array keeps it. -/
theorem foldl_keeps_relation {α ι : Type} (P : α → α → Prop) (step : (Nat → α) → ι → Nat → α)
    (hstep : ∀ (A N : Nat → α) (i : ι), (∀ g, P (A g) (N g)) → ∀ g, P (A g) (step N i g))
    (l : List ι) (A N : Nat → α) (h : ∀ g, P (A g) (N g)) (g : Nat) :
    P (A g) (l.foldl step N g) := by
  induction l generalizing N with
  | nil => exact h g
  | cons i rest ih => exact ih (step N i) (hstep A N i h)

theorem FEBioFluid.FENode.Flipped.same (dofc : Nat) (a : FEBioFluid.FENode R) :
    FEBioFluid.FENode.Flipped dofc a a := ⟨fun _ _ => rfl, Or.inl rfl⟩

/-- Flipping the id of `dofc` once more keeps the relation. -/
theorem FEBioFluid.FENode.Flipped.of_flip (dofc : Nat) (bc : Int) (a b : FEBioFluid.FENode R)
    (h : FEBioFluid.FENode.Flipped dofc a b) :
    FEBioFluid.FENode.Flipped dofc a (b.flip dofc bc) := by
  obtain ⟨h1, h2⟩ := h
  refine ⟨fun k hk => ?_, ?_⟩
  · simp only [FEBioFluid.FENode.flip, Function.update_noteq hk]
    exact h1 k hk
  · simp only [FEBioFluid.FENode.flip, Function.update_same]
    rcases h2 with h2 | h2
    · right; rw [h2]
    · left; rw [h2]; ring

/-- A step that flips the id of one node, or does nothing, keeps the relation. -/
theorem FEBioFluid.FENode.Flipped.of_step (dofc : Nat) (bc : Int) (c : Prop) [Decidable c]
    (n : Nat) (A N : Nat → FEBioFluid.FENode R)
    (h : ∀ g, FEBioFluid.FENode.Flipped dofc (A g) (N g)) (g : Nat) :
    FEBioFluid.FENode.Flipped dofc (A g)
      ((if c then Function.update N n ((N n).flip dofc bc) else N) g) := by
  split_ifs
  · by_cases hg : g = n
    · subst hg
      rw [Function.update_same]
      exact FEBioFluid.FENode.Flipped.of_flip dofc bc _ _ (h g)
    · rw [Function.update_noteq hg]
      exact h g
  · exact h g

/-- `MarkBackFlow` only flips ids of the concentration dof. -/
theorem FEBioFluid.MarkBackFlow_flipped (E : Ext R) (B : FEBioFluid.BCConstants)
    (L : FEBioFluid.FESoluteBackflowStabilization R) (Node : Nat → FEBioFluid.FENode R)
    (g : Nat) :
    FEBioFluid.FENode.Flipped L.dofc (Node g) (L.MarkBackFlow E B Node g) := by
  unfold FEBioFluid.FESoluteBackflowStabilization.MarkBackFlow
  apply foldl_keeps_relation (FEBioFluid.FENode.Flipped L.dofc)
  · intro A N el h g
    split_ifs
    · unfold FEBioFluid.FESoluteBackflowStabilization.prescribeElementNodes
      apply foldl_keeps_relation (FEBioFluid.FENode.Flipped L.dofc) _ _ _ A N h
      intro A N i h g
      exact FEBioFluid.FENode.Flipped.of_step L.dofc _ _ _ A N h g
    · exact h g
  · intro g
    unfold FEBioFluid.FESoluteBackflowStabilization.openNodes
    apply foldl_keeps_relation (FEBioFluid.FENode.Flipped L.dofc) _ _ _ Node Node
      (fun g => FEBioFluid.FENode.Flipped.same _ _)
    intro A N i h g
    exact FEBioFluid.FENode.Flipped.of_step L.dofc _ _ _ A N h g

/-- `FESoluteBackflowStabilization::Update` only flips ids of the concentration
dof. -/
theorem FEBioFluid.Update_flipped (E : Ext R) (B : FEBioFluid.BCConstants)
    (L : FEBioFluid.FESoluteBackflowStabilization R) (Node : Nat → FEBioFluid.FENode R)
    (g : Nat) :
    FEBioFluid.FENode.Flipped L.dofc (Node g) (L.Update E B Node g) := by
  unfold FEBioFluid.FESoluteBackflowStabilization.Update
  apply foldl_keeps_relation (FEBioFluid.FENode.Flipped L.dofc) _ _ _ Node _
    (FEBioFluid.MarkBackFlow_flipped E B L Node)
  intro A N i h g
  split_ifs
  · by_cases hg : g = L.m_psurf.node i
    · subst hg
      rw [Function.update_same]
      exact h _
    · rw [Function.update_noteq hg]
      exact h g
  · exact h g

/-- C17 (as amended). `FESolidSolver::Update` (with `UpdateRigidBodies` and
`UpdatePoro`) leaves every node's `m_ID` and every rigid body's `m_LM` as they
were before the call. `FESoluteBackflowStabilization::Update` leaves every entry
of every node's `m_ID` as it was, except the entry of the concentration dof
`dofc = m_dofC + m_sol - 1`, whose value `n` it either keeps or replaces by
`-n - 2`. -/
theorem equation_ids_during_update (E : Ext R) (K : FEConstants) (S : FESolidSolver R)
    (ui : Nat → R) (s : R) (B : FEBioFluid.BCConstants)
    (L : FEBioFluid.FESoluteBackflowStabilization R) (Node : Nat → FEBioFluid.FENode R) :
    (∀ i, ((Update E K S ui s).m_fem.m_mesh.Node i).m_ID = (S.m_fem.m_mesh.Node i).m_ID) ∧
    (∀ i, ((Update E K S ui s).m_fem.m_RB i).m_LM = (S.m_fem.m_RB i).m_LM) ∧
    (∀ g k, k ≠ L.dofc → (L.Update E B Node g).m_ID k = (Node g).m_ID k) ∧
    (∀ g, (L.Update E B Node g).m_ID L.dofc = (Node g).m_ID L.dofc ∨
      (L.Update E B Node g).m_ID L.dofc = -(Node g).m_ID L.dofc - 2) := by
  refine ⟨fun i => (Update_node_static_data E K S ui s i).2.1, fun i => ?_,
    fun g k hk => (FEBioFluid.Update_flipped E B L Node g).1 k hk,
    fun g => (FEBioFluid.Update_flipped E B L Node g).2⟩
  obtain ⟨-, -, -, -, -, -, -, -, -, a10, -⟩ := SameFrame.Update E K S ui s
  rw [a10]
  show (forEach S.m_fem.m_nrb (updateRigidBody E S.m_fem.LoadCurve S.m_Ui ui s) S.m_fem.m_RB
    i).m_LM = _
  rw [forEach_apply]
  unfold updateRigidBody
  split_ifs <;> rfl

/-- The last loop of `FESoluteBackflowStabilization::Update` writes no equation
id. -/
theorem FEBioFluid.Update_m_ID (E : Ext R) (B : FEBioFluid.BCConstants)
    (L : FEBioFluid.FESoluteBackflowStabilization R) (Node : Nat → FEBioFluid.FENode R)
    (g : Nat) :
    (L.Update E B Node g).m_ID = (L.MarkBackFlow E B Node g).m_ID := by
  unfold FEBioFluid.FESoluteBackflowStabilization.Update
  refine foldl_keeps_relation (fun a b : FEBioFluid.FENode R => b.m_ID = a.m_ID) _ ?_
    (List.range L.m_psurf.Nodes) (L.MarkBackFlow E B Node) (L.MarkBackFlow E B Node)
    (fun _ => rfl) g
  intro A N i h g
  split_ifs
  · by_cases hg : g = L.m_psurf.node i
    · subst hg
      rw [Function.update_same]
      exact h _
    · rw [Function.update_noteq hg]
      exact h g
  · exact h g

/-- Counterexample to C17 as stated: on the triangle with flow against the
normal, `FESoluteBackflowStabilization::Update` changes `m_ID` of the
concentration dof 3 of node 0 from 5 to -7. -/
theorem backflow_update_rewrites_equation_id :
    (FEBioFluid.backflowNodes 0).m_ID 3 = 5 ∧
    (FEBioFluid.backflowTriangle.Update restExt FEBioFluid.exBC FEBioFluid.backflowNodes 0).m_ID 3
      = -7 := by
  refine ⟨rfl, ?_⟩
  have hd : FEBioFluid.backflowTriangle.dofc = 3 := by decide
  have h1 : FEBioFluid.backflowTriangle.openNodes FEBioFluid.exBC FEBioFluid.backflowNodes
      = FEBioFluid.backflowNodes := by
    simp only [FEBioFluid.FESoluteBackflowStabilization.openNodes, hd]
    simp [FEBioFluid.backflowTriangle, List.range_succ, FEBioFluid.backflowNodes]
  have hvn : FEBioFluid.backflowTriangle.normalFlow restExt FEBioFluid.backflowNodes
      { Nodes := 3
        m_node := fun i => i
        GaussPoints := 1
        GaussWeights := fun _ => 1
        H := fun _ _ => 1 / 3
        Gr := fun _ i => if i = 0 then -1 else if i = 1 then 1 else 0
        Gs := fun _ i => if i = 0 then -1 else if i = 2 then 1 else 0 } = -1 := by
    norm_num [FEBioFluid.FESoluteBackflowStabilization.normalFlow, FEBioFluid.backflowTriangle,
      FEBioFluid.backflowNodes, FEBioFluid.FENode.get_vec3d, FEBioFluid.FENode.get_vec3d_prev,
      restExt, List.range_succ, vec3d.add, vec3d.smul, vec3d.zero, vec3d.cross, vec3d.dot,
      vec3d.unit, vec3d.sdiv]
  have hel : FEBioFluid.backflowTriangle.m_psurf.Element =
      [{ Nodes := 3
         m_node := fun i => i
         GaussPoints := 1
         GaussWeights := fun _ => 1
         H := fun _ _ => 1 / 3
         Gr := fun _ i => if i = 0 then -1 else if i = 1 then 1 else 0
         Gs := fun _ i => if i = 0 then -1 else if i = 2 then 1 else 0 }] := rfl
  rw [FEBioFluid.Update_m_ID]
  unfold FEBioFluid.FESoluteBackflowStabilization.MarkBackFlow
  rw [h1, hel]
  simp only [List.foldl_cons, List.foldl_nil, hvn]
  norm_num [FEBioFluid.FESoluteBackflowStabilization.prescribeElementNodes, hd, List.range_succ,
    FEBioFluid.backflowNodes, FEBioFluid.FENode.flip, FEBioFluid.exBC, Function.update]

/-! ## `FERVEModel::InitRVE` -/

/-- When one of the first three surface pair constraints is not an
`FEPeriodicBoundary1O`, the check of `PrepPeriodicBC` fails. -/
theorem FEBioMech.not_all_periodic (l : List Bool) (i : Nat) (hi : i < 3)
    (h : l[i]? = some false) : (l.take 3).all id = false := by
  rw [List.all_eq_false]
  refine ⟨false, ?_, by simp⟩
  have h2 : (l.take 3)[i]? = some false := by
    rw [List.getElem?_take]
    simp [hi, h]
  exact (List.getElem?_eq_some_iff.mp h2).2 ▸ List.getElem_mem _

/-- C18. `InitRVE` returns `false`, without the base class initialisation and
without evaluating the initial volume (after centring the RVE, the only call
recorded is the one that sets the plot level, and `m_V0` is as before), when
`rveType` is none of `DISPLACEMENT`, `PERIODIC_AL`, `PERIODIC_LC`; when it is
`DISPLACEMENT` and `szbc` is a non-empty name of no node set of the mesh; when it
is `PERIODIC_AL` and `szbc` is null or empty or names no node set, or the model
does not have exactly 3 surface pair constraints, or one of the three is not an
`FEPeriodicBoundary1O`. -/
theorem InitRVE_misconfigured (X : FEBioMech.RVEExt R) (K : FEBioMech.RVEConstants)
    (M : FEBioMech.FERVEModel R) (rveType : Int) (szbc : Option String)
    (h : (rveType ≠ K.DISPLACEMENT ∧ rveType ≠ K.PERIODIC_AL ∧ rveType ≠ K.PERIODIC_LC) ∨
      (rveType = K.DISPLACEMENT ∧
        ∃ name, szbc = some name ∧ name ≠ "" ∧ M.m_mesh.FindNodeSet name = none) ∨
      (rveType = K.PERIODIC_AL ∧ K.PERIODIC_AL ≠ K.DISPLACEMENT ∧
        (szbc = none ∨ szbc = some "" ∨
          (∃ name, szbc = some name ∧ M.m_mesh.FindNodeSet name = none) ∨
          M.SurfacePairConstraint.length ≠ 3 ∨
          ∃ i, i < 3 ∧ M.SurfacePairConstraint[i]? = some false))) :
    (FEBioMech.FERVEModel.InitRVE X K M rveType szbc).1 = false ∧
    (FEBioMech.FERVEModel.InitRVE X K M rveType szbc).2.m_calls
      = M.m_calls ++ [FEBioMech.RVECall.SetPlotLevelNever] ∧
    (FEBioMech.FERVEModel.InitRVE X K M rveType szbc).2.m_V0 = M.m_V0 := by
  have e : FEBioMech.FERVEModel.InitRVE X K M rveType szbc
      = (false,
        { FEBioMech.FERVEModel.CenterRVE (M.call [FEBioMech.RVECall.SetPlotLevelNever]) with
          m_bctype := rveType }) := by
    generalize hM1 : FEBioMech.FERVEModel.CenterRVE
      (M.call [FEBioMech.RVECall.SetPlotLevelNever]) = M1
    have hfind : M1.m_mesh.FindNodeSet = M.m_mesh.FindNodeSet := by rw [← hM1]; rfl
    have hspc : M1.SurfacePairConstraint = M.SurfacePairConstraint := by rw [← hM1]; rfl
    unfold FEBioMech.FERVEModel.InitRVE
    rw [hM1]
    rcases h with ⟨h1, h2, h3⟩ | ⟨h1, name, hs, hne, hset⟩ | ⟨h1, hK, h2⟩
    · simp only [h1, h2, h3, if_false]
    · subst hs
      have hc : (some name).isSome = true ∧ some name ≠ some "" := ⟨rfl, by simpa using hne⟩
      simp only [h1, if_true]
      rw [if_pos hc]
      simp only [Option.getD_some, hfind, hset]
    · have hne : rveType ≠ K.DISPLACEMENT := by rw [h1]; exact hK
      have hp : FEBioMech.FERVEModel.PrepPeriodicBC { M1 with m_bctype := rveType } szbc
          = (false, { M1 with m_bctype := rveType }) := by
        unfold FEBioMech.FERVEModel.PrepPeriodicBC
        rcases h2 with h2 | h2 | ⟨name, hs, hset⟩ | h2 | ⟨i, hi, h2⟩
        · subst h2; rfl
        · subst h2; simp
        · subst hs
          simp only [hfind, hset]
          split_ifs <;> rfl
        · cases szbc with
          | none => rfl
          | some name =>
            simp only [hspc, h2, ne_eq, not_false_eq_true, if_true]
            split_ifs <;> first | rfl | (split <;> rfl)
        · have ha := FEBioMech.not_all_periodic M.SurfacePairConstraint i hi h2
          cases szbc with
          | none => rfl
          | some name =>
            simp only [hspc, ha, if_true]
            split_ifs <;> first | rfl | (split <;> rfl)
      simp only [hne, if_false]
      rw [if_pos h1]
      simp only [hp, if_true]
  rw [e]
  exact ⟨rfl, rfl, rfl⟩

/-- Witness of C18: `rveType = 5` is none of the three types. -/
theorem InitRVE_misconfigured_witness :
    (FEBioMech.FERVEModel.InitRVE FEBioMech.exRVEExt FEBioMech.exRVEConstants
      FEBioMech.twoNodeRVE 5 (some "corners")).1 = false :=
  (InitRVE_misconfigured FEBioMech.exRVEExt FEBioMech.exRVEConstants FEBioMech.twoNodeRVE 5
    (some "corners") (Or.inl (by decide))).1

/-! ## `FERVEModel::CenterRVE` -/

/-- A running minimum is below its start and below every value met, and is one of
them. -/
theorem foldl_min_spec (h : Nat → R) (l : List Nat) (m0 : R) :
    l.foldl (fun m i => min m (h i)) m0 ≤ m0 ∧
    (∀ i ∈ l, l.foldl (fun m i => min m (h i)) m0 ≤ h i) ∧
    (l.foldl (fun m i => min m (h i)) m0 = m0 ∨
      ∃ i ∈ l, l.foldl (fun m i => min m (h i)) m0 = h i) := by
  induction l generalizing m0 with
  | nil => exact ⟨le_refl _, fun i hi => absurd hi (List.not_mem_nil i), Or.inl rfl⟩
  | cons j rest ih =>
    obtain ⟨a, b, c⟩ := ih (min m0 (h j))
    simp only [List.foldl_cons]
    refine ⟨le_trans a (min_le_left _ _), fun i hi => ?_, ?_⟩
    · rcases List.mem_cons.mp hi with hi | hi
      · subst hi
        exact le_trans a (min_le_right _ _)
      · exact b i hi
    · rcases c with c | ⟨i, hi, c⟩
      · rcases min_choice m0 (h j) with hm | hm
        · left; rw [c, hm]
        · right; exact ⟨j, List.mem_cons_self _ _, by rw [c, hm]⟩
      · right; exact ⟨i, List.mem_cons_of_mem _ hi, c⟩

/-- A running maximum is above its start and above every value met, and is one of
them. -/
theorem foldl_max_spec (h : Nat → R) (l : List Nat) (m0 : R) :
    m0 ≤ l.foldl (fun m i => max m (h i)) m0 ∧
    (∀ i ∈ l, h i ≤ l.foldl (fun m i => max m (h i)) m0) ∧
    (l.foldl (fun m i => max m (h i)) m0 = m0 ∨
      ∃ i ∈ l, l.foldl (fun m i => max m (h i)) m0 = h i) := by
  induction l generalizing m0 with
  | nil => exact ⟨le_refl _, fun i hi => absurd hi (List.not_mem_nil i), Or.inl rfl⟩
  | cons j rest ih =>
    obtain ⟨a, b, c⟩ := ih (max m0 (h j))
    simp only [List.foldl_cons]
    refine ⟨le_trans (le_max_left _ _) a, fun i hi => ?_, ?_⟩
    · rcases List.mem_cons.mp hi with hi | hi
      · subst hi
        exact le_trans (le_max_right _ _) a
      · exact b i hi
    · rcases c with c | ⟨i, hi, c⟩
      · rcases max_choice m0 (h j) with hm | hm
        · left; rw [c, hm]
        · right; exact ⟨j, List.mem_cons_self _ _, by rw [c, hm]⟩
      · right; exact ⟨i, List.mem_cons_of_mem _ hi, c⟩

/-- The corners of a box extended by a list of points are running minima and
maxima. -/
theorem FEBioMech.box_fold (g : Nat → vec3d R) (l : List Nat)
    (b0 : FEBioMech.FEBoundingBox R) :
    l.foldl (fun box i => box.add (g i)) b0 =
      { r0 := ⟨l.foldl (fun m i => min m (g i).x) b0.r0.x,
               l.foldl (fun m i => min m (g i).y) b0.r0.y,
               l.foldl (fun m i => min m (g i).z) b0.r0.z⟩
        r1 := ⟨l.foldl (fun m i => max m (g i).x) b0.r1.x,
               l.foldl (fun m i => max m (g i).y) b0.r1.y,
               l.foldl (fun m i => max m (g i).z) b0.r1.z⟩ } := by
  induction l generalizing b0 with
  | nil => rfl
  | cons j rest ih =>
    simp only [List.foldl_cons]
    rw [ih]
    rfl

/-- The local `box` of `CenterRVE` is the bounding box of the mesh. -/
theorem FEBioMech.meshBox_isBoundingBox (mesh : FEBioMech.FEMesh R) (hN : 0 < mesh.Nodes) :
    mesh.IsBoundingBox (FEBioMech.FERVEModel.meshBox mesh) := by
  have hmem : ∀ i, i < mesh.Nodes → i = 0 ∨ i ∈ List.range' 1 (mesh.Nodes - 1) := by
    intro i hi
    rcases Nat.eq_zero_or_pos i with h | h
    · exact Or.inl h
    · right
      rw [List.mem_range']
      exact ⟨i - 1, by omega, by omega⟩
  have hlt : ∀ i, i ∈ List.range' 1 (mesh.Nodes - 1) → i < mesh.Nodes := by
    intro i hi
    rw [List.mem_range'] at hi
    obtain ⟨k, hk, rfl⟩ := hi
    omega
  unfold FEBioMech.FERVEModel.meshBox
  rw [FEBioMech.box_fold (fun i => (mesh.Node i).m_r0)]
  obtain ⟨x1, x2, x3⟩ := foldl_min_spec (fun i => (mesh.Node i).m_r0.x)
    (List.range' 1 (mesh.Nodes - 1)) (mesh.Node 0).m_r0.x
  obtain ⟨y1, y2, y3⟩ := foldl_min_spec (fun i => (mesh.Node i).m_r0.y)
    (List.range' 1 (mesh.Nodes - 1)) (mesh.Node 0).m_r0.y
  obtain ⟨z1, z2, z3⟩ := foldl_min_spec (fun i => (mesh.Node i).m_r0.z)
    (List.range' 1 (mesh.Nodes - 1)) (mesh.Node 0).m_r0.z
  obtain ⟨X1, X2, X3⟩ := foldl_max_spec (fun i => (mesh.Node i).m_r0.x)
    (List.range' 1 (mesh.Nodes - 1)) (mesh.Node 0).m_r0.x
  obtain ⟨Y1, Y2, Y3⟩ := foldl_max_spec (fun i => (mesh.Node i).m_r0.y)
    (List.range' 1 (mesh.Nodes - 1)) (mesh.Node 0).m_r0.y
  obtain ⟨Z1, Z2, Z3⟩ := foldl_max_spec (fun i => (mesh.Node i).m_r0.z)
    (List.range' 1 (mesh.Nodes - 1)) (mesh.Node 0).m_r0.z
  have att : ∀ (m : R) (f : Nat → R), (m = f 0 ∨ ∃ i ∈ List.range' 1 (mesh.Nodes - 1), m = f i) →
      ∃ i, i < mesh.Nodes ∧ f i = m := by
    intro m f h
    rcases h with h | ⟨i, hi, h⟩
    · exact ⟨0, hN, h.symm⟩
    · exact ⟨i, hlt i hi, h.symm⟩
  refine ⟨fun i hi => ?_, att _ (fun i => (mesh.Node i).m_r0.x) x3,
    att _ (fun i => (mesh.Node i).m_r0.x) X3, att _ (fun i => (mesh.Node i).m_r0.y) y3,
    att _ (fun i => (mesh.Node i).m_r0.y) Y3, att _ (fun i => (mesh.Node i).m_r0.z) z3,
    att _ (fun i => (mesh.Node i).m_r0.z) Z3⟩
  rcases hmem i hi with h | h
  · subst h
    exact ⟨x1, X1, y1, Y1, z1, Z1⟩
  · exact ⟨x2 i h, X2 i h, y2 i h, Y2 i h, z2 i h, Z2 i h⟩

/-- Shifting every value shifts the running minimum. -/
theorem foldl_min_shift (h h' : Nat → R) (c : R) (l : List Nat)
    (hh : ∀ i ∈ l, h' i = h i - c) (m0 : R) :
    l.foldl (fun m i => min m (h' i)) (m0 - c) = l.foldl (fun m i => min m (h i)) m0 - c := by
  induction l generalizing m0 with
  | nil => rfl
  | cons j rest ih =>
    simp only [List.foldl_cons]
    rw [hh j (List.mem_cons_self _ _), min_sub_sub_right,
      ih (fun i hi => hh i (List.mem_cons_of_mem _ hi))]

/-- Shifting every value shifts the running maximum. -/
theorem foldl_max_shift (h h' : Nat → R) (c : R) (l : List Nat)
    (hh : ∀ i ∈ l, h' i = h i - c) (m0 : R) :
    l.foldl (fun m i => max m (h' i)) (m0 - c) = l.foldl (fun m i => max m (h i)) m0 - c := by
  induction l generalizing m0 with
  | nil => rfl
  | cons j rest ih =>
    simp only [List.foldl_cons]
    rw [hh j (List.mem_cons_self _ _), max_sub_sub_right,
      ih (fun i hi => hh i (List.mem_cons_of_mem _ hi))]

/-- The nodes after `CenterRVE`. -/
theorem FEBioMech.CenterRVE_Node (M : FEBioMech.FERVEModel R) (i : Nat)
    (hi : i < M.m_mesh.Nodes) :
    (FEBioMech.FERVEModel.CenterRVE M).m_mesh.Node i =
      { m_r0 := vec3d.sub (M.m_mesh.Node i).m_r0 (FEBioMech.FERVEModel.meshBox M.m_mesh).center
        m_rt := vec3d.sub (M.m_mesh.Node i).m_r0
          (FEBioMech.FERVEModel.meshBox M.m_mesh).center } := by
  simp [FEBioMech.FERVEModel.CenterRVE, forEach_apply, hi]

/-- The bounding box of the recentred mesh is the translated bounding box. -/
theorem FEBioMech.meshBox_CenterRVE (M : FEBioMech.FERVEModel R) (hN : 0 < M.m_mesh.Nodes) :
    FEBioMech.FERVEModel.meshBox (FEBioMech.FERVEModel.CenterRVE M).m_mesh =
      (FEBioMech.FERVEModel.meshBox M.m_mesh).translate
        (vec3d.neg (FEBioMech.FERVEModel.meshBox M.m_mesh).center) := by
  have hlt : ∀ i, i ∈ List.range' 1 (M.m_mesh.Nodes - 1) → i < M.m_mesh.Nodes := by
    intro i hi
    rw [List.mem_range'] at hi
    obtain ⟨k, hk, rfl⟩ := hi
    omega
  generalize hc : (FEBioMech.FERVEModel.meshBox M.m_mesh).center = c
  have hnode : ∀ i, i < M.m_mesh.Nodes →
      ((FEBioMech.FERVEModel.CenterRVE M).m_mesh.Node i).m_r0
        = vec3d.sub (M.m_mesh.Node i).m_r0 c := by
    intro i hi
    rw [FEBioMech.CenterRVE_Node M i hi, hc]
  have hNodes : (FEBioMech.FERVEModel.CenterRVE M).m_mesh.Nodes = M.m_mesh.Nodes := rfl
  unfold FEBioMech.FERVEModel.meshBox
  rw [hNodes, FEBioMech.box_fold (fun i => ((FEBioMech.FERVEModel.CenterRVE M).m_mesh.Node i).m_r0),
    FEBioMech.box_fold (fun i => (M.m_mesh.Node i).m_r0), hnode 0 hN]
  simp only [FEBioMech.FEBoundingBox.translate, vec3d.add, vec3d.neg, vec3d.sub,
    ← sub_eq_add_neg]
  rw [foldl_min_shift (fun i => (M.m_mesh.Node i).m_r0.x) _ c.x _
      (fun i hi => by simp only [hnode i (hlt i hi), vec3d.sub]),
    foldl_min_shift (fun i => (M.m_mesh.Node i).m_r0.y) _ c.y _
      (fun i hi => by simp only [hnode i (hlt i hi), vec3d.sub]),
    foldl_min_shift (fun i => (M.m_mesh.Node i).m_r0.z) _ c.z _
      (fun i hi => by simp only [hnode i (hlt i hi), vec3d.sub]),
    foldl_max_shift (fun i => (M.m_mesh.Node i).m_r0.x) _ c.x _
      (fun i hi => by simp only [hnode i (hlt i hi), vec3d.sub]),
    foldl_max_shift (fun i => (M.m_mesh.Node i).m_r0.y) _ c.y _
      (fun i hi => by simp only [hnode i (hlt i hi), vec3d.sub]),
    foldl_max_shift (fun i => (M.m_mesh.Node i).m_r0.z) _ c.z _
      (fun i hi => by simp only [hnode i (hlt i hi), vec3d.sub])]

/-- A mesh has at most one bounding box. -/
theorem FEBioMech.IsBoundingBox_unique (mesh : FEBioMech.FEMesh R)
    (b b' : FEBioMech.FEBoundingBox R) (h : mesh.IsBoundingBox b)
    (h' : mesh.IsBoundingBox b') : b = b' := by
  obtain ⟨B, ⟨i1, a1, e1⟩, ⟨i2, a2, e2⟩, ⟨i3, a3, e3⟩, ⟨i4, a4, e4⟩, ⟨i5, a5, e5⟩,
    ⟨i6, a6, e6⟩⟩ := h
  obtain ⟨B', ⟨j1, c1, f1⟩, ⟨j2, c2, f2⟩, ⟨j3, c3, f3⟩, ⟨j4, c4, f4⟩, ⟨j5, c5, f5⟩,
    ⟨j6, c6, f6⟩⟩ := h'
  have hx0 : b.r0.x = b'.r0.x :=
    le_antisymm (f1 ▸ (B j1 c1).1) (e1 ▸ (B' i1 a1).1)
  have hx1 : b.r1.x = b'.r1.x :=
    le_antisymm (e2 ▸ (B' i2 a2).2.1) (f2 ▸ (B j2 c2).2.1)
  have hy0 : b.r0.y = b'.r0.y :=
    le_antisymm (f3 ▸ (B j3 c3).2.2.1) (e3 ▸ (B' i3 a3).2.2.1)
  have hy1 : b.r1.y = b'.r1.y :=
    le_antisymm (e4 ▸ (B' i4 a4).2.2.2.1) (f4 ▸ (B j4 c4).2.2.2.1)
  have hz0 : b.r0.z = b'.r0.z :=
    le_antisymm (f5 ▸ (B j5 c5).2.2.2.2.1) (e5 ▸ (B' i5 a5).2.2.2.2.1)
  have hz1 : b.r1.z = b'.r1.z :=
    le_antisymm (e6 ▸ (B' i6 a6).2.2.2.2.2) (f6 ▸ (B j6 c6).2.2.2.2.2)
  obtain ⟨⟨x0, y0, z0⟩, ⟨x1, y1, z1⟩⟩ := b
  obtain ⟨⟨x0', y0', z0'⟩, ⟨x1', y1', z1'⟩⟩ := b'
  simp only at hx0 hx1 hy0 hy1 hz0 hz1
  simp only [hx0, hx1, hy0, hy1, hz0, hz1]

/-- C20. For a mesh with at least one node, after `CenterRVE` the bounding box of
the reference positions (it exists, and on each axis its corners are the minimum
and the maximum of `m_r0` over the nodes) is centred at the origin: its two
corners sum to zero; every node has `m_rt` equal to its new `m_r0`; and the
difference `m_r0[i] - m_r0[j]` of any two nodes is the same as before the call. -/
theorem CenterRVE_centres_mesh (M : FEBioMech.FERVEModel R) (hN : 0 < M.m_mesh.Nodes) :
    (∃ b, (FEBioMech.FERVEModel.CenterRVE M).m_mesh.IsBoundingBox b) ∧
    (∀ b, (FEBioMech.FERVEModel.CenterRVE M).m_mesh.IsBoundingBox b →
      vec3d.add b.r0 b.r1 = vec3d.zero) ∧
    (∀ i, i < M.m_mesh.Nodes →
      ((FEBioMech.FERVEModel.CenterRVE M).m_mesh.Node i).m_rt
        = ((FEBioMech.FERVEModel.CenterRVE M).m_mesh.Node i).m_r0) ∧
    (∀ i j, i < M.m_mesh.Nodes → j < M.m_mesh.Nodes →
      vec3d.sub ((FEBioMech.FERVEModel.CenterRVE M).m_mesh.Node i).m_r0
          ((FEBioMech.FERVEModel.CenterRVE M).m_mesh.Node j).m_r0
        = vec3d.sub (M.m_mesh.Node i).m_r0 (M.m_mesh.Node j).m_r0) := by
  have hbox := FEBioMech.meshBox_isBoundingBox (FEBioMech.FERVEModel.CenterRVE M).m_mesh hN
  refine ⟨⟨_, hbox⟩, fun b hb => ?_, fun i hi => ?_, fun i j hi hj => ?_⟩
  · rw [FEBioMech.IsBoundingBox_unique _ b _ hb hbox, FEBioMech.meshBox_CenterRVE M hN]
    simp only [FEBioMech.FEBoundingBox.translate, FEBioMech.FEBoundingBox.center, vec3d.add,
      vec3d.neg, vec3d.smul, vec3d.zero, vec3d.mk.injEq]
    refine ⟨?_, ?_, ?_⟩ <;> ring
  · rw [FEBioMech.CenterRVE_Node M i hi]
  · rw [FEBioMech.CenterRVE_Node M i hi, FEBioMech.CenterRVE_Node M j hj]
    simp only [vec3d.sub, vec3d.mk.injEq]
    refine ⟨?_, ?_, ?_⟩ <;> ring

/-- Witness of C20: the two nodes of `twoNodeRVE` keep their distance. -/
theorem CenterRVE_centres_mesh_witness :
    vec3d.sub ((FEBioMech.FERVEModel.CenterRVE FEBioMech.twoNodeRVE).m_mesh.Node 1).m_r0
        ((FEBioMech.FERVEModel.CenterRVE FEBioMech.twoNodeRVE).m_mesh.Node 0).m_r0
      = vec3d.sub (FEBioMech.twoNodeRVE.m_mesh.Node 1).m_r0
          (FEBioMech.twoNodeRVE.m_mesh.Node 0).m_r0 :=
  (CenterRVE_centres_mesh FEBioMech.twoNodeRVE (by decide)).2.2.2 1 0 (by decide) (by decide)

/-- The member `m_bb` after `CenterRVE` is the bounding box of the recentred mesh
exactly when it was the bounding box of the mesh before the call. -/
theorem FEBioMech.CenterRVE_bb_iff (M : FEBioMech.FERVEModel R) (hN : 0 < M.m_mesh.Nodes) :
    (FEBioMech.FERVEModel.CenterRVE M).m_mesh.IsBoundingBox
        (FEBioMech.FERVEModel.CenterRVE M).m_bb ↔
      M.m_bb = FEBioMech.FERVEModel.meshBox M.m_mesh := by
  have hbox := FEBioMech.meshBox_isBoundingBox (FEBioMech.FERVEModel.CenterRVE M).m_mesh hN
  have hbb : (FEBioMech.FERVEModel.CenterRVE M).m_bb
      = M.m_bb.translate (vec3d.neg (FEBioMech.FERVEModel.meshBox M.m_mesh).center) := rfl
  constructor
  · intro h
    have e := FEBioMech.IsBoundingBox_unique _ _ _ h hbox
    rw [hbb, FEBioMech.meshBox_CenterRVE M hN] at e
    generalize FEBioMech.FERVEModel.meshBox M.m_mesh = B at e ⊢
    generalize vec3d.neg B.center = t at e
    generalize M.m_bb = bb at e ⊢
    obtain ⟨⟨x0, y0, z0⟩, ⟨x1, y1, z1⟩⟩ := B
    obtain ⟨⟨a0, b0, c0⟩, ⟨a1, b1, c1⟩⟩ := bb
    simp only [FEBioMech.FEBoundingBox.translate, vec3d.add, FEBioMech.FEBoundingBox.mk.injEq,
      vec3d.mk.injEq, add_left_inj] at e ⊢
    exact e
  · intro h
    rw [hbb, h, ← FEBioMech.meshBox_CenterRVE M hN]
    exact hbox

/-- C19 (the code at the failing input). On the two-node RVE whose member `m_bb`
is the default box, `CenterRVE` moves the nodes to `(-1, 0, 0)` and `(1, 0, 0)` and
leaves `m_bb` with both corners at `(-1, 0, 0)`: the box computed from the nodes
is a local variable, the member is only translated, and it is not the bounding
box of the recentred mesh. -/
theorem CenterRVE_member_box_not_computed :
    ((FEBioMech.FERVEModel.CenterRVE FEBioMech.twoNodeRVE).m_mesh.Node 0).m_r0 = ⟨-1, 0, 0⟩ ∧
    ((FEBioMech.FERVEModel.CenterRVE FEBioMech.twoNodeRVE).m_mesh.Node 1).m_r0 = ⟨1, 0, 0⟩ ∧
    (FEBioMech.FERVEModel.CenterRVE FEBioMech.twoNodeRVE).m_bb
      = { r0 := ⟨-1, 0, 0⟩, r1 := ⟨-1, 0, 0⟩ } ∧
    ¬ (FEBioMech.FERVEModel.CenterRVE FEBioMech.twoNodeRVE).m_mesh.IsBoundingBox
        (FEBioMech.FERVEModel.CenterRVE FEBioMech.twoNodeRVE).m_bb := by
  have hc : (FEBioMech.FERVEModel.meshBox FEBioMech.twoNodeRVE.m_mesh).center = ⟨1, 0, 0⟩ := by
    have hr : List.range' 1 (FEBioMech.twoNodeRVE.m_mesh.Nodes - 1) = [1] := rfl
    unfold FEBioMech.FERVEModel.meshBox
    rw [hr]
    norm_num [FEBioMech.twoNodeRVE, FEBioMech.FEBoundingBox.add, FEBioMech.FEBoundingBox.center,
      vec3d.add, vec3d.smul]
  have h0 : ((FEBioMech.FERVEModel.CenterRVE FEBioMech.twoNodeRVE).m_mesh.Node 0).m_r0
      = ⟨-1, 0, 0⟩ := by
    rw [FEBioMech.CenterRVE_Node _ 0 (by decide), hc]
    norm_num [FEBioMech.twoNodeRVE, vec3d.sub]
  have h1 : ((FEBioMech.FERVEModel.CenterRVE FEBioMech.twoNodeRVE).m_mesh.Node 1).m_r0
      = ⟨1, 0, 0⟩ := by
    rw [FEBioMech.CenterRVE_Node _ 1 (by decide), hc]
    norm_num [FEBioMech.twoNodeRVE, vec3d.sub]
  have hb : (FEBioMech.FERVEModel.CenterRVE FEBioMech.twoNodeRVE).m_bb
      = { r0 := ⟨-1, 0, 0⟩, r1 := ⟨-1, 0, 0⟩ } := by
    show FEBioMech.twoNodeRVE.m_bb.translate
      (vec3d.neg (FEBioMech.FERVEModel.meshBox FEBioMech.twoNodeRVE.m_mesh).center) = _
    rw [hc]
    norm_num [FEBioMech.twoNodeRVE, FEBioMech.FEBoundingBox.translate, vec3d.add, vec3d.neg]
  refine ⟨h0, h1, hb, fun h => ?_⟩
  have hle := (h.1 1 (by decide)).2.1
  rw [h1, hb] at hle
  norm_num at hle

/-- The rigid-body loop sees `ui` and `s` only through the product `s * ui[n]`. -/
theorem rigidDu_scale (LC : Int → R) (m_Ui ui : Nat → R) (s : R) (RB : FERigidBody R) :
    rigidDu LC m_Ui (fun n => s * ui n) 1 RB = rigidDu LC m_Ui ui s RB := by
  funext j
  unfold rigidDu duDisplacement duRotation
  simp only [one_mul]

/-- `UpdateRigidBodies(ui, s)` is `UpdateRigidBodies(s*ui, 1)`. -/
theorem UpdateRigidBodies_scale (E : Ext R) (S : FESolidSolver R) (ui : Nat → R) (s : R) :
    UpdateRigidBodies E S (fun n => s * ui n) 1 = UpdateRigidBodies E S ui s := by
  unfold UpdateRigidBodies updateRigidBody
  simp only [rigidDu_scale]

/-- `UpdatePoro(ui, s)` is `UpdatePoro(s*ui, 1)`. -/
theorem UpdatePoro_scale (S : FESolidSolver R) (ui : Nat → R) (s : R) :
    UpdatePoro S (fun n => s * ui n) 1 = UpdatePoro S ui s := by
  unfold UpdatePoro updatePressureNode
  simp only [one_mul]

/-- C25. The line-search scale acts only through the product `s*ui`: for every
model state, every `ui` and every `s`, `Update(ui, s)` gives the same solver state
(nodes, rigid bodies, joints, recorded calls) as `Update(ui', 1)` with
`ui'[n] = s*ui[n]`; in particular `Update(ui, 0)` gives the same state for every
two increments `ui`, `vi`. -/
theorem update_scale_through_product (E : Ext R) (K : FEConstants) (S : FESolidSolver R)
    (ui vi : Nat → R) (s : R) :
    Update E K S ui s = Update E K S (fun n => s * ui n) 1 ∧
    Update E K S ui 0 = Update E K S vi 0 := by
  have h : ∀ (wi : Nat → R) (t : R),
      Update E K S (fun n => t * wi n) 1 = Update E K S wi t := by
    intro wi t
    unfold Update updatePositions updateFlexibleNodes updateFlexibleNode
    simp only [UpdateRigidBodies_scale, UpdatePoro_scale, one_mul]
  refine ⟨(h ui s).symm, ?_⟩
  rw [← h ui 0, ← h vi 0]
  simp only [zero_mul]

/-- C22. In one call of `Update(ui, s)` the passes that write the nodes, the rigid
bodies and the joints (lines 23-135) record no collaborator call, and the call as
a whole is that state with the calls appended in this order: the update of every
contact interface `0 .. ContactInterfaces-1` if and only if `m_bcontact` is set,
then `UpdateStresses` of every domain `0 .. Domains-1`, then one plot `Write` if
and only if the step's plot level is `FE_PLOT_MINOR_ITRS`. -/
theorem update_collaborator_order (E : Ext R) (K : FEConstants) (S : FESolidSolver R)
    (ui : Nat → R) (s : R) :
    (if (updateDynamics K (updatePositions E S ui s)).m_fem.m_pStep.m_nModule
          = K.FE_POROELASTIC
      then UpdatePoro (updateDynamics K (updatePositions E S ui s)) ui s
      else updateDynamics K (updatePositions E S ui s)).m_fem.m_calls = S.m_fem.m_calls ∧
    Update E K S ui s =
      (if (updateDynamics K (updatePositions E S ui s)).m_fem.m_pStep.m_nModule
          = K.FE_POROELASTIC
      then UpdatePoro (updateDynamics K (updatePositions E S ui s)) ui s
      else updateDynamics K (updatePositions E S ui s)).call
        ((if S.m_fem.m_bcontact then
            (List.range S.m_fem.ContactInterfaces).map Call.ContactUpdate else [])
          ++ (List.range S.m_fem.m_mesh.Domains).map Call.DomainUpdateStresses
          ++ (if S.m_fem.m_pStep.m_nplot = K.FE_PLOT_MINOR_ITRS then [Call.PlotWrite]
              else [])) ∧
    (Update E K S ui s).m_fem.m_calls =
      S.m_fem.m_calls
        ++ (if S.m_fem.m_bcontact then
            (List.range S.m_fem.ContactInterfaces).map Call.ContactUpdate else [])
        ++ (List.range S.m_fem.m_mesh.Domains).map Call.DomainUpdateStresses
        ++ (if S.m_fem.m_pStep.m_nplot = K.FE_PLOT_MINOR_ITRS then [Call.PlotWrite]
            else []) := by
  have hS6 : ∀ T : FESolidSolver R, SameFrame (updatePositions E S ui s) T →
      T.m_fem.m_bcontact = S.m_fem.m_bcontact ∧
      T.m_fem.ContactInterfaces = S.m_fem.ContactInterfaces ∧
      T.m_fem.m_mesh.Domains = S.m_fem.m_mesh.Domains ∧
      T.m_fem.m_pStep = S.m_fem.m_pStep := by
    intro T h
    obtain ⟨-, -, a3, -, a5, -, -, -, -, -, -, -, a13, a14⟩ := h
    exact ⟨a13, a14, a5, a3⟩
  have h5 := SameFrame.updateDynamics K (updatePositions E S ui s)
  have c5 : (updateDynamics K (updatePositions E S ui s)).m_fem.m_calls = S.m_fem.m_calls := by
    unfold updateDynamics
    split_ifs <;> rfl
  have h6 : SameFrame (updatePositions E S ui s)
      (if (updateDynamics K (updatePositions E S ui s)).m_fem.m_pStep.m_nModule
          = K.FE_POROELASTIC
        then UpdatePoro (updateDynamics K (updatePositions E S ui s)) ui s
        else updateDynamics K (updatePositions E S ui s)) := by
    split_ifs
    · exact h5.trans (SameFrame.UpdatePoro _ ui s)
    · exact h5
  have c6 : (if (updateDynamics K (updatePositions E S ui s)).m_fem.m_pStep.m_nModule
          = K.FE_POROELASTIC
        then UpdatePoro (updateDynamics K (updatePositions E S ui s)) ui s
        else updateDynamics K (updatePositions E S ui s)).m_fem.m_calls
      = S.m_fem.m_calls := by
    split_ifs
    · exact c5
    · exact c5
  have e : Update E K S ui s =
      (if (updateDynamics K (updatePositions E S ui s)).m_fem.m_pStep.m_nModule
          = K.FE_POROELASTIC
      then UpdatePoro (updateDynamics K (updatePositions E S ui s)) ui s
      else updateDynamics K (updatePositions E S ui s)).call
        ((if S.m_fem.m_bcontact then
            (List.range S.m_fem.ContactInterfaces).map Call.ContactUpdate else [])
          ++ (List.range S.m_fem.m_mesh.Domains).map Call.DomainUpdateStresses
          ++ (if S.m_fem.m_pStep.m_nplot = K.FE_PLOT_MINOR_ITRS then [Call.PlotWrite]
              else [])) := by
    unfold Update
    simp only
    generalize (if (updateDynamics K (updatePositions E S ui s)).m_fem.m_pStep.m_nModule
          = K.FE_POROELASTIC
        then UpdatePoro (updateDynamics K (updatePositions E S ui s)) ui s
        else updateDynamics K (updatePositions E S ui s)) = S6 at h6 ⊢
    obtain ⟨b1, b2, b3, b4⟩ := hS6 S6 h6
    by_cases hc : S.m_fem.m_bcontact = true <;>
      by_cases hp : S.m_fem.m_pStep.m_nplot = K.FE_PLOT_MINOR_ITRS <;>
      simp [UpdateContact, UpdateStresses, FESolidSolver.call, b1, b2, b3, b4, hc, hp]
  refine ⟨c6, e, ?_⟩
  rw [e]
  simp only [FESolidSolver.call, c6, List.append_assoc]

/-- C28. In a step that is both dynamic and poroelastic, after `Update` every node of
the mesh has the velocity `m_vt = (m_rt - m_rp)/dt` written by `UpdatePoro`, while
`m_at` keeps the Newmark value `(m_rt - m_rp)*b - m_vp*a - m_ap` (`a = 4/dt`,
`b = a/dt`); the velocity replaced is the Newmark velocity
`m_vp + (m_ap + m_at)*dt*0.5`, which the node has before `UpdatePoro` runs. -/
theorem poro_velocity_replaces_newmark (E : Ext R) (K : FEConstants) (S : FESolidSolver R)
    (ui : Nat → R) (s : R) (i : Nat) (hi : i < S.m_fem.m_mesh.Nodes)
    (hdyn : S.m_fem.m_pStep.m_nanalysis = K.FE_DYNAMIC)
    (hporo : S.m_fem.m_pStep.m_nModule = K.FE_POROELASTIC) :
    ((Update E K S ui s).m_fem.m_mesh.Node i).m_vt =
      vec3d.sdiv (vec3d.sub ((Update E K S ui s).m_fem.m_mesh.Node i).m_rt
        ((Update E K S ui s).m_fem.m_mesh.Node i).m_rp) S.m_fem.m_pStep.m_dt ∧
    ((Update E K S ui s).m_fem.m_mesh.Node i).m_at =
      vec3d.sub (vec3d.sub
        (vec3d.smul (vec3d.sub ((Update E K S ui s).m_fem.m_mesh.Node i).m_rt
            ((Update E K S ui s).m_fem.m_mesh.Node i).m_rp)
          (4 / S.m_fem.m_pStep.m_dt / S.m_fem.m_pStep.m_dt))
        (vec3d.smul ((Update E K S ui s).m_fem.m_mesh.Node i).m_vp
          (4 / S.m_fem.m_pStep.m_dt)))
        ((Update E K S ui s).m_fem.m_mesh.Node i).m_ap ∧
    ((updateDynamics K (updatePositions E S ui s)).m_fem.m_mesh.Node i).m_vt =
      vec3d.add ((Update E K S ui s).m_fem.m_mesh.Node i).m_vp
        (vec3d.smul (vec3d.smul
          (vec3d.add ((Update E K S ui s).m_fem.m_mesh.Node i).m_ap
            ((Update E K S ui s).m_fem.m_mesh.Node i).m_at)
          S.m_fem.m_pStep.m_dt) (1 / 2)) := by
  obtain ⟨p, hp⟩ := Update_node_dynamic E K S ui s i hi hdyn
  obtain ⟨-, -, g3, g4, -⟩ := updatePositions_frame E S ui s
  rw [hp, if_pos hporo, updateDynamics_node, g3, g4]
  simp only [hdyn, hi, and_self, if_true]
  exact ⟨rfl, rfl, rfl⟩

/-- Witness of C28: the one-node step that is dynamic and poroelastic; the node
moved from the origin to `(1, 0, 0)` gets the velocity `(1, 0, 0)`, not the Newmark
velocity `(2, 0, 0)`, and the Newmark acceleration `(4, 0, 0)`. -/
theorem poro_velocity_replaces_newmark_witness :
    ((Update restExt exConstants dynamicPoroSolver (fun _ => 0) 1).m_fem.m_mesh.Node 0).m_vt
      = ⟨1, 0, 0⟩ ∧
    ((Update restExt exConstants dynamicPoroSolver (fun _ => 0) 1).m_fem.m_mesh.Node 0).m_at
      = ⟨4, 0, 0⟩ ∧
    ((updateDynamics exConstants
      (updatePositions restExt dynamicPoroSolver (fun _ => 0) 1)).m_fem.m_mesh.Node 0).m_vt
      = ⟨2, 0, 0⟩ := by
  have h := poro_velocity_replaces_newmark restExt exConstants dynamicPoroSolver
    (fun _ => 0) 1 0 (by decide) rfl rfl
  obtain ⟨vt, a, p, e⟩ := Update_node_eq restExt exConstants dynamicPoroSolver (fun _ => 0) 1 0
  have hrt : ((Update restExt exConstants dynamicPoroSolver (fun _ => 0) 1).m_fem.m_mesh.Node 0).m_rt
      = ⟨1, 0, 0⟩ := by
    rw [e, updatePositions_Node]
    simp [dynamicPoroSolver, emptyModel, restNode, forEach_apply, updateFlexibleNode,
      updateRigidNode]
  have hrp : ((Update restExt exConstants dynamicPoroSolver (fun _ => 0) 1).m_fem.m_mesh.Node 0).m_rp
      = ⟨0, 0, 0⟩ := by
    rw [e, updatePositions_Node]
    simp [dynamicPoroSolver, emptyModel, restNode, forEach_apply, updateFlexibleNode,
      updateRigidNode]
  have hvp : ((Update restExt exConstants dynamicPoroSolver (fun _ => 0) 1).m_fem.m_mesh.Node 0).m_vp
      = ⟨0, 0, 0⟩ := by
    rw [e, updatePositions_Node]
    simp [dynamicPoroSolver, emptyModel, restNode, forEach_apply, updateFlexibleNode,
      updateRigidNode, vec3d.zero]
  have hap : ((Update restExt exConstants dynamicPoroSolver (fun _ => 0) 1).m_fem.m_mesh.Node 0).m_ap
      = ⟨0, 0, 0⟩ := by
    rw [e, updatePositions_Node]
    simp [dynamicPoroSolver, emptyModel, restNode, forEach_apply, updateFlexibleNode,
      updateRigidNode, vec3d.zero]
  have hdt : dynamicPoroSolver.m_fem.m_pStep.m_dt = 1 := rfl
  obtain ⟨h1, h2, h3⟩ := h
  rw [hrt, hrp, hvp, hap, hdt] at h2
  have h2x : ((Update restExt exConstants dynamicPoroSolver (fun _ => 0) 1).m_fem.m_mesh.Node 0).m_at
      = ⟨4, 0, 0⟩ := by
    rw [h2]; norm_num [vec3d.sub, vec3d.smul]
  rw [hrt, hrp, hdt] at h1
  rw [hvp, hap, h2x, hdt] at h3
  refine ⟨?_, h2x, ?_⟩
  · rw [h1]; norm_num [vec3d.sub, vec3d.sdiv]
  · rw [h3]; norm_num [vec3d.add, vec3d.smul]

/-- C29. `FESoluteBackflowStabilization::Init` returns false exactly when the base
class `Init` fails or the solute number `m_sol` is outside `1 .. MAX_CDOFS`, and
true otherwise; when it returns true, `m_backflow` has one entry per surface node,
all false, and `m_alpha` is 1. -/
theorem backflow_Init_result (X : FEBioFluid.InitExt)
    (L : FEBioFluid.FESoluteBackflowStabilization R) :
    ((L.Init X).1 = false ↔
      (X.FESurfaceLoadInit = false ∨ L.m_sol < 1 ∨ X.MAX_CDOFS < L.m_sol)) ∧
    ((L.Init X).1 = true ↔
      (X.FESurfaceLoadInit = true ∧ 1 ≤ L.m_sol ∧ L.m_sol ≤ X.MAX_CDOFS)) ∧
    ((L.Init X).1 = true →
      (L.Init X).2.m_backflow = List.replicate L.m_psurf.Nodes false ∧
      (L.Init X).2.m_backflow.length = L.m_psurf.Nodes ∧
      (∀ b ∈ (L.Init X).2.m_backflow, b = false) ∧
      (L.Init X).2.m_alpha = 1) := by
  unfold FEBioFluid.FESoluteBackflowStabilization.Init
  by_cases hb : X.FESurfaceLoadInit = false
  · simp [hb]
  · have hb1 : X.FESurfaceLoadInit = true := by simpa using hb
    by_cases hs : L.m_sol < 1 ∨ L.m_sol > X.MAX_CDOFS
    · have hs2 : ¬ (1 ≤ L.m_sol ∧ L.m_sol ≤ X.MAX_CDOFS) := by
        rintro ⟨a, b⟩
        rcases hs with h | h
        · omega
        · omega
      simp [hb1, hs, hs2]
    · have hs2 : 1 ≤ L.m_sol ∧ L.m_sol ≤ X.MAX_CDOFS := by
        constructor
        · by_contra h; exact hs (Or.inl (by omega))
        · by_contra h; exact hs (Or.inr (by omega))
      have hs3 : ¬ (L.m_sol < 1 ∨ X.MAX_CDOFS < L.m_sol) := by
        rintro (h | h)
        · omega
        · omega
      simp [hb1, hs, hs2, hs3]

/-- Witness of C29: the load of `backflowTriangle` (solute 1) initialises in a model
with two concentration dofs, and fails to when its solute number is 0 or 3. -/
theorem backflow_Init_result_witness :
    (FEBioFluid.backflowTriangle.Init FEBioFluid.exInitExt).1 = true ∧
    (FEBioFluid.backflowTriangle.Init FEBioFluid.exInitExt).2.m_backflow
      = [false, false, false] ∧
    (FEBioFluid.backflowTriangle.Init FEBioFluid.exInitExt).2.m_alpha = 1 ∧
    (FEBioFluid.FESoluteBackflowStabilization.Init FEBioFluid.exInitExt
      { FEBioFluid.backflowTriangle with m_sol := 0 }).1 = false ∧
    (FEBioFluid.FESoluteBackflowStabilization.Init FEBioFluid.exInitExt
      { FEBioFluid.backflowTriangle with m_sol := 3 }).1 = false := by
  have h := backflow_Init_result FEBioFluid.exInitExt FEBioFluid.backflowTriangle
  have h0 := (backflow_Init_result FEBioFluid.exInitExt
    { FEBioFluid.backflowTriangle with m_sol := 0 }).1
  have h3 := (backflow_Init_result FEBioFluid.exInitExt
    { FEBioFluid.backflowTriangle with m_sol := 3 }).1
  have ht : (FEBioFluid.backflowTriangle.Init FEBioFluid.exInitExt).1 = true :=
    h.2.1.mpr ⟨rfl, by decide, by decide⟩
  refine ⟨ht, ?_, (h.2.2 ht).2.2.2, h0.mpr (Or.inr (Or.inl (by decide))),
    h3.mpr (Or.inr (Or.inr (by decide)))⟩
  rw [(h.2.2 ht).1]
  rfl

/-- The map `n ↦ -n - 2` keeps the equation number. -/
theorem FEBioFluid.decode_flip (n : Int) :
    FEBioFluid.decode (-n - 2) = FEBioFluid.decode n := by
  unfold FEBioFluid.decode
  split_ifs <;> omega

/-- C26. `MarkBackFlow` preserves the equation number behind every equation id:
with `decode n = n` for `n ≥ 0` and `decode n = -n - 2` for `n < -1`, `decode` of
every `m_ID` entry of every node is the same before and after the call, and an
entry that is `-1` (fixed) before the call is `-1` after it. The map
`n ↦ -n - 2` that the code applies is an involution exchanging `n ≥ 0` with
`n < -1` and fixing `-1`. -/
theorem backflow_marking_keeps_equation_number (E : Ext R) (B : FEBioFluid.BCConstants)
    (L : FEBioFluid.FESoluteBackflowStabilization R) (Node : Nat → FEBioFluid.FENode R) :
    (∀ g k, FEBioFluid.decode ((L.MarkBackFlow E B Node g).m_ID k)
      = FEBioFluid.decode ((Node g).m_ID k)) ∧
    (∀ g k, (Node g).m_ID k = -1 → (L.MarkBackFlow E B Node g).m_ID k = -1) ∧
    (∀ (node : FEBioFluid.FENode R) (k : Nat) (bc bc2 : Int),
      ((node.flip k bc).flip k bc2).m_ID = node.m_ID ∧
      (0 ≤ node.m_ID k ↔ (node.flip k bc).m_ID k < -1) ∧
      (node.m_ID k < -1 ↔ 0 ≤ (node.flip k bc).m_ID k) ∧
      (node.m_ID k = -1 ↔ (node.flip k bc).m_ID k = -1) ∧
      (0 ≤ node.m_ID k → FEBioFluid.decode ((node.flip k bc).m_ID k) = node.m_ID k)) := by
  refine ⟨fun g k => ?_, fun g k h => ?_, fun node k bc bc2 => ?_⟩
  · obtain ⟨h1, h2⟩ := FEBioFluid.MarkBackFlow_flipped E B L Node g
    by_cases hk : k = L.dofc
    · subst hk
      rcases h2 with h2 | h2
      · rw [h2]
      · rw [h2, FEBioFluid.decode_flip]
    · rw [h1 k hk]
  · obtain ⟨h1, h2⟩ := FEBioFluid.MarkBackFlow_flipped E B L Node g
    by_cases hk : k = L.dofc
    · subst hk
      rcases h2 with h2 | h2
      · rw [h2, h]
      · rw [h2, h]; rfl
    · rw [h1 k hk, h]
  · refine ⟨?_, ?_, ?_, ?_, ?_⟩
    · funext j
      by_cases hj : j = k
      · subst hj
        simp only [FEBioFluid.FENode.flip, Function.update_same]
        ring
      · simp only [FEBioFluid.FENode.flip, Function.update_noteq hj]
    · simp only [FEBioFluid.FENode.flip, Function.update_same]
      constructor <;> intro h <;> omega
    · simp only [FEBioFluid.FENode.flip, Function.update_same]
      constructor <;> intro h <;> omega
    · simp only [FEBioFluid.FENode.flip, Function.update_same]
      constructor <;> intro h <;> omega
    · intro h
      simp only [FEBioFluid.FENode.flip, Function.update_same, FEBioFluid.decode]
      split_ifs <;> omega

/-- A loop that rewrites entry `idx i` when a test holds there, where the rewritten
entry fails the test: an entry is rewritten once if it is visited and passes the
test, and is left alone otherwise. -/
theorem foldl_update_once {α ι : Type} (p : α → Prop) [DecidablePred p] (f : α → α)
    (hpf : ∀ x, p x → ¬ p (f x)) (idx : ι → Nat) (l : List ι) (N : Nat → α) (g : Nat) :
    (((∃ i ∈ l, idx i = g) ∧ p (N g)) →
      l.foldl (fun N i => if p (N (idx i)) then Function.update N (idx i) (f (N (idx i)))
        else N) N g = f (N g)) ∧
    (¬ ((∃ i ∈ l, idx i = g) ∧ p (N g)) →
      l.foldl (fun N i => if p (N (idx i)) then Function.update N (idx i) (f (N (idx i)))
        else N) N g = N g) := by
  induction l generalizing N with
  | nil =>
    refine ⟨fun h => ?_, fun _ => rfl⟩
    obtain ⟨⟨i, hi, -⟩, -⟩ := h
    exact absurd hi (List.not_mem_nil i)
  | cons a rest ih =>
    rw [List.foldl_cons]
    obtain ⟨ih1, ih2⟩ := ih (if p (N (idx a)) then Function.update N (idx a) (f (N (idx a)))
      else N)
    by_cases hg : idx a = g
    · subst hg
      by_cases hp : p (N (idx a))
      · have e : (if p (N (idx a)) then Function.update N (idx a) (f (N (idx a))) else N)
            (idx a) = f (N (idx a)) := by
          rw [if_pos hp, Function.update_same]
        refine ⟨fun _ => ?_, fun h => absurd ⟨⟨a, List.mem_cons_self _ _, rfl⟩, hp⟩ h⟩
        rw [ih2, e]
        rw [e]
        exact fun h => hpf _ hp h.2
      · have e : (if p (N (idx a)) then Function.update N (idx a) (f (N (idx a))) else N)
            = N := if_neg hp
        refine ⟨fun h => absurd h.2 hp, fun _ => ?_⟩
        rw [e] at ih2 ⊢
        exact ih2 (fun h => hp h.2)
    · have e : (if p (N (idx a)) then Function.update N (idx a) (f (N (idx a))) else N) g
          = N g := by
        split_ifs
        · exact Function.update_noteq (Ne.symm hg) _ _
        · rfl
      rw [e] at ih1 ih2
      refine ⟨fun h => ih1 ⟨?_, h.2⟩, fun h => ih2 (fun h2 => h ⟨?_, h2.2⟩)⟩
      · obtain ⟨⟨i, hi, hig⟩, -⟩ := h
        rcases List.mem_cons.mp hi with rfl | hi
        · exact absurd hig hg
        · exact ⟨i, hi, hig⟩
      · obtain ⟨⟨i, hi, hig⟩, -⟩ := h2
        exact ⟨i, List.mem_cons_of_mem _ hi, hig⟩

/-- Flipping an equation id keeps the data the normal flow is computed from. -/
theorem FEBioFluid.FENode.SameFlow.of_flip_step (dofc : Nat) (bc : Int) (c : Prop) [Decidable c]
    (n : Nat) (A N : Nat → FEBioFluid.FENode R)
    (h : ∀ g, FEBioFluid.FENode.SameFlow (A g) (N g)) (g : Nat) :
    FEBioFluid.FENode.SameFlow (A g)
      ((if c then Function.update N n ((N n).flip dofc bc) else N) g) := by
  split_ifs
  · by_cases hg : g = n
    · subst hg
      rw [Function.update_same]
      exact h g
    · rw [Function.update_noteq hg]
      exact h g
  · exact h g

/-- The first loop of `MarkBackFlow` keeps positions and dof values. -/
theorem FEBioFluid.openNodes_sameFlow (B : FEBioFluid.BCConstants)
    (L : FEBioFluid.FESoluteBackflowStabilization R) (A N : Nat → FEBioFluid.FENode R)
    (h : ∀ g, FEBioFluid.FENode.SameFlow (A g) (N g)) (g : Nat) :
    FEBioFluid.FENode.SameFlow (A g) (L.openNodes B N g) := by
  unfold FEBioFluid.FESoluteBackflowStabilization.openNodes
  apply foldl_keeps_relation FEBioFluid.FENode.SameFlow _ _ _ A N h
  intro A N i h g
  exact FEBioFluid.FENode.SameFlow.of_flip_step L.dofc _ _ _ A N h g

/-- Prescribing the nodes of an element keeps positions and dof values. -/
theorem FEBioFluid.prescribeElementNodes_sameFlow (B : FEBioFluid.BCConstants)
    (L : FEBioFluid.FESoluteBackflowStabilization R) (el : FEBioFluid.FESurfaceElement R)
    (A N : Nat → FEBioFluid.FENode R)
    (h : ∀ g, FEBioFluid.FENode.SameFlow (A g) (N g)) (g : Nat) :
    FEBioFluid.FENode.SameFlow (A g) (L.prescribeElementNodes B el N g) := by
  unfold FEBioFluid.FESoluteBackflowStabilization.prescribeElementNodes
  apply foldl_keeps_relation FEBioFluid.FENode.SameFlow _ _ _ A N h
  intro A N i h g
  exact FEBioFluid.FENode.SameFlow.of_flip_step L.dofc _ _ _ A N h g

/-- The normal flow of an element only reads positions and dof values. -/
theorem FEBioFluid.normalFlow_congr (E : Ext R)
    (L : FEBioFluid.FESoluteBackflowStabilization R) (el : FEBioFluid.FESurfaceElement R)
    (A N : Nat → FEBioFluid.FENode R)
    (h : ∀ g, FEBioFluid.FENode.SameFlow (A g) (N g)) :
    L.normalFlow E N el = L.normalFlow E A el := by
  have h1 : ∀ g, (N g).m_rt = (A g).m_rt := fun g => (h g).1
  have h2 : ∀ g, (N g).m_rp = (A g).m_rp := fun g => (h g).2.1
  have h3 : ∀ g, (N g).m_val = (A g).m_val := fun g => (h g).2.2.1
  have h4 : ∀ g, (N g).m_val_prev = (A g).m_val_prev := fun g => (h g).2.2.2
  unfold FEBioFluid.FESoluteBackflowStabilization.normalFlow FEBioFluid.FENode.get_vec3d
    FEBioFluid.FENode.get_vec3d_prev
  simp only [h1, h2, h3, h4]

/-- The equation id of the concentration dof after the first loop of
`MarkBackFlow`. -/
theorem FEBioFluid.openNodes_m_ID (B : FEBioFluid.BCConstants)
    (L : FEBioFluid.FESoluteBackflowStabilization R) (N : Nat → FEBioFluid.FENode R)
    (g : Nat) :
    (((∃ i, i < L.m_psurf.Nodes ∧ L.m_psurf.node i = g) ∧ (N g).m_ID L.dofc < -1) →
      (L.openNodes B N g).m_ID L.dofc = -(N g).m_ID L.dofc - 2) ∧
    (¬ ((∃ i, i < L.m_psurf.Nodes ∧ L.m_psurf.node i = g) ∧ (N g).m_ID L.dofc < -1) →
      (L.openNodes B N g).m_ID L.dofc = (N g).m_ID L.dofc) := by
  obtain ⟨a, b⟩ := foldl_update_once (fun x : FEBioFluid.FENode R => x.m_ID L.dofc < -1)
    (fun x => x.flip L.dofc B.DOF_OPEN)
    (fun x hx => by
      simp only [FEBioFluid.FENode.flip, Function.update_same]
      omega)
    L.m_psurf.node (List.range L.m_psurf.Nodes) N g
  simp only [List.mem_range] at a b
  unfold FEBioFluid.FESoluteBackflowStabilization.openNodes
  refine ⟨fun h => ?_, fun h => ?_⟩
  · rw [a h]
    simp only [FEBioFluid.FENode.flip, Function.update_same]
  · rw [b h]

/-- The equation id of the concentration dof after the nodes of an element have
been prescribed. -/
theorem FEBioFluid.prescribeElementNodes_m_ID (B : FEBioFluid.BCConstants)
    (L : FEBioFluid.FESoluteBackflowStabilization R) (el : FEBioFluid.FESurfaceElement R)
    (N : Nat → FEBioFluid.FENode R) (g : Nat) :
    (((∃ i, i < el.Nodes ∧ el.m_node i = g) ∧ (N g).m_ID L.dofc > -1) →
      (L.prescribeElementNodes B el N g).m_ID L.dofc = -(N g).m_ID L.dofc - 2) ∧
    (¬ ((∃ i, i < el.Nodes ∧ el.m_node i = g) ∧ (N g).m_ID L.dofc > -1) →
      (L.prescribeElementNodes B el N g).m_ID L.dofc = (N g).m_ID L.dofc) := by
  obtain ⟨a, b⟩ := foldl_update_once (fun x : FEBioFluid.FENode R => x.m_ID L.dofc > -1)
    (fun x => x.flip L.dofc B.DOF_PRESCRIBED)
    (fun x hx => by
      simp only [FEBioFluid.FENode.flip, Function.update_same]
      omega)
    el.m_node (List.range el.Nodes) N g
  simp only [List.mem_range] at a b
  unfold FEBioFluid.FESoluteBackflowStabilization.prescribeElementNodes
  refine ⟨fun h => ?_, fun h => ?_⟩
  · rw [a h]
    simp only [FEBioFluid.FENode.flip, Function.update_same]
  · rw [b h]

/-- The loop over the elements of `MarkBackFlow`, started on a mesh `N` that has
the positions and dof values of `Node`: an open concentration dof is prescribed if
its node lies on an element of the list with negative normal flow, and every other
id is left alone. -/
theorem FEBioFluid.markElements_m_ID (E : Ext R) (B : FEBioFluid.BCConstants)
    (L : FEBioFluid.FESoluteBackflowStabilization R) (Node : Nat → FEBioFluid.FENode R)
    (els : List (FEBioFluid.FESurfaceElement R)) (N : Nat → FEBioFluid.FENode R)
    (hN : ∀ g, FEBioFluid.FENode.SameFlow (Node g) (N g)) (g : Nat) :
    (((N g).m_ID L.dofc > -1 ∧
        ∃ el ∈ els, L.normalFlow E Node el < 0 ∧ ∃ j, j < el.Nodes ∧ el.m_node j = g) →
      (els.foldl (fun N el => if L.normalFlow E N el < 0 then L.prescribeElementNodes B el N
        else N) N g).m_ID L.dofc = -(N g).m_ID L.dofc - 2) ∧
    (¬ ((N g).m_ID L.dofc > -1 ∧
        ∃ el ∈ els, L.normalFlow E Node el < 0 ∧ ∃ j, j < el.Nodes ∧ el.m_node j = g) →
      (els.foldl (fun N el => if L.normalFlow E N el < 0 then L.prescribeElementNodes B el N
        else N) N g).m_ID L.dofc = (N g).m_ID L.dofc) := by
  induction els generalizing N with
  | nil =>
    refine ⟨fun h => ?_, fun _ => rfl⟩
    obtain ⟨-, el, hel, -⟩ := h
    exact absurd hel (List.not_mem_nil el)
  | cons a rest ih =>
    rw [List.foldl_cons, FEBioFluid.normalFlow_congr E L a Node N hN]
    have hN2 : ∀ g, FEBioFluid.FENode.SameFlow (Node g)
        ((if L.normalFlow E Node a < 0 then L.prescribeElementNodes B a N else N) g) := by
      intro g
      split_ifs
      · exact FEBioFluid.prescribeElementNodes_sameFlow B L a Node N hN g
      · exact hN g
    obtain ⟨ih1, ih2⟩ := ih _ hN2
    obtain ⟨p1, p2⟩ := FEBioFluid.prescribeElementNodes_m_ID B L a N g
    by_cases hopen : (N g).m_ID L.dofc > -1
    · by_cases ha : L.normalFlow E Node a < 0 ∧ ∃ j, j < a.Nodes ∧ a.m_node j = g
      · have e : ((if L.normalFlow E Node a < 0 then L.prescribeElementNodes B a N else N)
            g).m_ID L.dofc = -(N g).m_ID L.dofc - 2 := by
          rw [if_pos ha.1]
          exact p1 ⟨ha.2, hopen⟩
        refine ⟨fun _ => ?_, fun h => absurd ⟨hopen, a, List.mem_cons_self _ _, ha⟩ h⟩
        rw [ih2, e]
        rw [e]
        intro h
        omega
      · have e : ((if L.normalFlow E Node a < 0 then L.prescribeElementNodes B a N else N)
            g).m_ID L.dofc = (N g).m_ID L.dofc := by
          split_ifs with hv
          · exact p2 (fun h => ha ⟨hv, h.1⟩)
          · rfl
        rw [e] at ih1 ih2
        refine ⟨fun h => ih1 ⟨hopen, ?_⟩, fun h => ih2 (fun h2 => h ⟨hopen, ?_⟩)⟩
        · obtain ⟨-, el, hel, hb⟩ := h
          rcases List.mem_cons.mp hel with rfl | hel
          · exact absurd hb ha
          · exact ⟨el, hel, hb⟩
        · obtain ⟨-, el, hel, hb⟩ := h2
          exact ⟨el, List.mem_cons_of_mem _ hel, hb⟩
    · have e : ((if L.normalFlow E Node a < 0 then L.prescribeElementNodes B a N else N)
          g).m_ID L.dofc = (N g).m_ID L.dofc := by
        split_ifs with hv
        · exact p2 (fun h => hopen h.2)
        · rfl
      rw [e] at ih2
      exact ⟨fun h => absurd h.1 hopen, fun _ => ih2 (fun h => hopen h.1)⟩

/-- `MarkBackFlow` keeps positions and dof values, so the normal flow of an
element is the same before, during and after the call. -/
theorem FEBioFluid.MarkBackFlow_sameFlow (E : Ext R) (B : FEBioFluid.BCConstants)
    (L : FEBioFluid.FESoluteBackflowStabilization R) (Node : Nat → FEBioFluid.FENode R)
    (g : Nat) :
    FEBioFluid.FENode.SameFlow (Node g) (L.MarkBackFlow E B Node g) := by
  unfold FEBioFluid.FESoluteBackflowStabilization.MarkBackFlow
  apply foldl_keeps_relation FEBioFluid.FENode.SameFlow _ _ _ Node _
    (FEBioFluid.openNodes_sameFlow B L Node Node (fun g => ⟨rfl, rfl, rfl, rfl⟩))
  intro A N el h g
  split_ifs
  · exact FEBioFluid.prescribeElementNodes_sameFlow B L el A N h g
  · exact h g

/-- C23. After `MarkBackFlow`, for every node of the surface whose concentration dof
`dofc = m_dofC + m_sol - 1` was not fixed before the call (`m_ID ≠ -1`): the dof is
prescribed (`m_ID < -1`) if and only if the node belongs to at least one element
of the surface whose normal flow `vn` is negative, and it is open (`m_ID ≥ 0`)
otherwise, in particular when it was prescribed before the call. The normal flow
of an element is the same on the mesh before and after the call. -/
theorem backflow_marking (E : Ext R) (B : FEBioFluid.BCConstants)
    (L : FEBioFluid.FESoluteBackflowStabilization R) (Node : Nat → FEBioFluid.FENode R)
    (i : Nat) (hi : i < L.m_psurf.Nodes)
    (hfix : (Node (L.m_psurf.node i)).m_ID L.dofc ≠ -1) :
    ((L.MarkBackFlow E B Node (L.m_psurf.node i)).m_ID L.dofc < -1 ↔
      ∃ el ∈ L.m_psurf.Element, L.normalFlow E Node el < 0 ∧
        ∃ j, j < el.Nodes ∧ el.m_node j = L.m_psurf.node i) ∧
    ((¬ ∃ el ∈ L.m_psurf.Element, L.normalFlow E Node el < 0 ∧
        ∃ j, j < el.Nodes ∧ el.m_node j = L.m_psurf.node i) →
      0 ≤ (L.MarkBackFlow E B Node (L.m_psurf.node i)).m_ID L.dofc) ∧
    (∀ el, L.normalFlow E (L.MarkBackFlow E B Node) el = L.normalFlow E Node el) := by
  have hflow : ∀ el, L.normalFlow E (L.MarkBackFlow E B Node) el = L.normalFlow E Node el :=
    fun el => FEBioFluid.normalFlow_congr E L el Node _
      (FEBioFluid.MarkBackFlow_sameFlow E B L Node)
  obtain ⟨o1, o2⟩ := FEBioFluid.openNodes_m_ID B L Node (L.m_psurf.node i)
  have hopen : 0 ≤ (L.openNodes B Node (L.m_psurf.node i)).m_ID L.dofc := by
    by_cases hp : (Node (L.m_psurf.node i)).m_ID L.dofc < -1
    · rw [o1 ⟨⟨i, hi, rfl⟩, hp⟩]
      omega
    · rw [o2 (fun h => hp h.2)]
      omega
  obtain ⟨m1, m2⟩ := FEBioFluid.markElements_m_ID E B L Node L.m_psurf.Element
    (L.openNodes B Node)
    (FEBioFluid.openNodes_sameFlow B L Node Node (fun g => ⟨rfl, rfl, rfl, rfl⟩))
    (L.m_psurf.node i)
  have hmark : ∀ g, L.MarkBackFlow E B Node g =
      L.m_psurf.Element.foldl (fun N el => if L.normalFlow E N el < 0 then
        L.prescribeElementNodes B el N else N) (L.openNodes B Node) g := fun g => rfl
  rw [hmark]
  refine ⟨⟨fun h => ?_, fun h => ?_⟩, fun h => ?_, hflow⟩
  · by_contra hne
    rw [m2 (fun h2 => hne h2.2)] at h
    omega
  · rw [m1 ⟨by omega, h⟩]
    omega
  · rw [m2 (fun h2 => h h2.2)]
    exact hopen

/-- Witness of C23: on the triangle with flow against the normal the open
concentration dof of surface node 0 is prescribed by `MarkBackFlow`; with the flow
along the normal the dof, prescribed before the call, is released. -/
theorem backflow_marking_witness :
    (FEBioFluid.backflowTriangle.MarkBackFlow restExt FEBioFluid.exBC FEBioFluid.backflowNodes
      (FEBioFluid.backflowTriangle.m_psurf.node 0)).m_ID FEBioFluid.backflowTriangle.dofc < -1 ∧
    (FEBioFluid.outflowNodes (FEBioFluid.backflowTriangle.m_psurf.node 0)).m_ID
      FEBioFluid.backflowTriangle.dofc = -7 ∧
    0 ≤ (FEBioFluid.backflowTriangle.MarkBackFlow restExt FEBioFluid.exBC FEBioFluid.outflowNodes
      (FEBioFluid.backflowTriangle.m_psurf.node 0)).m_ID FEBioFluid.backflowTriangle.dofc := by
  have hel : FEBioFluid.backflowTriangle.m_psurf.Element =
      [{ Nodes := 3
         m_node := fun i => i
         GaussPoints := 1
         GaussWeights := fun _ => 1
         H := fun _ _ => 1 / 3
         Gr := fun _ i => if i = 0 then -1 else if i = 1 then 1 else 0
         Gs := fun _ i => if i = 0 then -1 else if i = 2 then 1 else 0 }] := rfl
  have hvn : FEBioFluid.backflowTriangle.normalFlow restExt FEBioFluid.backflowNodes
      { Nodes := 3
        m_node := fun i => i
        GaussPoints := 1
        GaussWeights := fun _ => 1
        H := fun _ _ => 1 / 3
        Gr := fun _ i => if i = 0 then -1 else if i = 1 then 1 else 0
        Gs := fun _ i => if i = 0 then -1 else if i = 2 then 1 else 0 } = -1 := by
    norm_num [FEBioFluid.FESoluteBackflowStabilization.normalFlow, FEBioFluid.backflowTriangle,
      FEBioFluid.backflowNodes, FEBioFluid.FENode.get_vec3d, FEBioFluid.FENode.get_vec3d_prev,
      restExt, List.range_succ, vec3d.add, vec3d.smul, vec3d.zero, vec3d.cross, vec3d.dot,
      vec3d.unit, vec3d.sdiv]
  have hout : FEBioFluid.backflowTriangle.normalFlow restExt FEBioFluid.outflowNodes
      { Nodes := 3
        m_node := fun i => i
        GaussPoints := 1
        GaussWeights := fun _ => 1
        H := fun _ _ => 1 / 3
        Gr := fun _ i => if i = 0 then -1 else if i = 1 then 1 else 0
        Gs := fun _ i => if i = 0 then -1 else if i = 2 then 1 else 0 } = 1 := by
    norm_num [FEBioFluid.FESoluteBackflowStabilization.normalFlow, FEBioFluid.backflowTriangle,
      FEBioFluid.outflowNodes, FEBioFluid.FENode.get_vec3d, FEBioFluid.FENode.get_vec3d_prev,
      restExt, List.range_succ, vec3d.add, vec3d.smul, vec3d.zero, vec3d.cross, vec3d.dot,
      vec3d.unit, vec3d.sdiv]
  have h := backflow_marking restExt FEBioFluid.exBC FEBioFluid.backflowTriangle
    FEBioFluid.backflowNodes 0 (by decide) (by decide)
  have h2 := backflow_marking restExt FEBioFluid.exBC FEBioFluid.backflowTriangle
    FEBioFluid.outflowNodes 0 (by decide) (by decide)
  have hneg : FEBioFluid.backflowTriangle.normalFlow restExt FEBioFluid.backflowNodes
      { Nodes := 3
        m_node := fun i => i
        GaussPoints := 1
        GaussWeights := fun _ => 1
        H := fun _ _ => 1 / 3
        Gr := fun _ i => if i = 0 then -1 else if i = 1 then 1 else 0
        Gs := fun _ i => if i = 0 then -1 else if i = 2 then 1 else 0 } < 0 := by
    rw [hvn]
    norm_num
  refine ⟨h.1.mpr ⟨_, ?_, hneg, 0, Nat.zero_lt_succ 2, rfl⟩, by decide, h2.2.1 ?_⟩
  · rw [hel]
    exact List.mem_singleton.mpr rfl
  · rintro ⟨el, hmem, hv, -⟩
    rw [hel, List.mem_singleton] at hmem
    rw [hmem, hout] at hv
    norm_num at hv

/-- A running sum over a list. -/
theorem foldl_add_eq_sum {α : Type} (f : α → R) (l : List α) (V : R) :
    l.foldl (fun V a => V + f a) V = V + (l.map f).sum := by
  induction l generalizing V with
  | nil => simp
  | cons a rest ih => rw [List.foldl_cons, ih, List.map_cons, List.sum_cons, add_assoc]

/-- A running sum over the integration points of the domains and elements. -/
theorem FEBioMech.nested_fold_sum (f : FEBioMech.FEIntegrationPoint R → R)
    (mesh : FEBioMech.FEMesh R) (V : R) :
    mesh.Domain.foldl
      (fun V dom => dom.foldl (fun V el => el.foldl (fun V pt => V + f pt) V) V) V
      = V + (mesh.integrationPoints.map f).sum := by
  unfold FEBioMech.FEMesh.integrationPoints
  generalize mesh.Domain = doms
  induction doms generalizing V with
  | nil => simp
  | cons dom rest ih =>
    rw [List.foldl_cons, ih]
    have hdom : ∀ (els : List (List (FEBioMech.FEIntegrationPoint R))) (V : R),
        els.foldl (fun V el => el.foldl (fun V pt => V + f pt) V) V
          = V + ((els.foldr (fun el l => el ++ l) []).map f).sum := by
      intro els
      induction els with
      | nil => intro V; simp
      | cons el more ih2 =>
        intro V
        rw [List.foldl_cons, ih2, foldl_add_eq_sum]
        simp only [List.foldr_cons, List.map_append, List.sum_append]
        ring
    rw [hdom]
    simp only [List.map_cons, List.foldr_cons, List.map_append, List.sum_append]
    ring

/-- A component of the running sum of weighted stresses is the running sum of
that component. -/
theorem FEBioMech.stress_fold_component (sel : mat3ds R → R)
    (hsel : ∀ (a b : mat3ds R) (g : R), sel (mat3ds.add a (mat3ds.smul b g)) = sel a + sel b * g)
    (mesh : FEBioMech.FEMesh R) (T : mat3ds R) :
    sel (mesh.Domain.foldl
      (fun T dom => dom.foldl
        (fun T el => el.foldl
          (fun T pt => mat3ds.add T (mat3ds.smul pt.m_s (pt.w * pt.detJt))) T) T) T)
      = mesh.Domain.foldl
        (fun V dom => dom.foldl
          (fun V el => el.foldl (fun V pt => V + sel pt.m_s * (pt.w * pt.detJt)) V) V)
        (sel T) := by
  generalize mesh.Domain = doms
  induction doms generalizing T with
  | nil => rfl
  | cons dom rest ih =>
    rw [List.foldl_cons, List.foldl_cons, ih]
    congr 1
    induction dom generalizing T with
    | nil => rfl
    | cons el more ih2 =>
      rw [List.foldl_cons, List.foldl_cons, ih2]
      congr 1
      induction el generalizing T with
      | nil => rfl
      | cons pt pts ih3 => rw [List.foldl_cons, List.foldl_cons, ih3, hsel]

/-- C24. `StressAverage` returns the volume-weighted average of the stored stresses:
each component is the sum over all integration points of the mesh of
`m_s * (w * detJt)` divided by `CurrentVolume()`, the sum of `w * detJt`. Hence the
result does not depend on the argument `mp`, and when every integration point
stores the same stress `sigma` and the current volume is not zero, the result is
`sigma`. -/
theorem stress_average_is_weighted_mean (M : FEBioMech.FERVEModel R)
    (mp : FEBioMech.FEElasticMaterialPoint R) :
    M.CurrentVolume = (M.m_mesh.integrationPoints.map (fun pt => pt.w * pt.detJt)).sum ∧
    M.StressAverage mp =
      ⟨(M.m_mesh.integrationPoints.map (fun pt => pt.m_s.xx * (pt.w * pt.detJt))).sum
          / M.CurrentVolume,
       (M.m_mesh.integrationPoints.map (fun pt => pt.m_s.yy * (pt.w * pt.detJt))).sum
          / M.CurrentVolume,
       (M.m_mesh.integrationPoints.map (fun pt => pt.m_s.zz * (pt.w * pt.detJt))).sum
          / M.CurrentVolume,
       (M.m_mesh.integrationPoints.map (fun pt => pt.m_s.xy * (pt.w * pt.detJt))).sum
          / M.CurrentVolume,
       (M.m_mesh.integrationPoints.map (fun pt => pt.m_s.yz * (pt.w * pt.detJt))).sum
          / M.CurrentVolume,
       (M.m_mesh.integrationPoints.map (fun pt => pt.m_s.xz * (pt.w * pt.detJt))).sum
          / M.CurrentVolume⟩ ∧
    (∀ mp2 : FEBioMech.FEElasticMaterialPoint R, M.StressAverage mp2 = M.StressAverage mp) ∧
    (∀ sigma : mat3ds R, (∀ pt ∈ M.m_mesh.integrationPoints, pt.m_s = sigma) →
      M.CurrentVolume ≠ 0 → M.StressAverage mp = sigma) := by
  have hV : M.CurrentVolume
      = (M.m_mesh.integrationPoints.map (fun pt => pt.w * pt.detJt)).sum := by
    unfold FEBioMech.FERVEModel.CurrentVolume
    rw [FEBioMech.nested_fold_sum (fun pt => pt.w * pt.detJt), zero_add]
  have hcomp : ∀ sel : mat3ds R → R,
      (∀ (a b : mat3ds R) (g : R), sel (mat3ds.add a (mat3ds.smul b g)) = sel a + sel b * g) →
      sel mat3ds.zero = 0 →
      sel (M.m_mesh.Domain.foldl
        (fun T dom => dom.foldl
          (fun T el => el.foldl
            (fun T pt => mat3ds.add T (mat3ds.smul pt.m_s (pt.w * pt.detJt))) T) T)
        mat3ds.zero)
        = (M.m_mesh.integrationPoints.map (fun pt => sel pt.m_s * (pt.w * pt.detJt))).sum := by
    intro sel h1 h0
    rw [FEBioMech.stress_fold_component sel h1,
      FEBioMech.nested_fold_sum (fun pt => sel pt.m_s * (pt.w * pt.detJt)), h0, zero_add]
  have hS : M.StressAverage mp =
      ⟨(M.m_mesh.integrationPoints.map (fun pt => pt.m_s.xx * (pt.w * pt.detJt))).sum
          / M.CurrentVolume,
       (M.m_mesh.integrationPoints.map (fun pt => pt.m_s.yy * (pt.w * pt.detJt))).sum
          / M.CurrentVolume,
       (M.m_mesh.integrationPoints.map (fun pt => pt.m_s.zz * (pt.w * pt.detJt))).sum
          / M.CurrentVolume,
       (M.m_mesh.integrationPoints.map (fun pt => pt.m_s.xy * (pt.w * pt.detJt))).sum
          / M.CurrentVolume,
       (M.m_mesh.integrationPoints.map (fun pt => pt.m_s.yz * (pt.w * pt.detJt))).sum
          / M.CurrentVolume,
       (M.m_mesh.integrationPoints.map (fun pt => pt.m_s.xz * (pt.w * pt.detJt))).sum
          / M.CurrentVolume⟩ := by
    unfold FEBioMech.FERVEModel.StressAverage
    simp only [mat3ds.sdiv]
    rw [hcomp (fun a => a.xx) (fun _ _ _ => rfl) rfl, hcomp (fun a => a.yy) (fun _ _ _ => rfl) rfl,
      hcomp (fun a => a.zz) (fun _ _ _ => rfl) rfl, hcomp (fun a => a.xy) (fun _ _ _ => rfl) rfl,
      hcomp (fun a => a.yz) (fun _ _ _ => rfl) rfl, hcomp (fun a => a.xz) (fun _ _ _ => rfl) rfl]
  refine ⟨hV, hS, fun mp2 => rfl, fun sigma hs hne => ?_⟩
  have hsum : ∀ sel : mat3ds R → R,
      (M.m_mesh.integrationPoints.map (fun pt => sel pt.m_s * (pt.w * pt.detJt))).sum
        = sel sigma * M.CurrentVolume := by
    intro sel
    rw [hV]
    generalize M.m_mesh.integrationPoints = pts at hs
    induction pts with
    | nil => simp
    | cons pt rest ih =>
      rw [List.map_cons, List.sum_cons, List.map_cons, List.sum_cons,
        ih (fun q hq => hs q (List.mem_cons_of_mem _ hq)), hs pt (List.mem_cons_self _ _)]
      ring
  rw [hS, hsum (fun a => a.xx), hsum (fun a => a.yy), hsum (fun a => a.zz),
    hsum (fun a => a.xy), hsum (fun a => a.yz), hsum (fun a => a.xz)]
  simp only [mul_div_assoc, div_self hne, mul_one]

/-- Witness of C24: on the RVE with integration point volumes 2, 3, 1 and stresses
`xx = 6, 0, 12` the current volume is 6 and the average stress has `xx = 4`; on
the RVE with the same stress in every integration point the average is that
stress. -/
theorem stress_average_is_weighted_mean_witness :
    FEBioMech.stressedRVE.CurrentVolume = 6 ∧
    (FEBioMech.stressedRVE.StressAverage ⟨1, mat3ds.zero⟩).xx = 4 ∧
    FEBioMech.uniformRVE.StressAverage ⟨1, mat3ds.zero⟩ = ⟨1, 2, 3, 4, 5, 6⟩ := by
  have h := stress_average_is_weighted_mean FEBioMech.stressedRVE ⟨1, mat3ds.zero⟩
  have hu := stress_average_is_weighted_mean FEBioMech.uniformRVE ⟨1, mat3ds.zero⟩
  have hV : FEBioMech.stressedRVE.CurrentVolume = 6 := by
    rw [h.1]
    norm_num [FEBioMech.FEMesh.integrationPoints, FEBioMech.stressedRVE]
  have hVu : FEBioMech.uniformRVE.CurrentVolume = 6 := by
    rw [hu.1]
    norm_num [FEBioMech.FEMesh.integrationPoints, FEBioMech.uniformRVE]
  refine ⟨hV, ?_, hu.2.2.2 ⟨1, 2, 3, 4, 5, 6⟩ ?_ ?_⟩
  · rw [h.2.1, hV]
    norm_num [FEBioMech.FEMesh.integrationPoints, FEBioMech.stressedRVE]
  · intro pt hpt
    simp only [FEBioMech.FEMesh.integrationPoints, FEBioMech.uniformRVE, List.map_cons,
      List.map_nil, List.foldr_cons, List.foldr_nil, List.cons_append, List.nil_append,
      List.append_nil, List.mem_cons, List.mem_singleton] at hpt
    rcases hpt with h1 | h1 | h1 | h1
    · rw [h1]
    · rw [h1]
    · rw [h1]
    · simp at h1
  · rw [hVu]
    norm_num

/-- The weighted sum of a constraint only has terms for the slave dofs with a
translational code. -/
theorem constraintSum_filter (N : Nat → FENode R) (slaves : List (SlaveDOF R)) :
    constraintSum N slaves
      = constraintSum N (slaves.filter (fun si => si.bc = 0 ∨ si.bc = 1 ∨ si.bc = 2)) := by
  induction slaves with
  | nil => rfl
  | cons si rest ih =>
    by_cases h : si.bc = 0 ∨ si.bc = 1 ∨ si.bc = 2
    · rw [List.filter_cons_of_pos (by simpa using h)]
      simp only [constraintSum, List.map_cons, List.sum_cons] at ih ⊢
      rw [ih]
    · rw [List.filter_cons_of_neg (by simpa using h)]
      simp only [constraintSum, List.map_cons, List.sum_cons] at ih ⊢
      rw [ih, dofDisp, vec3d.compAt_other _ _ h, vec3d.compAt_other _ _ h]
      ring

/-- C21. The linear-constraint pass of `Update` runs its loop body once for each
constraint of `m_LinC`, in stored order, on the mesh as the constraints before it
left it, and the positions after `Update` are those after the last constraint.
If constraint `j` precedes constraint `k`, has a translational master code, and no
constraint between them has the same master dof, then when `k` is reached the
master dof of `j` has the displacement `j` wrote, the weighted sum of the slave
displacements of `j` at the time `j` was processed, and this is what a slave dof
of `k` equal to that master dof contributes to `k`. The value `d` of `k` only has
terms for the slave dofs with code 0, 1 or 2, it becomes the displacement of the
master dof of `k` when its code is 0, 1 or 2, and `k` writes nothing
otherwise. -/
theorem linear_constraints_in_stored_order (E : Ext R) (K : FEConstants)
    (S : FESolidSolver R) (ui : Nat → R) (s : R)
    (pre mid post : List (FELinearConstraint R)) (cj ck : FELinearConstraint R)
    (hsplit : S.m_fem.m_LinC = pre ++ cj :: (mid ++ ck :: post))
    (hbc : cj.master.bc = 0 ∨ cj.master.bc = 1 ∨ cj.master.bc = 2)
    (hmid : ∀ c ∈ mid, c.isMaster cj.master.node cj.master.bc = false) :
    (∀ i, ((Update E K S ui s).m_fem.m_mesh.Node i).m_rt
      = (meshAfterConstraints E S ui s S.m_fem.m_LinC i).m_rt) ∧
    (∀ (done : List (FELinearConstraint R)) (c : FELinearConstraint R),
      meshAfterConstraints E S ui s (done ++ [c])
        = linearConstraintStep (meshAfterConstraints E S ui s done) c) ∧
    meshAfterConstraints E S ui s S.m_fem.m_LinC
      = post.foldl linearConstraintStep
          (linearConstraintStep (meshAfterConstraints E S ui s (pre ++ cj :: mid)) ck) ∧
    dofDisp (meshAfterConstraints E S ui s (pre ++ cj :: mid) cj.master.node) cj.master.bc
      = constraintSum (meshAfterConstraints E S ui s pre) cj.slave ∧
    (∀ si ∈ ck.slave, si.node = cj.master.node → si.bc = cj.master.bc →
      dofDisp (meshAfterConstraints E S ui s (pre ++ cj :: mid) si.node) si.bc
        = constraintSum (meshAfterConstraints E S ui s pre) cj.slave) ∧
    ck.slave.foldl (slaveStep (meshAfterConstraints E S ui s (pre ++ cj :: mid))) 0
      = constraintSum (meshAfterConstraints E S ui s (pre ++ cj :: mid))
          (ck.slave.filter (fun si => si.bc = 0 ∨ si.bc = 1 ∨ si.bc = 2)) ∧
    ((ck.master.bc = 0 ∨ ck.master.bc = 1 ∨ ck.master.bc = 2) →
      dofDisp (meshAfterConstraints E S ui s (pre ++ cj :: mid ++ [ck]) ck.master.node)
          ck.master.bc
        = ck.slave.foldl (slaveStep (meshAfterConstraints E S ui s (pre ++ cj :: mid))) 0) ∧
    (¬ (ck.master.bc = 0 ∨ ck.master.bc = 1 ∨ ck.master.bc = 2) →
      meshAfterConstraints E S ui s (pre ++ cj :: mid ++ [ck])
        = meshAfterConstraints E S ui s (pre ++ cj :: mid)) := by
  have hstep : ∀ (done : List (FELinearConstraint R)) (c : FELinearConstraint R),
      meshAfterConstraints E S ui s (done ++ [c])
        = linearConstraintStep (meshAfterConstraints E S ui s done) c := by
    intro done c
    unfold meshAfterConstraints
    rw [List.foldl_append]
    rfl
  have hj : dofDisp (meshAfterConstraints E S ui s (pre ++ cj :: mid) cj.master.node)
      cj.master.bc = constraintSum (meshAfterConstraints E S ui s pre) cj.slave := by
    unfold meshAfterConstraints dofDisp
    rw [List.foldl_append, List.foldl_cons, linearConstraint_fold_nonmaster _ _ _ _ hmid,
      linearConstraint_fold_r0, linearConstraintStep_compAt, linearConstraintStep_r0,
      if_pos ⟨rfl, rfl, hbc⟩]
    ring
  have hsum := slave_fold_eq (meshAfterConstraints E S ui s (pre ++ cj :: mid)) ck.slave 0
  rw [zero_add] at hsum
  refine ⟨fun i => ?_, hstep, ?_, hj, fun si _ h1 h2 => ?_, ?_, fun hk => ?_, fun hk => ?_⟩
  · rw [Update_node_rt]
    rfl
  · unfold meshAfterConstraints
    rw [hsplit, List.foldl_append, List.foldl_cons, List.foldl_append, List.foldl_cons,
      List.foldl_append, List.foldl_cons]
  · rw [h1, h2]
    exact hj
  · rw [hsum]
    exact constraintSum_filter _ _
  · have e : pre ++ cj :: mid ++ [ck] = (pre ++ cj :: mid) ++ [ck] := by simp
    rw [e, hstep, hsum]
    unfold dofDisp
    rw [linearConstraintStep_compAt, linearConstraintStep_r0, if_pos ⟨rfl, rfl, hk⟩]
    ring
  · have e : pre ++ cj :: mid ++ [ck] = (pre ++ cj :: mid) ++ [ck] := by simp
    rw [e, hstep]
    unfold linearConstraintStep writeMaster
    simp only [not_or] at hk
    simp only [hk.1, hk.2.1, hk.2.2, if_false, Function.update_eq_self]

/-- Witness of C21: the chain stored in the order `B.x = C.x`, `A.x = B.x`, with C
moved by 1: when `A.x = B.x` is reached, B has the displacement 1 just written by
`B.x = C.x`, and A gets it. -/
theorem linear_constraints_in_stored_order_witness :
    dofDisp (meshAfterConstraints restExt orderedChainSolver (fun _ => 1) 1
      [{ master := { node := 1, bc := 0 }, slave := [{ node := 2, bc := 0, val := 1 }] }] 1) 0
      = 1 ∧
    dofDisp (meshAfterConstraints restExt orderedChainSolver (fun _ => 1) 1
      [{ master := { node := 1, bc := 0 }, slave := [{ node := 2, bc := 0, val := 1 }] },
       { master := { node := 0, bc := 0 }, slave := [{ node := 1, bc := 0, val := 1 }] }] 0) 0
      = 1 := by
  obtain ⟨-, -, -, h4, h5, h6, h7, -⟩ :=
    linear_constraints_in_stored_order restExt exConstants orderedChainSolver (fun _ => 1) 1
      [] [] []
      { master := { node := 1, bc := 0 }, slave := [{ node := 2, bc := 0, val := 1 }] }
      { master := { node := 0, bc := 0 }, slave := [{ node := 1, bc := 0, val := 1 }] }
      rfl (Or.inl rfl) (by decide)
  have h0 : constraintSum (meshAfterConstraints restExt orderedChainSolver (fun _ => 1) 1 [])
      [{ node := 2, bc := 0, val := 1 }] = 1 := by
    norm_num [constraintSum, dofDisp, vec3d.compAt, meshAfterConstraints,
      applyPrescribedDisplacements, updateFlexibleNodes, UpdateRigidBodies,
      FESolidSolver.withNodes, forEach_apply, updateFlexibleNode, updateRigidNode,
      orderedChainSolver, chainSolver, emptyModel, restNode]
  have k7 := h7 (Or.inl rfl)
  simp only [List.nil_append, List.cons_append] at h4 h6 k7
  rw [h0] at h4
  refine ⟨h4, ?_⟩
  rw [k7, h6]
  have hf : List.filter (fun si : SlaveDOF ℚ => decide (si.bc = 0 ∨ si.bc = 1 ∨ si.bc = 2))
      [{ node := 1, bc := 0, val := 1 }] = [{ node := 1, bc := 0, val := 1 }] := by
    simp
  rw [hf]
  simp only [constraintSum, List.map_cons, List.map_nil, List.sum_cons, List.sum_nil, h4]
  norm_num

/-- The rigid body update reads the load curves only at the indices of
`rigidLoadCurveCalls`. -/
theorem rigidDu_reads_calls (LC LC2 : Int → R) (m_Ui ui : Nat → R) (s : R)
    (RB : FERigidBody R) (hA : RB.m_bActive = true)
    (h : ∀ n ∈ rigidLoadCurveCalls RB, LC n = LC2 n) :
    rigidDu LC m_Ui ui s RB = rigidDu LC2 m_Ui ui s RB := by
  funext j
  have hj : ∀ pdc, RB.m_pDC j = some pdc → ¬ pdc.lc < 0 → LC (pdc.lc - 1) = LC2 (pdc.lc - 1) := by
    intro pdc hp hlc
    apply h
    unfold rigidLoadCurveCalls
    rw [if_pos hA, List.mem_filterMap]
    exact ⟨j, List.mem_finRange j, by rw [hp]; simp [hlc]⟩
  unfold rigidDu duDisplacement duRotation
  cases hp : RB.m_pDC j with
  | none => rfl
  | some pdc =>
    by_cases hlc : pdc.lc < 0
    · simp [hlc]
    · simp [hlc, hj pdc hp hlc]

/-- The indices passed to `GetLoadCurve` are `≥ -1`, and one of them is `-1`
exactly when a component of the active body has a driver with `lc = 0`. -/
theorem rigidLoadCurveCalls_index (RB : FERigidBody R) :
    (∀ n ∈ rigidLoadCurveCalls RB, -1 ≤ n) ∧
    ((-1 : Int) ∈ rigidLoadCurveCalls RB ↔
      RB.m_bActive = true ∧ ∃ j pdc, RB.m_pDC j = some pdc ∧ pdc.lc = 0) := by
  unfold rigidLoadCurveCalls
  by_cases hA : RB.m_bActive = true
  · simp only [hA, if_true, List.mem_filterMap, true_and]
    constructor
    · rintro n ⟨j, -, hj⟩
      cases hp : RB.m_pDC j with
      | none => rw [hp] at hj; simp at hj
      | some pdc =>
        rw [hp] at hj
        by_cases hlc : pdc.lc < 0
        · simp [hlc] at hj
        · simp [hlc] at hj
          omega
    · constructor
      · rintro ⟨j, -, hj⟩
        cases hp : RB.m_pDC j with
        | none => rw [hp] at hj; simp at hj
        | some pdc =>
          rw [hp] at hj
          by_cases hlc : pdc.lc < 0
          · simp [hlc] at hj
          · simp [hlc] at hj
            exact ⟨j, pdc, hp, by omega⟩
      · rintro ⟨j, pdc, hp, hlc⟩
        exact ⟨j, List.mem_finRange j, by rw [hp]; simp [hlc]⟩
  · simp [hA]

/-- C27 (the code at the failing input). For the active rigid body whose
x-translation has a driver with `lc = 0`, the test `lc < 0` lets the driver
through and `UpdateRigidBodies` calls `GetLoadCurve(lc - 1)` with the index `-1`:
the only load curve call of the update has index `-1`, and the displacement
`du[0]` is computed from the value of that curve, `1 * 7 - 0.5`. -/
theorem rigid_load_curve_index_minus_one :
    (zeroCurveBodySolver.m_fem.m_RB 0).m_bActive = true ∧
    ((zeroCurveBodySolver.m_fem.m_RB 0).m_pDC 0).map (fun pdc => pdc.lc) = some 0 ∧
    UpdateRigidBodiesLoadCurveCalls zeroCurveBodySolver = [-1] ∧
    ((UpdateRigidBodies restExt zeroCurveBodySolver (fun _ => 0) 1).m_fem.m_RB 0).m_du 0
      = 1 * zeroCurveBodySolver.m_fem.LoadCurve (-1) - 1 / 2 ∧
    ((UpdateRigidBodies restExt zeroCurveBodySolver (fun _ => 0) 1).m_fem.m_RB 0).m_du 0
      = 13 / 2 := by
  refine ⟨rfl, rfl, by decide, ?_, ?_⟩ <;>
    norm_num [UpdateRigidBodies, forEach_apply, updateRigidBody, rigidDu, duDisplacement,
      zeroCurveBodySolver, emptyModel, restBody]

end Lemmas

end FEBio
